import Mathlib

/-!
Asynchronous polling and reconciliation in the Akamai Terraform provider

A shallow embedding of the polling / retry loops and of the reconciliation code of four
resources:

* `Cloudlets`: `resource_akamai_cloudlets_policy_activation.go` and
  `resource_akamai_cloudlets_policy_activation_v3.go`
* `CPS`: `resource_akamai_cps_dv_validation.go`
* `Property`: `resource_akamai_property_include_activation.go`
* `GTM`: `resource_akamai_gtm_resource.go`

Conventions of the embedding.

* The API client is an oracle: the answer to a call may depend on the request and on the
  number of API calls issued before it, so a server whose state changes over time (or
  out-of-band) is covered.  Every call is appended to a log.
* A Go `select` between `time.After` and `ctx.Done()` is resolved by an oracle too: the
  answer to the `n`-th `select` says whether the timer fired or the context was done, and
  with which `ctx.Err()`.
* Loops that the source bounds only by the context carry a `fuel` argument counting loop
  iterations; `none` means that the loop is still running after `fuel` iterations.
* Go `int`/`int64` values are only compared, never added, so they are `Int`; a
  `time.Duration` is a `Nat` of nanoseconds (the durations that occur stay far below
  2^63).
* A `nil` slice and an empty slice are both `[]`: the source uses `len` and `range` on
  them, and `reflect.DeepEqual` only on two slices that are both built by `append` on a
  nil slice.
* A Go map is the list of its entries; where `range` over a map matters, the order of the
  visit is a parameter.
-/

/-! ## Part I: definitions -/

namespace GoStd

/-- Go `strings.HasPrefix` on the characters of a string. -/
def hasPrefixChars : List Char → List Char → Bool
  | _, [] => true
  | [], _ :: _ => false
  | c :: s, d :: p => c == d && hasPrefixChars s p

/-- Go `strings.Contains` on the characters of a string. -/
def containsChars : List Char → List Char → Bool
  | [], sub => sub.isEmpty
  | c :: s, sub => hasPrefixChars (c :: s) sub || containsChars s sub

/-- Go `strings.Contains(s, substr)`. -/
def stringsContains (s substr : String) : Bool :=
  containsChars s.toList substr.toList

/-- Insertion of one element in front of the first element it is `less` than or
equivalent to; used by `insertionSortSlice`. -/
def insertSorted {α : Type} (less : α → α → Bool) (a : α) : List α → List α
  | [] => [a]
  | b :: l => if less b a then b :: insertSorted less a l else a :: b :: l

/-- A concrete instance of Go `sort.Slice`: insertion sort (which is what `sort.Slice`
runs on slices of at most 12 elements). -/
def insertionSortSlice {α : Type} (less : α → α → Bool) : List α → List α
  | [] => []
  | a :: l => insertSorted less a (insertionSortSlice less l)

/-- Go `strings.Split(s, sep)` for a separator of one character, on character lists: the
pieces between the separators (one piece more than there are separators). -/
def splitOnChar (sep : Char) : List Char → List (List Char)
  | [] => [[]]
  | c :: s =>
    if c = sep then [] :: splitOnChar sep s
    else
      match splitOnChar sep s with
      | [] => [[c]]
      | piece :: pieces => (c :: piece) :: pieces

/-- Go `strings.Split(s, sep)` for a separator of one character. -/
def stringsSplit (s : String) (sep : Char) : List String :=
  (splitOnChar sep s.toList).map String.mk

/-- Go `a < b` on strings, on character lists: lexicographic order (Go compares bytes,
and UTF-8 keeps the order of the characters). -/
def charsLess : List Char → List Char → Bool
  | _, [] => false
  | [], _ :: _ => true
  | a :: s, b :: t => decide (a.toNat < b.toNat) || (a == b && charsLess s t)

/-- Go `a > b` on strings. -/
def stringGreater (a b : String) : Bool :=
  charsLess b.toList a.toList

/-- What `sort.Slice(l, less)` guarantees about its result `sorted` when `less` is a strict
weak order: the result is a permutation of `l` in which no element is `less` than an
element before it. -/
def IsSortOf {α : Type} (less : α → α → Bool) (l sorted : List α) : Prop :=
  sorted.Perm l ∧ sorted.Pairwise (fun a b => less b a = false)

/-- The characters that Go `unicode.IsSpace` accepts (`strings.TrimSpace` removes them). -/
def isSpace (c : Char) : Bool :=
  c == ' ' || c == '\t' || c == '\n' || c == '\x0b' || c == '\x0c' || c == '\r' ||
  c.toNat == 0x85 || c.toNat == 0xA0 || c.toNat == 0x1680 ||
  (0x2000 ≤ c.toNat && c.toNat ≤ 0x200a) || c.toNat == 0x2028 || c.toNat == 0x2029 ||
  c.toNat == 0x202f || c.toNat == 0x205f || c.toNat == 0x3000

/-- The test `len(strings.TrimSpace(s)) == 0`: every character of `s` is a space. -/
def trimSpaceIsEmpty (s : String) : Bool :=
  s.toList.all isSpace

/-! ### `fmt.Sprintf(format)` without operands -/

/-- Result of fmt's `parsenum`: `overflow` is the "number too large" exit, which moves to
the end of the scanned range; otherwise whether digits were read and the text after them. -/
inductive ParseNum where
  | overflow : ParseNum
  | parsed (isnum : Bool) (rest : List Char) : ParseNum
  deriving DecidableEq, Repr

/-- The loop of fmt's `parsenum`: `num` is the number read so far. -/
def parsenumLoop : Nat → Bool → List Char → ParseNum
  | _, isnum, [] => .parsed isnum []
  | num, isnum, c :: s =>
    if '0' ≤ c ∧ c ≤ '9' then
      if num > 1000000 then .overflow
      else parsenumLoop (num * 10 + (c.toNat - '0'.toNat)) true s
    else .parsed isnum (c :: s)

/-- The text up to the first `]` and the text after it, if there is a `]`. -/
def splitAtBracket : List Char → Option (List Char × List Char)
  | [] => none
  | c :: s =>
    if c = ']' then some ([], s)
    else
      match splitAtBracket s with
      | some (seg, rest) => some (c :: seg, rest)
      | none => none

/-- fmt's `argNumber` when there are no operands: the remaining format, `found`, and
whether an argument index `[...]` was met (which always clears `goodArgNum`, no index being
valid without operands). -/
def argNumber (s : List Char) : List Char × Bool × Bool :=
  match s with
  | '[' :: t =>
    if s.length < 3 then (t, false, true)
    else
      match splitAtBracket t with
      | some (seg, rest) =>
        (rest, decide (parsenumLoop 0 false seg = .parsed true []), true)
      | none => (t, false, true)
  | _ => (s, false, false)

/-- The flags loop of `doPrintf`. -/
def isFlagChar (c : Char) : Bool :=
  c == '#' || c == '0' || c == '+' || c == '-' || c == ' '

/-- The width part of a directive: output, remaining format, `afterIndex`, `goodArgNum`. -/
def sprintfWidth (s : List Char) (afterIndex good : Bool) :
    List Char × List Char × Bool × Bool :=
  match s with
  | '*' :: t => ("%!(BADWIDTH)".toList, t, false, good)
  | _ =>
    match parsenumLoop 0 false s with
    | .overflow => ([], [], afterIndex, good)
    | .parsed isnum rest => ([], rest, afterIndex, good && !(afterIndex && isnum))

/-- The precision part of a directive: output, remaining format, `afterIndex`,
`goodArgNum`.  The test is `i+1 < end && format[i] == '.'`: a `.` that ends the format is
no precision and is left to be read as the verb. -/
def sprintfPrecision (s : List Char) (afterIndex good : Bool) :
    List Char × List Char × Bool × Bool :=
  match s with
  | '.' :: c :: t =>
    match argNumber (c :: t) with
    | (t2, found, bracket) =>
      match t2 with
      | '*' :: t3 => ("%!(BADPREC)".toList, t3, false, good && !afterIndex && !bracket)
      | _ =>
        match parsenumLoop 0 false t2 with
        | .overflow => ([], [], found, good && !afterIndex && !bracket)
        | .parsed _ rest => ([], rest, found, good && !afterIndex && !bracket)
  | _ => ([], s, afterIndex, good)

/-- One directive of `doPrintf` when there are no operands; `s` is the format after the
`%`.  The result is the output of the directive and the remaining format. -/
def sprintfDirective (s : List Char) : List Char × List Char :=
  match argNumber (s.dropWhile isFlagChar) with
  | (s2, afterIndex2, bracket2) =>
    match sprintfWidth s2 afterIndex2 (!bracket2) with
    | (out3, s3, afterIndex3, good3) =>
      match sprintfPrecision s3 afterIndex3 good3 with
      | (out4, s4, afterIndex4, good4) =>
        match (if afterIndex4 then (s4, good4)
               else ((argNumber s4).1, good4 && !(argNumber s4).2.2)) with
        | (s5, good5) =>
          match s5 with
          | [] => (out3 ++ out4 ++ "%!(NOVERB)".toList, [])
          | verb :: rest =>
            if verb = '%' then (out3 ++ out4 ++ ['%'], rest)
            else if good5 then
              (out3 ++ out4 ++ "%!".toList ++ [verb] ++ "(MISSING)".toList, rest)
            else (out3 ++ out4 ++ "%!".toList ++ [verb] ++ "(BADINDEX)".toList, rest)

/-- The loop `formatLoop` of `doPrintf` when there are no operands; the fuel bounds the
number of steps, each of which consumes at least one character. -/
def sprintfLoop : Nat → List Char → List Char
  | 0, _ => []
  | _ + 1, [] => []
  | fuel + 1, c :: s =>
    if c = '%' then (sprintfDirective s).1 ++ sprintfLoop fuel (sprintfDirective s).2
    else c :: sprintfLoop fuel s

/-- Go `fmt.Sprintf(format)` called without operands, as `diag.Errorf(format)` does. -/
def sprintfNoOperands (format : String) : String :=
  String.mk (sprintfLoop (format.length + 1) format.toList)

end GoStd

namespace Cloudlets

/-! ### Errors -/

/-- Error values as they reach `shouldRetryActivation`: a `*v3.Error` of the SDK (which has
no `Unwrap` method, so it ends a chain), any other error that wraps nothing, or an error
that wraps another one (`fmt.Errorf("...%w", inner)`).  Of a `*v3.Error` only `Status` is
read. -/
inductive GoError where
  | v3Error (status : Int) : GoError
  | other (msg : String) : GoError
  | wrap (msg : String) (inner : GoError) : GoError
  deriving DecidableEq, Repr

/-- Go `errors.As(err, &v3Error)` with `v3Error` of type `*v3.Error`: the first error of the
chain that is a `*v3.Error`; the result is its `Status`. -/
def errorsAsV3 : GoError → Option Int
  | .v3Error status => some status
  | .other _ => none
  | .wrap _ inner => errorsAsV3 inner

/-- Embedding of `v3ActivationStrategy.shouldRetryActivation`; `none` is the `nil` error. -/
def shouldRetryActivation (err : Option GoError) : Bool :=
  match err with
  | none => false
  | some e =>
    match errorsAsV3 e with
    | some status => decide (status ≥ 500)
    | none => false

/-- The relation "`e` wraps a v3 API error whose `Status` is `s`", stated on the chain
independently of `errorsAsV3`. -/
inductive WrapsV3 : GoError → Int → Prop where
  | here (s : Int) : WrapsV3 (.v3Error s) s
  | there (msg : String) (inner : GoError) (s : Int) :
      WrapsV3 inner s → WrapsV3 (.wrap msg inner) s

/-! ### Data of the cloudlets v2 API -/

/-- The SDK constant `cloudlets.PolicyActivationStatusActive`. -/
def PolicyActivationStatusActive : String := "active"

/-- The SDK constant `cloudlets.PolicyActivationStatusFailed`. -/
def PolicyActivationStatusFailed : String := "failed"

/-- The SDK constant `cloudlets.PolicyActivationStatusPending`. -/
def PolicyActivationStatusPending : String := "pending"

/-- The fields of `cloudlets.PolicyInfo` that the resource reads. -/
structure PolicyInfo where
  PolicyID : Int
  Version : Int
  Status : String
  StatusDetail : String
  ActivationDate : Int
  deriving DecidableEq, Repr

/-- The fields of `cloudlets.PropertyInfo` that the resource reads. -/
structure PropertyInfo where
  Name : String
  deriving DecidableEq, Repr

/-- The fields of `cloudlets.PolicyActivation` that the resource reads. -/
structure PolicyActivation where
  Network : String
  PolicyInfo : PolicyInfo
  PropertyInfo : PropertyInfo
  deriving DecidableEq, Repr

/-- The request `cloudlets.ListPolicyActivationsRequest`. -/
structure ListPolicyActivationsRequest where
  PolicyID : Int
  Network : String
  deriving DecidableEq, Repr

/-- The request `cloudlets.ActivatePolicyVersionRequest`, with the fields of its
`PolicyVersionActivation` inlined. -/
structure ActivatePolicyVersionRequest where
  PolicyID : Int
  Async : Bool
  Version : Int
  Network : String
  AdditionalPropertyNames : List String
  deriving DecidableEq, Repr

/-- The request `cloudlets.DeletePolicyPropertyRequest`. -/
structure DeletePolicyPropertyRequest where
  PolicyID : Int
  PropertyID : Int
  Network : String
  deriving DecidableEq, Repr

/-- The fields of `cloudlets.PolicyProperty` that the resource reads. -/
structure PolicyProperty where
  ID : Int
  deriving DecidableEq, Repr

/-- The fields of `v3.PolicyActivation` that `waitForActivation` reads. -/
structure V3PolicyActivation where
  ID : Int
  PolicyID : Int
  Status : String
  deriving DecidableEq, Repr

/-- The API requests that the modelled functions issue. -/
inductive Request where
  | listPolicyActivations (req : ListPolicyActivationsRequest) : Request
  | getPolicyVersion (policyID version : Int) : Request
  | getPolicyProperties (policyID : Int) : Request
  | deletePolicyProperty (req : DeletePolicyPropertyRequest) : Request
  | activatePolicyVersion (req : ActivatePolicyVersionRequest) : Request
  | getPolicyActivation (policyID activationID : Int) : Request
  deriving DecidableEq, Repr

/-- Value of `ctx.Err()` once the context is done. -/
inductive CtxErr where
  | deadlineExceeded : CtxErr
  | canceled : CtxErr
  | other (msg : String) : CtxErr
  deriving DecidableEq, Repr

/-- Outcome of one `select` between `time.After(...)` and `ctx.Done()`. -/
inductive Tick where
  | timer : Tick
  | done (err : CtxErr) : Tick
  deriving DecidableEq, Repr

/-- The errors returned by the polling functions of
`resource_akamai_cloudlets_policy_activation.go`:
* `client e`: the error `e` of an API call, returned unchanged;
* `policyActivationTimeout`: `ErrPolicyActivationTimeout`;
* `policyActivationCanceled`: `ErrPolicyActivationCanceled`;
* `contextTerminated msg`: `fmt.Errorf("%v: %w", ErrPolicyActivationContextTerminated, ctx.Err())`;
* `activationFailure id detail`:
  `fmt.Errorf("%v: policyID %d activation failure: %s", ErrPolicyActivation, id, detail)`;
* `notAllPropertiesActive id`:
  `fmt.Errorf("%v: policyID %d: not all properties are active", ErrPolicyActivation, id)`;
* `activationFailedForPolicy id`: `fmt.Errorf("activation failed for policy %d", id)`;
* `cannotFindPolicyProperties id e`:
  `fmt.Errorf("%w: cannot find policy %d properties: %s", ErrPolicyActivation, id, e)`;
* `cannotRemoveProperty id propertyID network e`: `fmt.Errorf("%w: cannot remove policy %d
  property %d and network '%s'. Please, try once again later.\n%s", ...)`;
* `failedToListActivations id e`: `fmt.Errorf("%w: failed to list policy activations for
  policy %d: %s", ErrPolicyActivation, id, e)`;
* `pendingActivationFailed id detail`:
  `fmt.Errorf("%v: policyID %d: %s", ErrPolicyActivation, id, detail)`. -/
inductive Err where
  | client (e : GoError) : Err
  | policyActivationTimeout : Err
  | policyActivationCanceled : Err
  | contextTerminated (msg : String) : Err
  | activationFailure (policyID : Int) (statusDetail : String) : Err
  | notAllPropertiesActive (policyID : Int) : Err
  | activationFailedForPolicy (policyID : Int) : Err
  | cannotFindPolicyProperties (policyID : Int) (e : GoError) : Err
  | cannotRemoveProperty (policyID propertyID : Int) (network : String) (e : GoError) : Err
  | failedToListActivations (policyID : Int) (e : Err) : Err
  | pendingActivationFailed (policyID : Int) (statusDetail : String) : Err
  deriving DecidableEq, Repr

/-- The `case <-ctx.Done():` branch shared by the polling loops. -/
def ctxDoneError : CtxErr → Err
  | .deadlineExceeded => .policyActivationTimeout
  | .canceled => .policyActivationCanceled
  | .other msg => .contextTerminated msg

/-- The error of an `ActivatePolicyVersion` call: its message `err.Error()` and the result
of `policyActivationRetryRegexp.MatchString(strings.ToLower(err.Error()))`. -/
structure ActivationError where
  msg : String
  matchesRetryRegexp : Bool
  deriving DecidableEq, Repr

/-- The environment of a run: the answer of `client.ListPolicyActivations` to a request,
given the number of API calls issued before, and the outcome of the `n`-th `select`.  The
other methods of the v2 client and `GetPolicyActivation` of the v3 client are given in the
same way; `GetPolicyProperties` answers with the map as a list of entries with distinct
keys, and a method that only reports an error answers `none` for the nil error.  By
default these methods answer without error. -/
structure World where
  ListPolicyActivations : Nat → ListPolicyActivationsRequest →
    Except GoError (List PolicyActivation)
  select : Nat → Tick
  GetPolicyVersion : Nat → Int → Int → Option GoError := fun _ _ _ => none
  GetPolicyProperties : Nat → Int → Except GoError (List (String × PolicyProperty)) :=
    fun _ _ => .ok []
  DeletePolicyProperty : Nat → DeletePolicyPropertyRequest → Option GoError :=
    fun _ _ => none
  ActivatePolicyVersion : Nat → ActivatePolicyVersionRequest → Option ActivationError :=
    fun _ _ => none
  GetPolicyActivation : Nat → Int → Int → Except GoError (Option V3PolicyActivation) :=
    fun _ _ _ => .ok none

/-- The progress of a run: the API requests issued so far (oldest first) and the number of
`select` statements executed so far. -/
structure Run where
  calls : List Request
  selects : Nat
  deriving DecidableEq, Repr

/-- The run after one more API request. -/
def Run.call (r : Run) (req : Request) : Run :=
  { r with calls := r.calls ++ [req] }

/-- The run after one more `select`. -/
def Run.tick (r : Run) : Run :=
  { r with selects := r.selects + 1 }

/-- The variable `MaxListActivationsPollRetries`. -/
def MaxListActivationsPollRetries : Nat := 5

/-! ### `waitForListPolicyActivations` -/

/-- The loop `for len(activations) == 0 && listActivationsPollRetries > 0` of
`waitForListPolicyActivations`; the first argument is `listActivationsPollRetries`. -/
def waitForListPolicyActivationsLoop (w : World) (req : ListPolicyActivationsRequest) :
    Nat → List PolicyActivation → Run → Except Err (List PolicyActivation) × Run
  | 0, activations, r => (.ok activations, r)
  | retries + 1, activations, r =>
    if activations.length = 0 then
      match w.select r.selects with
      | .timer =>
        match w.ListPolicyActivations r.calls.length req with
        | .error e => (.error (.client e), (r.tick).call (.listPolicyActivations req))
        | .ok acts =>
          waitForListPolicyActivationsLoop w req retries acts
            ((r.tick).call (.listPolicyActivations req))
      | .done e => (.error (ctxDoneError e), r.tick)
    else (.ok activations, r)

/-- Embedding of `waitForListPolicyActivations`. -/
def waitForListPolicyActivations (w : World) (req : ListPolicyActivationsRequest) (r : Run) :
    Except Err (List PolicyActivation) × Run :=
  match w.ListPolicyActivations r.calls.length req with
  | .error e => (.error (.client e), r.call (.listPolicyActivations req))
  | .ok acts =>
    waitForListPolicyActivationsLoop w req MaxListActivationsPollRetries acts
      (r.call (.listPolicyActivations req))

/-! ### `filterActivations` -/

/-- Go `sort.Slice` on a slice of activations, as a parameter: the standard library does
not fix the order of elements that compare equal. -/
abbrev SliceSort := (PolicyActivation → PolicyActivation → Bool) →
  List PolicyActivation → List PolicyActivation

/-- Embedding of `sortPolicyActivationsByDate`. -/
def sortPolicyActivationsByDate (sortSlice : SliceSort) (activations : List PolicyActivation) :
    List PolicyActivation :=
  sortSlice (fun a b => decide (a.PolicyInfo.ActivationDate > b.PolicyInfo.ActivationDate))
    activations

/-- The first loop of `filterActivations`, which collects `lastActivationBlock`; the
arguments are `lastActivationDate`, `lastActivationBlock` and the activations not yet
visited. -/
def collectLastActivationBlock : Int → List PolicyActivation → List PolicyActivation →
    List PolicyActivation
  | _, block, [] => block
  | lastActivationDate, block, act :: rest =>
    if lastActivationDate ≠ 0 ∧ lastActivationDate ≠ act.PolicyInfo.ActivationDate then
      block
    else
      collectLastActivationBlock act.PolicyInfo.ActivationDate (block ++ [act]) rest

/-- The second loop of `filterActivations`, which computes `allPropertiesActive`. -/
def allPropertiesPresent (lastActivationBlock : List PolicyActivation) (version : Int)
    (properties : List String) : Bool :=
  properties.all (fun name =>
    lastActivationBlock.any (fun act =>
      decide (act.PropertyInfo.Name = name) && decide (act.PolicyInfo.Version = version)))

/-- Embedding of `filterActivations`. -/
def filterActivations (sortSlice : SliceSort) (activations : List PolicyActivation)
    (version : Int) (properties : List String) : List PolicyActivation :=
  let lastActivationBlock :=
    collectLastActivationBlock 0 [] (sortPolicyActivationsByDate sortSlice activations)
  if allPropertiesPresent lastActivationBlock version properties then lastActivationBlock
  else []

/-! ### `waitForPolicyActivation` -/

/-- The test `Status == PolicyActivationStatusFailed || strings.Contains(StatusDetail, "fail")`
of `waitForPolicyActivation`. -/
def activationFailed (act : PolicyActivation) : Bool :=
  decide (act.PolicyInfo.Status = PolicyActivationStatusFailed) ||
    GoStd.stringsContains act.PolicyInfo.StatusDetail "fail"

/-- The labelled loop `activations:` of `waitForPolicyActivation` over the current
activations, with the flags `allActive` and `allRemoved` threaded through; an error is the
early `return nil, fmt.Errorf(...)`. -/
def scanActivations (version : Int) (removedProperties : List String) :
    Bool → Bool → List PolicyActivation → Except Err (Bool × Bool)
  | allActive, allRemoved, [] => .ok (allActive, allRemoved)
  | allActive, allRemoved, act :: rest =>
    if act.PolicyInfo.Version = version ∧ activationFailed act = true then
      .error (.activationFailure act.PolicyInfo.PolicyID act.PolicyInfo.StatusDetail)
    else if act.PolicyInfo.Version = version ∧
        act.PolicyInfo.Status ≠ PolicyActivationStatusActive then
      .ok (false, allRemoved)
    else if removedProperties.any (fun property => decide (property = act.PropertyInfo.Name))
    then .ok (allActive, false)
    else scanActivations version removedProperties allActive allRemoved rest

/-- The loop `for len(activations) > 0` of `waitForPolicyActivation` together with the code
after it. -/
def waitForPolicyActivationLoop (sortSlice : SliceSort) (w : World)
    (policyID version : Int) (network : String)
    (additionalProps removedProperties : List String) :
    Nat → List PolicyActivation → Run → Option (Except Err (List PolicyActivation) × Run)
  | fuel, activations, r =>
    if activations.length > 0 then
      match scanActivations version removedProperties true true activations with
      | .error e => some (.error e, r)
      | .ok (allActive, allRemoved) =>
        if allActive && allRemoved then some (.ok activations, r)
        else
          match fuel with
          | 0 => none
          | fuel + 1 =>
            match w.select r.selects with
            | .timer =>
              match waitForListPolicyActivations w ⟨policyID, network⟩ r.tick with
              | (.error e, r2) => some (.error e, r2)
              | (.ok acts, r2) =>
                waitForPolicyActivationLoop sortSlice w policyID version network
                  additionalProps removedProperties fuel
                  (filterActivations sortSlice acts version additionalProps) r2
            | .done e => some (.error (ctxDoneError e), r.tick)
    else some (.error (.notAllPropertiesActive policyID), r)

/-- Embedding of `waitForPolicyActivation`. -/
def waitForPolicyActivation (sortSlice : SliceSort) (w : World) (fuel : Nat)
    (policyID version : Int) (network : String)
    (additionalProps removedProperties : List String) (r : Run) :
    Option (Except Err (List PolicyActivation) × Run) :=
  match waitForListPolicyActivations w ⟨policyID, network⟩ r with
  | (.error e, r1) => some (.error e, r1)
  | (.ok acts, r1) =>
    waitForPolicyActivationLoop sortSlice w policyID version network additionalProps
      removedProperties fuel (filterActivations sortSlice acts version additionalProps) r1

/-! ### Vocabulary of the statements -/

/-- The run after `k` further rounds of the loop of `waitForListPolicyActivations`: `k`
more `select`s, each followed by a `ListPolicyActivations` call. -/
def Run.polls (r : Run) (req : ListPolicyActivationsRequest) (k : Nat) : Run :=
  ⟨r.calls ++ List.replicate k (.listPolicyActivations req), r.selects + k⟩

/-- No activation of the requested version in `l` passes the failure test of
`waitForPolicyActivation`. -/
def NoneFailed (version : Int) (l : List PolicyActivation) : Prop :=
  ∀ a ∈ l, a.PolicyInfo.Version = version → activationFailed a = false

/-- Every activation of the requested version in `l` is active and no activation in `l`
belongs to a removed property. -/
def AllSettled (version : Int) (removedProperties : List String)
    (l : List PolicyActivation) : Prop :=
  (∀ a ∈ l, a.PolicyInfo.Version = version →
    a.PolicyInfo.Status = PolicyActivationStatusActive) ∧
  (∀ a ∈ l, a.PropertyInfo.Name ∉ removedProperties)

/-- The four causes of an error `e` of `waitForPolicyActivation` that ends in run `r2`,
for API calls from index `lo` and `select`s from index `slo` on: a failed activation of
the requested version in the filtered answer of a listing call, the error of a listing
call, a done context, or a listing call whose filtered answer is empty. -/
def ErrorCause (sortSlice : SliceSort) (w : World) (policyID version : Int) (network : String)
    (props : List String) (lo slo : Nat) (e : Err) (r2 : Run) : Prop :=
  (∃ n acts a, lo ≤ n ∧ n < r2.calls.length ∧
      w.ListPolicyActivations n ⟨policyID, network⟩ = .ok acts ∧
      a ∈ filterActivations sortSlice acts version props ∧
      a.PolicyInfo.Version = version ∧ activationFailed a = true ∧
      e = .activationFailure a.PolicyInfo.PolicyID a.PolicyInfo.StatusDetail) ∨
  (∃ n ge, lo ≤ n ∧ n < r2.calls.length ∧
      w.ListPolicyActivations n ⟨policyID, network⟩ = .error ge ∧ e = .client ge) ∨
  (∃ k c, slo ≤ k ∧ k < r2.selects ∧ w.select k = .done c ∧ e = ctxDoneError c) ∨
  (∃ n acts, lo ≤ n ∧ n < r2.calls.length ∧
      w.ListPolicyActivations n ⟨policyID, network⟩ = .ok acts ∧
      filterActivations sortSlice acts version props = [] ∧
      e = .notAllPropertiesActive policyID)

/-! ### Concrete runs -/

/-- An activation on staging of policy 1 for property `name`. -/
def mkActivation (name : String) (version : Int) (status : String) (date : Int) :
    PolicyActivation :=
  { Network := "staging",
    PolicyInfo := { PolicyID := 1, Version := version, Status := status, StatusDetail := "",
                    ActivationDate := date },
    PropertyInfo := { Name := name } }

/-- A server that never lists an activation; the context never ends. -/
def worldAlwaysEmpty : World :=
  { ListPolicyActivations := fun _ _ => .ok [],
    select := fun _ => .timer }

/-- A server on which version 2 for property `a` is pending at the first listing and
active from the second listing on; the context never ends. -/
def worldPendingThenActive : World :=
  { ListPolicyActivations := fun n _ =>
      if n = 0 then .ok [mkActivation "a" 2 "pending" 10]
      else .ok [mkActivation "a" 2 "active" 10],
    select := fun _ => .timer }

/-- A server whose latest activation block is the active version 1 for property `a`: the
activation of version 2 is not listed (yet); the context never ends. -/
def worldOldVersion : World :=
  { ListPolicyActivations := fun _ _ => .ok [mkActivation "a" 1 "active" 10],
    select := fun _ => .timer }

/-! ### Vocabulary and runs for `filterActivations` -/

/-- The `less` function of `sortPolicyActivationsByDate`: later activation dates first. -/
def activatedLater (a b : PolicyActivation) : Bool :=
  decide (a.PolicyInfo.ActivationDate > b.PolicyInfo.ActivationDate)

/-- The activations of `activations` that carry the greatest activation date. -/
def latestActivations (activations : List PolicyActivation) : List PolicyActivation :=
  activations.filter (fun a =>
    decide (∀ b ∈ activations, b.PolicyInfo.ActivationDate ≤ a.PolicyInfo.ActivationDate))

/-- The `lastActivationBlock` that `filterActivations` collects. -/
def lastActivationBlock (sortSlice : SliceSort) (activations : List PolicyActivation) :
    List PolicyActivation :=
  collectLastActivationBlock 0 [] (sortPolicyActivationsByDate sortSlice activations)

/-- An activation with the activation date 0. -/
def activationDateZero : PolicyActivation := mkActivation "a" 1 "active" 0

/-- An activation of another property with the activation date -1. -/
def activationDateNegative : PolicyActivation := mkActivation "b" 1 "active" (-1)

/-! ### `v3ActivationStrategy.waitForActivation` -/

/-- The SDK constant `v3.ActivationStatusSuccess`. -/
def V3ActivationStatusSuccess : String := "SUCCESS"

/-- The SDK constant `v3.ActivationStatusFailed`. -/
def V3ActivationStatusFailed : String := "FAILED"

/-- The fields of `v3ActivationStrategy` that `waitForActivation` reads (the client is the
`World`). -/
structure v3ActivationStrategy where
  network : String
  activationID : Int
  deriving DecidableEq, Repr

/-- Embedding of `v3ActivationStrategy.getID`: `fmt.Sprintf("%d:%s", policyID, network)`. -/
def v3ActivationStrategy.getID (strategy : v3ActivationStrategy) (policyID : Int) : String :=
  toString policyID ++ ":" ++ strategy.network

/-- Embedding of `v3ActivationStrategy.waitForActivation`; `none` means that the loop is
still running after `fuel` iterations. -/
def v3ActivationStrategy.waitForActivation (strategy : v3ActivationStrategy) (w : World)
    (policyID : Int) : Nat → Run → Option (Except Err String × Run)
  | 0, _ => none
  | fuel + 1, r =>
    match w.select r.selects with
    | .timer =>
      match w.GetPolicyActivation r.calls.length policyID strategy.activationID with
      | .error e =>
        some (.error (.client e),
          (r.tick).call (.getPolicyActivation policyID strategy.activationID))
      | .ok none =>
        v3ActivationStrategy.waitForActivation strategy w policyID fuel
          ((r.tick).call (.getPolicyActivation policyID strategy.activationID))
      | .ok (some activation) =>
        if activation.Status = V3ActivationStatusSuccess then
          some (.ok (strategy.getID policyID),
            (r.tick).call (.getPolicyActivation policyID strategy.activationID))
        else if activation.Status = V3ActivationStatusFailed then
          some (.error (.activationFailedForPolicy policyID),
            (r.tick).call (.getPolicyActivation policyID strategy.activationID))
        else
          v3ActivationStrategy.waitForActivation strategy w policyID fuel
            ((r.tick).call (.getPolicyActivation policyID strategy.activationID))
    | .done e => some (.error (ctxDoneError e), r.tick)

/-- The answers of `GetPolicyActivation` after which `waitForActivation` polls again: a nil
activation, or an activation whose status is neither SUCCESS nor FAILED. -/
def KeepsPolling (answer : Except GoError (Option V3PolicyActivation)) : Prop :=
  answer = .ok none ∨
  ∃ activation, answer = .ok (some activation) ∧
    activation.Status ≠ V3ActivationStatusSuccess ∧
    activation.Status ≠ V3ActivationStatusFailed

/-- A v3 server on which activation 7 of policy 1 is in progress at the first poll and has
succeeded at the second; the context never ends. -/
def worldV3Succeeds : World :=
  { ListPolicyActivations := fun _ _ => .ok [],
    select := fun _ => .timer,
    GetPolicyActivation := fun n _ _ =>
      if n = 0 then .ok (some { ID := 7, PolicyID := 1, Status := "IN_PROGRESS" })
      else .ok (some { ID := 7, PolicyID := 1, Status := "SUCCESS" }) }

/-! ### The retry loop of `resourcePolicyActivationCreate` -/

/-- Go `time.Second`, in nanoseconds. -/
def Second : Nat := 1000000000

/-- The variable `PolicyActivationRetryPollMinimum`. -/
def PolicyActivationRetryPollMinimum : Nat := Second * 15

/-- The variable `PolicyActivationRetryTimeout` (`time.Minute * 10`). -/
def PolicyActivationRetryTimeout : Nat := 60 * Second * 10

/-- The diagnostics with which the retry loop of `resourcePolicyActivationCreate` returns:
* `createError msg`: `diag.Errorf("%v create: %s", ErrPolicyActivation, err.Error())`;
* `retryTimeout msg`:
  `diag.Errorf("timeout waiting for retrying policy activation: last error: %s", err)`;
* `retryCanceled msg`: `diag.Errorf("operation canceled while waiting for retrying policy
  activation, last error: %s", err)`;
* `contextTerminated msg`:
  `diag.FromErr(fmt.Errorf("operation context terminated: %w", ctx.Err()))`. -/
inductive RetryDiag where
  | createError (msg : String) : RetryDiag
  | retryTimeout (msg : String) : RetryDiag
  | retryCanceled (msg : String) : RetryDiag
  | contextTerminated (msg : String) : RetryDiag
  deriving DecidableEq, Repr

/-- The `case <-ctx.Done():` branch of the retry loop; `msg` is the message of the last
error of `ActivatePolicyVersion`. -/
def retryContextDone (ctxErr : CtxErr) (msg : String) : RetryDiag :=
  match ctxErr with
  | .deadlineExceeded => .retryTimeout msg
  | .canceled => .retryCanceled msg
  | .other ctxMsg => .contextTerminated ctxMsg

/-- The loop `for { _, err = client.ActivatePolicyVersion(...) ... }` of
`resourcePolicyActivationCreate`.  The arguments are the fuel, the variable
`pollingActivationTries` (nanoseconds) and, as a record of the run, the durations of the
timers that have fired so far (oldest first).  The result `none` inside `some` is the
`break` after a successful call; the outer `none` means that the loop is still running
after `fuel` further iterations. -/
def activatePolicyVersionRetryLoop (w : World) (req : ActivatePolicyVersionRequest) :
    Nat → Nat → List Nat → Run → Option (Option RetryDiag × List Nat × Run)
  | fuel, pollingActivationTries, waits, r =>
    match w.ActivatePolicyVersion r.calls.length req with
    | none => some (none, waits, r.call (.activatePolicyVersion req))
    | some err =>
      match w.select r.selects with
      | .timer =>
        if pollingActivationTries > PolicyActivationRetryTimeout ∨
            err.matchesRetryRegexp = false then
          some (some (.createError err.msg), waits ++ [pollingActivationTries],
            (r.call (.activatePolicyVersion req)).tick)
        else
          match fuel with
          | 0 => none
          | fuel + 1 =>
            activatePolicyVersionRetryLoop w req fuel (2 * pollingActivationTries)
              (waits ++ [pollingActivationTries]) ((r.call (.activatePolicyVersion req)).tick)
      | .done ctxErr =>
        some (some (retryContextDone ctxErr err.msg), waits,
          (r.call (.activatePolicyVersion req)).tick)

/-- The request with which `resourcePolicyActivationCreate` activates version 2 of policy 1
on staging for the property `www.example.com`. -/
def activateVersion2 : ActivatePolicyVersionRequest :=
  { PolicyID := 1, Async := true, Version := 2, Network := "staging",
    AdditionalPropertyNames := ["www.example.com"] }

/-- The retryable error of `ActivatePolicyVersion` for a property that does not exist
(yet). -/
def propertyDoesNotExist : ActivationError :=
  { msg := "requested propertyname \\\"www.example.com\\\" does not exist",
    matchesRetryRegexp := true }

/-- A server on which `ActivatePolicyVersion` keeps failing with the retryable error; the
context never ends. -/
def worldNeverActivates : World :=
  { ListPolicyActivations := fun _ _ => .ok [],
    select := fun _ => .timer,
    ActivatePolicyVersion := fun _ _ => some propertyDoesNotExist }

/-! ### `syncToServerRemovedProperties` -/

/-- The loop `for _, act := range activations` of `waitForNotPendingPolicyActivation`: the
error for a failed activation met before any pending one, else the value of `pending`. -/
def scanPending : List PolicyActivation → Except Err Bool
  | [] => .ok false
  | act :: rest =>
    if act.PolicyInfo.Status = PolicyActivationStatusFailed then
      .error (.pendingActivationFailed act.PolicyInfo.PolicyID act.PolicyInfo.StatusDetail)
    else if act.PolicyInfo.Status = PolicyActivationStatusPending then .ok true
    else scanPending rest

/-- The loop `for len(activations) > 0` of `waitForNotPendingPolicyActivation`; the result
`none` inside `some` is the nil error. -/
def waitForNotPendingLoop (w : World) (policyID : Int) (network : String) :
    Nat → List PolicyActivation → Run → Option (Option Err × Run)
  | fuel, activations, r =>
    if activations.length > 0 then
      match scanPending activations with
      | .error e => some (some e, r)
      | .ok false => some (none, r)
      | .ok true =>
        match fuel with
        | 0 => none
        | fuel + 1 =>
          match w.select r.selects with
          | .timer =>
            match waitForListPolicyActivations w ⟨policyID, network⟩ r.tick with
            | (.error e, r2) => some (some (.failedToListActivations policyID e), r2)
            | (.ok acts, r2) => waitForNotPendingLoop w policyID network fuel acts r2
          | .done e => some (some (ctxDoneError e), r.tick)
    else some (none, r)

/-- Embedding of `waitForNotPendingPolicyActivation`: the first listing asks for all
networks (the request has no `Network`), the later ones for `network`. -/
def waitForNotPendingPolicyActivation (w : World) (fuel : Nat) (policyID : Int)
    (network : String) (r : Run) : Option (Option Err × Run) :=
  match waitForListPolicyActivations w ⟨policyID, ""⟩ r with
  | (.error e, r1) => some (some (.failedToListActivations policyID e), r1)
  | (.ok acts, r1) => waitForNotPendingLoop w policyID network fuel acts r1

/-- The loop `activePropertiesLoop` of `syncToServerRemovedProperties` together with the
code after it; the arguments are the rest of `activeProps` and `removedProperties`. -/
def syncRemovedPropertiesLoop (w : World) (fuel : Nat) (policyID : Int) (network : String)
    (newPolicyProperties : List String) (policyProperties : List (String × PolicyProperty)) :
    List String → List String → Run → Option (Except Err (List String) × Run)
  | [], removedProperties, r =>
    match waitForNotPendingPolicyActivation w fuel policyID network r with
    | none => none
    | some (some e, r2) => some (.error e, r2)
    | some (none, r2) => some (.ok removedProperties, r2)
  | activeProp :: rest, removedProperties, r =>
    if newPolicyProperties.any (fun newProp => decide (activeProp = newProp)) then
      syncRemovedPropertiesLoop w fuel policyID network newPolicyProperties policyProperties
        rest removedProperties r
    else
      match policyProperties.lookup activeProp with
      | none =>
        syncRemovedPropertiesLoop w fuel policyID network newPolicyProperties
          policyProperties rest removedProperties r
      | some associateProperty =>
        match waitForNotPendingPolicyActivation w fuel policyID network r with
        | none => none
        | some (some e, r2) => some (.error e, r2)
        | some (none, r2) =>
          match w.DeletePolicyProperty r2.calls.length
              ⟨policyID, associateProperty.ID, network⟩ with
          | some e =>
            some (.error (.cannotRemoveProperty policyID associateProperty.ID network e),
              r2.call (.deletePolicyProperty ⟨policyID, associateProperty.ID, network⟩))
          | none =>
            syncRemovedPropertiesLoop w fuel policyID network newPolicyProperties
              policyProperties rest (removedProperties ++ [activeProp])
              (r2.call (.deletePolicyProperty ⟨policyID, associateProperty.ID, network⟩))

/-- Embedding of `syncToServerRemovedProperties`; `fuel` bounds the rounds of each wait
for pending activations. -/
def syncToServerRemovedProperties (w : World) (fuel : Nat) (policyID : Int)
    (network : String) (activeProps newPolicyProperties : List String) (r : Run) :
    Option (Except Err (List String) × Run) :=
  match w.GetPolicyProperties r.calls.length policyID with
  | .error e =>
    some (.error (.cannotFindPolicyProperties policyID e), r.call (.getPolicyProperties policyID))
  | .ok policyProperties =>
    syncRemovedPropertiesLoop w fuel policyID network newPolicyProperties policyProperties
      activeProps [] (r.call (.getPolicyProperties policyID))

/-- The `DeletePolicyProperty` requests of a call log, oldest first. -/
def deleteRequests (calls : List Request) : List DeletePolicyPropertyRequest :=
  calls.filterMap fun
    | .deletePolicyProperty req => some req
    | _ => none

/-- The names of `activeProps` that are unnecessary: not in `newPolicyProperties` and a key
of the map `policyProperties`. -/
def unnecessaryProperties (activeProps newPolicyProperties : List String)
    (policyProperties : List (String × PolicyProperty)) : List String :=
  activeProps.filter fun name =>
    !(newPolicyProperties.contains name) && (policyProperties.lookup name).isSome

/-- The `DeletePolicyProperty` request for the property `name` of the map. -/
def deleteRequestFor (policyID : Int) (network : String)
    (policyProperties : List (String × PolicyProperty)) (name : String) :
    Option DeletePolicyPropertyRequest :=
  (policyProperties.lookup name).map fun property => ⟨policyID, property.ID, network⟩

/-- A server with the properties `a` (ID 11), `b` (ID 12) and `c` (ID 13) on policy 1,
whose activations are all active. -/
def worldThreeProperties : World :=
  { ListPolicyActivations := fun _ _ => .ok [mkActivation "a" 1 "active" 10],
    select := fun _ => .timer,
    GetPolicyProperties := fun _ _ => .ok [("a", ⟨11⟩), ("b", ⟨12⟩), ("c", ⟨13⟩)] }

/-! ### `resourcePolicyActivationRead` and `resourcePolicyActivationUpdate` -/

/-- The SDK constant `cloudlets.PolicyActivationNetworkStaging`. -/
def PolicyActivationNetworkStaging : String := "staging"

/-- The SDK constant `cloudlets.PolicyActivationNetworkProduction`. -/
def PolicyActivationNetworkProduction : String := "prod"

/-- The part of `schema.ResourceData` that the resource uses: the resource ID, the results
of the getters of package `tf` for the attributes (an error carries its message), the
attribute `status`, and the keys of the attributes with a change.  `rd.Set` on `version`
and `associated_properties` replaces what the getters return. -/
structure ResourceData where
  id : String
  policy_id : Except String Int
  network : Except String String
  version : Except String Int
  associated_properties : Except String (List String)
  status : String
  changed : List String

/-- The method `rd.HasChanges(keys...)`. -/
def ResourceData.HasChanges (rd : ResourceData) (keys : List String) : Bool :=
  keys.any (fun key => rd.changed.contains key)

/-- The method `rd.HasChangeExcept(key)`. -/
def ResourceData.HasChangeExcept (rd : ResourceData) (key : String) : Bool :=
  rd.changed.any (fun k => k != key)

/-- The functions of package `tf` that the resource calls and that are not among the
sources: `tf.StateNetwork` and `tf.RestoreOldValues` (an error carries its message). -/
structure TfHelpers where
  StateNetwork : String → String
  RestoreOldValues : ResourceData → List String → Except String ResourceData

/-- The diagnostics of `resourcePolicyActivationRead` and `resourcePolicyActivationUpdate`:
* `fromErr msg`: `diag.FromErr(err)` for the error of a getter or of `tf.RestoreOldValues`;
* `networkName`: `diag.FromErr(ErrNetworkName)`;
* `cannotFindPolicyVersion version e`: `diag.Errorf("%s: cannot find the given policy
  version (%d): %s", ErrPolicyActivation.Error(), version, e)`;
* `updateError e`: `diag.Errorf("%v update: %s", ErrPolicyActivation, e)`;
* `activateError e`: the same for the error of `ActivatePolicyVersion`;
* `syncError e`: `diag.FromErr(e)` for the error of `syncToServerRemovedProperties`;
* `readError e`: `diag.Errorf("%v read: %s", ErrPolicyActivation, e)`;
* `readNoActivation policyID net`: `diag.Errorf("%v read: cannot find any activation for
  the given policy (%d) and network ('%s')", ...)`;
* `indexOutOfRange`: the run-time panic of `activations[0]` on an empty slice. -/
inductive Diag where
  | fromErr (msg : String) : Diag
  | networkName : Diag
  | cannotFindPolicyVersion (version : Int) (e : GoError) : Diag
  | updateError (e : Err) : Diag
  | activateError (e : ActivationError) : Diag
  | syncError (e : Err) : Diag
  | readError (e : Err) : Diag
  | readNoActivation (policyID : Int) (net : String) : Diag
  | indexOutOfRange : Diag
  deriving DecidableEq, Repr

/-- Embedding of `getPolicyActivationNetwork`; `none` is the error `ErrNetworkName`. -/
def getPolicyActivationNetwork (tf : TfHelpers) (net : String) : Option String :=
  if tf.StateNetwork net = "production" then some PolicyActivationNetworkProduction
  else if tf.StateNetwork net = "staging" then some PolicyActivationNetworkStaging
  else none

/-- Embedding of `formatPolicyActivationID`. -/
def formatPolicyActivationID (policyID : Int) (network : String) : String :=
  toString policyID ++ ":" ++ network

/-- Go `sort.Strings`. -/
def sortStrings (l : List String) : List String :=
  GoStd.insertionSortSlice (fun a b => GoStd.charsLess a.toList b.toList) l

/-- Embedding of `getActiveProperties`: the property names of the activations with status
`active`, of whatever version, sorted. -/
def getActiveProperties (policyActivations : List PolicyActivation) : List String :=
  sortStrings
    ((policyActivations.filter fun act =>
      decide (act.PolicyInfo.Status = PolicyActivationStatusActive)).map
        fun act => act.PropertyInfo.Name)

/-- The three `rd.Set` calls of `resourcePolicyActivationRead`; `first` is
`activations[0]`. -/
def readState (rd : ResourceData) (first : PolicyActivation)
    (activations : List PolicyActivation) : ResourceData :=
  { rd with
    status := first.PolicyInfo.Status,
    version := .ok first.PolicyInfo.Version,
    associated_properties := .ok (getActiveProperties activations) }

/-- Embedding of `resourcePolicyActivationRead`; `rd.Set` does not fail on values of the
type of the attribute. -/
def resourcePolicyActivationRead (sortSlice : SliceSort) (tf : TfHelpers) (w : World)
    (rd : ResourceData) (r : Run) : Option Diag × ResourceData × Run :=
  match rd.policy_id with
  | .error msg => (some (.fromErr msg), rd, r)
  | .ok policyID =>
    match rd.network with
    | .error msg => (some (.fromErr msg), rd, r)
    | .ok network =>
      match getPolicyActivationNetwork tf network with
      | none => (some .networkName, rd, r)
      | some net =>
        match waitForListPolicyActivations w ⟨policyID, net⟩ r with
        | (.error e, r1) => (some (.readError e), rd, r1)
        | (.ok activations, r1) =>
          if activations.length = 0 then (some (.readNoActivation policyID net), rd, r1)
          else
            match sortPolicyActivationsByDate sortSlice activations with
            | [] => (some .indexOutOfRange, rd, r1)
            | first :: rest => (none, readState rd first (first :: rest), r1)

/-- The condition of step 4 of `resourcePolicyActivationUpdate`,
`reflect.DeepEqual(activeProps, newPolicyProperties) && !rd.HasChanges("version") &&
activations[0].PolicyInfo.Version == version`; both slices are built by `append` on a nil
slice, so they are deeply equal when they hold the same strings in the same order; `none`
is the panic of `activations[0]` on an empty slice. -/
def alreadyActive (rd : ResourceData) (activations : List PolicyActivation)
    (activeProps newPolicyProperties : List String) (version : Int) : Option Bool :=
  if activeProps = newPolicyProperties ∧ rd.HasChanges ["version"] = false then
    match activations with
    | [] => none
    | first :: _ => some (decide (first.PolicyInfo.Version = version))
  else some false

/-- Steps 5 to 7 of `resourcePolicyActivationUpdate` and the final read. -/
def activateAndSync (sortSlice : SliceSort) (tf : TfHelpers) (w : World) (fuel : Nat)
    (rd : ResourceData) (policyID version : Int) (activationNetwork : String)
    (activeProps newPolicyProperties : List String) (r : Run) :
    Option (Option Diag × ResourceData × Run) :=
  match w.ActivatePolicyVersion r.calls.length
      ⟨policyID, true, version, activationNetwork, newPolicyProperties⟩ with
  | some e =>
    match tf.RestoreOldValues rd ["version", "associated_properties"] with
    | .error msg =>
      some (some (.fromErr msg), rd, r.call (.activatePolicyVersion
        ⟨policyID, true, version, activationNetwork, newPolicyProperties⟩))
    | .ok rd2 =>
      some (some (.activateError e), rd2, r.call (.activatePolicyVersion
        ⟨policyID, true, version, activationNetwork, newPolicyProperties⟩))
  | none =>
    match syncToServerRemovedProperties w fuel policyID activationNetwork activeProps
        newPolicyProperties (r.call (.activatePolicyVersion
          ⟨policyID, true, version, activationNetwork, newPolicyProperties⟩)) with
    | none => none
    | some (.error e, r2) => some (some (.syncError e), rd, r2)
    | some (.ok removedProperties, r2) =>
      match waitForPolicyActivation sortSlice w fuel policyID version activationNetwork
          newPolicyProperties removedProperties r2 with
      | none => none
      | some (.error e, r3) => some (some (.updateError e), rd, r3)
      | some (.ok _, r3) =>
        some (resourcePolicyActivationRead sortSlice tf w
          { rd with id := formatPolicyActivationID policyID activationNetwork } r3)

/-- Steps 3 and 4 of `resourcePolicyActivationUpdate`, followed by the rest of the
function. -/
def listAndActivate (sortSlice : SliceSort) (tf : TfHelpers) (w : World) (fuel : Nat)
    (rd : ResourceData) (policyID version : Int) (activationNetwork : String)
    (newPolicyProperties : List String) (r : Run) :
    Option (Option Diag × ResourceData × Run) :=
  match waitForListPolicyActivations w ⟨policyID, activationNetwork⟩ r with
  | (.error e, r1) => some (some (.updateError e), rd, r1)
  | (.ok listed, r1) =>
    match alreadyActive rd (sortPolicyActivationsByDate sortSlice listed)
        (getActiveProperties (sortPolicyActivationsByDate sortSlice listed))
        newPolicyProperties version with
    | none => some (some .indexOutOfRange, rd, r1)
    | some true =>
      some (resourcePolicyActivationRead sortSlice tf w
        { rd with id := formatPolicyActivationID policyID activationNetwork } r1)
    | some false =>
      activateAndSync sortSlice tf w fuel rd policyID version activationNetwork
        (getActiveProperties (sortPolicyActivationsByDate sortSlice listed))
        newPolicyProperties r1

/-- Embedding of `resourcePolicyActivationUpdate`; `none` means that a polling loop is
still running after `fuel` rounds. -/
def resourcePolicyActivationUpdate (sortSlice : SliceSort) (tf : TfHelpers) (w : World)
    (fuel : Nat) (rd : ResourceData) (r : Run) : Option (Option Diag × ResourceData × Run) :=
  if rd.HasChangeExcept "timeouts" = false then some (none, rd, r)
  else
    match rd.policy_id, rd.network with
    | .error msg, _ => some (some (.fromErr msg), rd, r)
    | .ok _, .error msg => some (some (.fromErr msg), rd, r)
    | .ok policyID, .ok network =>
      match getPolicyActivationNetwork tf network, rd.version with
      | none, _ => some (some .networkName, rd, r)
      | some _, .error msg => some (some (.fromErr msg), rd, r)
      | some activationNetwork, .ok version =>
        match w.GetPolicyVersion r.calls.length policyID version with
        | some e =>
          match tf.RestoreOldValues rd ["version", "associated_properties"] with
          | .error msg =>
            some (some (.fromErr msg), rd, r.call (.getPolicyVersion policyID version))
          | .ok rd2 =>
            some (some (.cannotFindPolicyVersion version e), rd2,
              r.call (.getPolicyVersion policyID version))
        | none =>
          match rd.associated_properties with
          | .error msg =>
            some (some (.fromErr msg), rd, r.call (.getPolicyVersion policyID version))
          | .ok associatedProps =>
            listAndActivate sortSlice tf w fuel rd policyID version activationNetwork
              (sortStrings associatedProps) (r.call (.getPolicyVersion policyID version))

/-! ### A run of `resourcePolicyActivationUpdate` -/

/-- A package `tf` whose `StateNetwork` returns the canonical names `production` and
`staging` unchanged and whose `RestoreOldValues` changes nothing. -/
def tfCanonical : TfHelpers :=
  { StateNetwork := fun net => net,
    RestoreOldValues := fun rd _ => .ok rd }

/-- Version 2 of policy 1 for property `a` on production: its activation is pending. -/
def productionPending : PolicyActivation :=
  { Network := "prod",
    PolicyInfo := { PolicyID := 1, Version := 2, Status := "pending", StatusDetail := "",
                    ActivationDate := 20 },
    PropertyInfo := { Name := "a" } }

/-- Version 1 of policy 1 for property `a` on production: the earlier, active
activation. -/
def productionActive : PolicyActivation :=
  { Network := "prod",
    PolicyInfo := { PolicyID := 1, Version := 1, Status := "active", StatusDetail := "",
                    ActivationDate := 10 },
    PropertyInfo := { Name := "a" } }

/-- A server that lists, for policy 1 on production, the pending activation of version 2
and the active one of version 1; the context never ends. -/
def worldProductionPending : World :=
  { ListPolicyActivations := fun _ _ => .ok [productionPending, productionActive],
    select := fun _ => .timer }

/-- The resource of policy 1 with version 2 and the property `a`, whose network was
changed from staging to production in the configuration. -/
def resourceNetworkChanged : ResourceData :=
  { id := "1:staging", policy_id := .ok 1, network := .ok "production", version := .ok 2,
    associated_properties := .ok ["a"], status := "active", changed := ["network"] }

/-- The resource after the run: the read has written the ID and the status. -/
def resourceAfterShortcut : ResourceData :=
  { id := "1:prod", policy_id := .ok 1, network := .ok "production", version := .ok 2,
    associated_properties := .ok ["a"], status := "pending", changed := ["network"] }

end Cloudlets

namespace CPS

/-! ### Data of the CPS API -/

/-- The fields of `cps.StatusInfoError` that the resource reads. -/
structure StatusInfoError where
  Code : String
  Description : String
  deriving DecidableEq, Repr

/-- The fields of `cps.StatusInfo` that the resource reads; `Error` is a pointer. -/
structure StatusInfo where
  State : String
  Status : String
  Error : Option StatusInfoError
  deriving DecidableEq, Repr

/-- The type `cps.Change`; `StatusInfo` is a pointer. -/
structure Change where
  StatusInfo : Option StatusInfo
  deriving DecidableEq, Repr

/-- The type `cps.PendingChange`. -/
structure PendingChange where
  Location : String
  ChangeType : String
  deriving DecidableEq, Repr

/-- The fields of `cps.GetEnrollmentResponse` that the resource reads. -/
structure GetEnrollmentResponse where
  PendingChanges : List PendingChange
  deriving DecidableEq, Repr

/-- Modelled from the spec: the constant `statusCoordinateDomainValidation`, which is
declared in a file of the package that is not among the sources; its value is the status
string of the claims and of `TestDVValidation`. -/
def statusCoordinateDomainValidation : String := "coodinate-domain-validation"

/-- The SDK constant `cps.AcknowledgementAcknowledge`, as `TestDVValidation` expects it. -/
def AcknowledgementAcknowledge : String := "acknowledge"

/-- Error of `cpstools.GetChangeIDFromPendingChanges`: the sentinel
`cpstools.ErrNoPendingChanges`, or another error with its message. -/
inductive ChangeIDError where
  | noPendingChanges : ChangeIDError
  | other (msg : String) : ChangeIDError
  deriving DecidableEq, Repr

/-- The API requests issued by the resource. -/
inductive Request where
  | getEnrollment (enrollmentID : Int) : Request
  | getChangeStatus (enrollmentID changeID : Int) : Request
  | acknowledgeDVChallenges (acknowledgement : String) (enrollmentID changeID : Int) : Request
  deriving DecidableEq, Repr

/-- Outcome of one `select` between `time.After(...)` and `ctx.Done()`; `done` carries the
text of `ctx.Err()`. -/
inductive Tick where
  | timer : Tick
  | done (ctxErr : String) : Tick
  deriving DecidableEq, Repr

/-- The environment of a run.  The first argument of an API method is the number of API
calls issued before; an API error is given by its message (`err.Error()`), and
`AcknowledgeDVChallenges` answers `none` for a nil error.
`GetChangeIDFromPendingChanges` stands for the function of that name of package
`cpstools`, which is not among the sources. -/
structure World where
  GetEnrollment : Nat → Int → Except String GetEnrollmentResponse
  GetChangeStatus : Nat → Int → Int → Except String Change
  AcknowledgeDVChallenges : Nat → Int → Int → Option String
  GetChangeIDFromPendingChanges : List PendingChange → Except ChangeIDError Int
  select : Nat → Tick

/-- The progress of a run: the API requests issued so far (oldest first) and the number of
`select` statements executed so far. -/
structure Run where
  calls : List Request
  selects : Nat
  deriving DecidableEq, Repr

/-- The run after one more API request. -/
def Run.call (r : Run) (req : Request) : Run :=
  { r with calls := r.calls ++ [req] }

/-- The run after one more `select`. -/
def Run.tick (r : Run) : Run :=
  { r with selects := r.selects + 1 }

/-- The part of `schema.ResourceData` that the resource uses: the result of
`tf.GetIntValue("enrollment_id", d)`, the resource ID and the attribute `status`. -/
structure ResourceData where
  enrollment_id : Except String Int
  id : String
  status : String
  deriving Repr

/-- The result of a CRUD function: `ok` is the nil `diag.Diagnostics`, `error summary` an
error diagnostic (`diag.FromErr`, `diag.Errorf`) and `panic` a nil pointer dereference. -/
inductive Outcome where
  | ok : Outcome
  | error (summary : String) : Outcome
  | panic : Outcome
  deriving DecidableEq, Repr

/-! ### `resourceCPSDVValidationRead` -/

/-- Embedding of `resourceCPSDVValidationRead`.  `d.Set("status", ...)` sets a string
attribute of the schema and does not fail. -/
def resourceCPSDVValidationRead (w : World) (d : ResourceData) (r : Run) :
    Outcome × ResourceData × Run :=
  match d.enrollment_id with
  | .error e => (.error e, d, r)
  | .ok enrollmentID =>
    match w.GetEnrollment r.calls.length enrollmentID with
    | .error e => (.error e, d, r.call (.getEnrollment enrollmentID))
    | .ok res =>
      match w.GetChangeIDFromPendingChanges res.PendingChanges with
      | .error .noPendingChanges => (.ok, d, r.call (.getEnrollment enrollmentID))
      | .error (.other msg) => (.error msg, d, r.call (.getEnrollment enrollmentID))
      | .ok changeID =>
        match w.GetChangeStatus (r.calls.length + 1) enrollmentID changeID with
        | .error e =>
          (.error e, d,
            (r.call (.getEnrollment enrollmentID)).call (.getChangeStatus enrollmentID changeID))
        | .ok status =>
          match status.StatusInfo with
          | some statusInfo =>
            (.ok, { d with id := toString enrollmentID, status := statusInfo.Status },
              (r.call (.getEnrollment enrollmentID)).call
                (.getChangeStatus enrollmentID changeID))
          | none =>
            (.ok, { d with id := toString enrollmentID },
              (r.call (.getEnrollment enrollmentID)).call
                (.getChangeStatus enrollmentID changeID))

/-! ### `resourceCPSDVValidationCreate` -/

/-- The test `status.StatusInfo != nil && status.StatusInfo.Error != nil &&
status.StatusInfo.Error.Description != ""` of the polling loop; the result is the
description. -/
def errorDescription (status : Change) : Option String :=
  match status.StatusInfo with
  | some statusInfo =>
    match statusInfo.Error with
    | some err => if err.Description ≠ "" then some err.Description else none
    | none => none
  | none => none

/-- The loop `for status.StatusInfo.Status != statusCoordinateDomainValidation` of
`resourceCPSDVValidationCreate`.  `none` means that the loop is still running after `fuel`
iterations; `some (some outcome, r)` that create returns `outcome` from inside the loop;
`some (none, r)` that the loop is left with the status reached.  `json.MarshalIndent` of a
`cps.Change` does not fail; `diag.Errorf(description)` formats the description as a format
string without operands. -/
def pollChangeStatus (w : World) (enrollmentID changeID : Int) :
    Nat → Change → Run → Option (Option Outcome × Run)
  | fuel, status, r =>
    match status.StatusInfo with
    | none => some (some .panic, r)
    | some statusInfo =>
      if statusInfo.Status ≠ statusCoordinateDomainValidation then
        match fuel with
        | 0 => none
        | fuel + 1 =>
          match w.select r.selects with
          | .timer =>
            match w.GetChangeStatus r.calls.length enrollmentID changeID with
            | .error e =>
              some (some (.error e), (r.tick).call (.getChangeStatus enrollmentID changeID))
            | .ok polled =>
              match errorDescription polled with
              | some description =>
                some (some (.error (GoStd.sprintfNoOperands description)),
                  (r.tick).call (.getChangeStatus enrollmentID changeID))
              | none =>
                pollChangeStatus w enrollmentID changeID fuel polled
                  ((r.tick).call (.getChangeStatus enrollmentID changeID))
          | .done ctxErr =>
            some (some (.error ("change status context terminated: " ++ ctxErr)), r.tick)
      else some (none, r)

/-- The retry loop `for { select { ... } }` at the end of `resourceCPSDVValidationCreate`;
`err` is the message of the error of the last failed `AcknowledgeDVChallenges` call and
`none` means that the loop is still running after `fuel` iterations. -/
def retryAcknowledgement (w : World) (d : ResourceData) (enrollmentID changeID : Int) :
    Nat → String → Run → Option (Outcome × ResourceData × Run)
  | 0, _, _ => none
  | fuel + 1, err, r =>
    match w.select r.selects with
    | .timer =>
      match w.AcknowledgeDVChallenges r.calls.length enrollmentID changeID with
      | none =>
        some (resourceCPSDVValidationRead w { d with id := toString enrollmentID }
          ((r.tick).call
            (.acknowledgeDVChallenges AcknowledgementAcknowledge enrollmentID changeID)))
      | some e =>
        retryAcknowledgement w d enrollmentID changeID fuel e
          ((r.tick).call
            (.acknowledgeDVChallenges AcknowledgementAcknowledge enrollmentID changeID))
    | .done _ =>
      some (.error ("retry timeout reached - error sending acknowledgement request: " ++ err),
        d, r.tick)

/-- The code of `resourceCPSDVValidationCreate` from the first `AcknowledgeDVChallenges`
call on, that is, once the change status is `statusCoordinateDomainValidation`. -/
def acknowledgeDVChallenges (w : World) (fuel : Nat) (d : ResourceData)
    (enrollmentID changeID : Int) (r : Run) : Option (Outcome × ResourceData × Run) :=
  match w.AcknowledgeDVChallenges r.calls.length enrollmentID changeID with
  | none =>
    some (resourceCPSDVValidationRead w { d with id := toString enrollmentID }
      (r.call (.acknowledgeDVChallenges AcknowledgementAcknowledge enrollmentID changeID)))
  | some e =>
    retryAcknowledgement w d enrollmentID changeID fuel e
      (r.call (.acknowledgeDVChallenges AcknowledgementAcknowledge enrollmentID changeID))

/-- Embedding of `resourceCPSDVValidationCreate`; `fuel` bounds the iterations of each of
its two loops. -/
def resourceCPSDVValidationCreate (w : World) (fuel : Nat) (d : ResourceData) (r : Run) :
    Option (Outcome × ResourceData × Run) :=
  match d.enrollment_id with
  | .error e => some (.error e, d, r)
  | .ok enrollmentID =>
    match w.GetEnrollment r.calls.length enrollmentID with
    | .error e => some (.error e, d, r.call (.getEnrollment enrollmentID))
    | .ok res =>
      match w.GetChangeIDFromPendingChanges res.PendingChanges with
      | .error .noPendingChanges =>
        some (.ok, { d with id := toString enrollmentID }, r.call (.getEnrollment enrollmentID))
      | .error (.other msg) => some (.error msg, d, r.call (.getEnrollment enrollmentID))
      | .ok changeID =>
        match w.GetChangeStatus (r.calls.length + 1) enrollmentID changeID with
        | .error e =>
          some (.error e, d,
            (r.call (.getEnrollment enrollmentID)).call (.getChangeStatus enrollmentID changeID))
        | .ok status =>
          match pollChangeStatus w enrollmentID changeID fuel status
              ((r.call (.getEnrollment enrollmentID)).call
                (.getChangeStatus enrollmentID changeID)) with
          | none => none
          | some (some outcome, r2) => some (outcome, d, r2)
          | some (none, r2) => acknowledgeDVChallenges w fuel d enrollmentID changeID r2

/-! ### Vocabulary of the statements -/

/-- The request of an `AcknowledgeDVChallenges` call of the resource. -/
def ackRequest (enrollmentID changeID : Int) : Request :=
  .acknowledgeDVChallenges AcknowledgementAcknowledge enrollmentID changeID

/-- Whether a request is an `AcknowledgeDVChallenges` request. -/
def Request.isAck : Request → Bool
  | .acknowledgeDVChallenges _ _ _ => true
  | _ => false

/-! ### Concrete runs -/

/-- The enrollment of `TestDVValidation`: one pending change, at
`/cps/v2/enrollments/1/changes/2`. -/
def pendingEnrollment : GetEnrollmentResponse :=
  { PendingChanges := [{ Location := "/cps/v2/enrollments/1/changes/2",
                         ChangeType := "new-certificate" }] }

/-- The change status `awaiting-input` / `coodinate-domain-validation` of
`TestDVValidation`. -/
def awaitingInput : Change :=
  { StatusInfo := some { State := "awaiting-input", Status := "coodinate-domain-validation",
                         Error := none } }

/-- The change status `running` of `TestDVValidation`. -/
def running : Change :=
  { StatusInfo := some { State := "running", Status := "", Error := none } }

/-- The resource data of `create_validation.tf`: enrollment 1, no ID yet. -/
def newResource : ResourceData :=
  { enrollment_id := .ok 1, id := "", status := "" }

/-- The server of "retry acknowledgement": the change awaits input, the first
acknowledgement fails with `oops`, the second one succeeds; the context never ends. -/
def worldRetryOnce : World :=
  { GetEnrollment := fun _ _ => .ok pendingEnrollment,
    GetChangeStatus := fun _ _ _ => .ok awaitingInput,
    AcknowledgeDVChallenges := fun n _ _ => if n = 2 then some "oops" else none,
    GetChangeIDFromPendingChanges := fun _ => .ok 2,
    select := fun _ => .timer }

/-- The server of "retry acknowledgement with timeout": every acknowledgement fails with
`oops`, and the context is done at the second `select`. -/
def worldRetryTimeout : World :=
  { GetEnrollment := fun _ _ => .ok pendingEnrollment,
    GetChangeStatus := fun _ _ _ => .ok awaitingInput,
    AcknowledgeDVChallenges := fun _ _ _ => some "oops",
    GetChangeIDFromPendingChanges := fun _ => .ok 2,
    select := fun n => if n = 0 then .timer else .done "context deadline exceeded" }

/-- A server on which the acknowledgement succeeds at once but the read-back fails: the
second `GetEnrollment` call answers with an error. -/
def worldReadBackFails : World :=
  { GetEnrollment := fun n _ => if n = 0 then .ok pendingEnrollment else .error "boom",
    GetChangeStatus := fun _ _ _ => .ok awaitingInput,
    AcknowledgeDVChallenges := fun _ _ _ => none,
    GetChangeIDFromPendingChanges := fun _ => .ok 2,
    select := fun _ => .timer }

/-- A change status that carries the error description `rate limit at 100%`. -/
def percentDescription : Change :=
  { StatusInfo := some { State := "error", Status := "",
                         Error := some { Code := "validation",
                                         Description := "rate limit at 100%" } } }

/-- A server whose first status is `running` and whose polled status carries the error
description `rate limit at 100%`. -/
def worldPercentDescription : World :=
  { GetEnrollment := fun _ _ => .ok pendingEnrollment,
    GetChangeStatus := fun n _ _ =>
      if n = 1 then .ok running
      else .ok percentDescription,
    AcknowledgeDVChallenges := fun _ _ _ => none,
    GetChangeIDFromPendingChanges := fun _ => .ok 2,
    select := fun _ => .timer }

end CPS

namespace Property

/-! ### Data of the PAPI include-activation API -/

/-- The SDK constant `papi.ActivationStatusActive`. -/
def ActivationStatusActive : String := "ACTIVE"

/-- The SDK constant `papi.ActivationStatusFailed`. -/
def ActivationStatusFailed : String := "FAILED"

/-- The SDK constant `papi.ActivationStatusAborted`. -/
def ActivationStatusAborted : String := "ABORTED"

/-- The SDK constant `papi.ActivationStatusDeactivated`. -/
def ActivationStatusDeactivated : String := "DEACTIVATED"

/-- The SDK constant `papi.ActivationTypeActivate`. -/
def ActivationTypeActivate : String := "ACTIVATE"

/-- The SDK constant `papi.ActivationTypeDeactivate`. -/
def ActivationTypeDeactivate : String := "DEACTIVATE"

/-- The fields of `papi.IncludeActivation` that the resource reads. -/
structure IncludeActivation where
  ActivationID : String
  Network : String
  ActivationType : String
  Status : String
  IncludeID : String
  IncludeVersion : Int
  UpdateDate : String
  NotifyEmails : List String
  Note : String
  deriving DecidableEq, Repr

/-- The fields of `papi.GetIncludeActivationResponse` that the resource reads;
`Validations` is a pointer, given here by its JSON encoding (`json.Marshal` does not fail
on it). -/
structure GetIncludeActivationResponse where
  ContractID : String
  GroupID : String
  Validations : Option String
  Activation : IncludeActivation
  deriving DecidableEq, Repr

/-- The request `papi.ActivateIncludeRequest`; `ComplianceRecord` is the record that
`addComplianceRecord` builds from the attribute `compliance_record`. -/
structure ActivateIncludeRequest where
  IncludeID : String
  Version : Int
  Network : String
  Note : String
  NotifyEmails : List String
  AcknowledgeAllWarnings : Bool
  ComplianceRecord : Option String
  deriving DecidableEq, Repr

/-- What `errors.Is` can tell about an error of the PAPI client. -/
inductive ApiErrorKind where
  | notFound : ApiErrorKind
  | missingComplianceRecord : ApiErrorKind
  | other : ApiErrorKind
  deriving DecidableEq, Repr

/-- An error of the PAPI client: `papi.ErrNotFound`, `papi.ErrMissingComplianceRecord` or
another error, with its message. -/
structure ApiError where
  kind : ApiErrorKind
  msg : String
  deriving DecidableEq, Repr

/-- Value of `ctx.Err()` once the context is done. -/
inductive CtxErr where
  | deadlineExceeded : CtxErr
  | canceled : CtxErr
  | other (msg : String) : CtxErr
  deriving DecidableEq, Repr

/-- Outcome of one `select` between `time.After(...)` and `ctx.Done()`. -/
inductive Tick where
  | timer : Tick
  | done (err : CtxErr) : Tick
  deriving DecidableEq, Repr

/-- The errors of the functions of the resource: the sentinel
`ErrNoLatestIncludeActivation`, an error of the API client returned unchanged, or an error
built by `fmt.Errorf` with its message. -/
inductive Err where
  | noLatestIncludeActivation : Err
  | api (e : ApiError) : Err
  | other (msg : String) : Err
  deriving DecidableEq, Repr

/-- The API requests issued by the resource. -/
inductive Request where
  | listIncludeActivations (contractID groupID includeID : String) : Request
  | getIncludeActivation (includeID activationID : String) : Request
  | activateInclude (req : ActivateIncludeRequest) : Request
  deriving DecidableEq, Repr

/-- The environment of a run.  The first argument of an API method is the number of API
calls issued before; `ListIncludeActivations` answers with `Activations.Items` and
`ActivateInclude` with the `ActivationID` of its response. -/
structure World where
  ListIncludeActivations : Nat → String → String → String →
    Except ApiError (List IncludeActivation)
  GetIncludeActivation : Nat → String → String → Except ApiError GetIncludeActivationResponse
  ActivateInclude : Nat → ActivateIncludeRequest → Except ApiError String
  select : Nat → Tick

/-- The progress of a run: the API requests issued so far (oldest first) and the number of
`select` statements between a timer and `ctx.Done()` executed so far. -/
structure Run where
  calls : List Request
  selects : Nat
  deriving DecidableEq, Repr

/-- The run after one more API request. -/
def Run.call (r : Run) (req : Request) : Run :=
  { r with calls := r.calls ++ [req] }

/-- The run after one more `select`. -/
def Run.tick (r : Run) : Run :=
  { r with selects := r.selects + 1 }

/-- The type `propertyIncludeActivationData`; `complianceRecord` is given by the record
that `addComplianceRecord` builds from it. -/
structure propertyIncludeActivationData where
  includeID : String
  contractID : String
  groupID : String
  version : Int
  network : String
  notifyEmails : List String
  note : String
  acknowledgement : Bool
  complianceRecord : Option String
  deriving DecidableEq, Repr

/-- The type `propertyIncludeActivationID`. -/
structure propertyIncludeActivationID where
  contractID : String
  groupID : String
  includeID : String
  network : String
  deriving DecidableEq, Repr

/-- The attributes that `resourcePropertyIncludeActivationRead` writes to state. -/
structure StateAttrs where
  include_id : String
  contract_id : String
  group_id : String
  version : Int
  network : String
  notify_emails : List String
  note : String
  validations : String
  deriving DecidableEq, Repr

/-- The part of `schema.ResourceData` that the resource uses: the resource ID, the
attributes written to state (`none` before the first write), the keys of the attributes
with a change (`d.HasChange`), and the result of
`propertyIncludeActivationData.populateFromResource(d)`, which reads the configuration
through the getters of package `tf`. -/
structure ResourceData where
  id : String
  attrs : Option StateAttrs
  changed : List String
  populated : Except Err propertyIncludeActivationData

/-- The method `d.HasChanges(keys...)`. -/
def ResourceData.HasChanges (d : ResourceData) (keys : List String) : Bool :=
  keys.any (fun key => d.changed.contains key)

/-- The method `d.HasChangeExcept(key)`. -/
def ResourceData.HasChangeExcept (d : ResourceData) (key : String) : Bool :=
  d.changed.any (fun k => k != key)

/-! ### Parsing and writing the resource ID -/

/-- Embedding of `parsePropertyIncludeActivationResourceID`. -/
def parsePropertyIncludeActivationResourceID (activationResourceID : String) :
    Except Err propertyIncludeActivationID :=
  match GoStd.stringsSplit activationResourceID ':' with
  | [contractID, groupID, includeID, network] =>
    .ok { contractID := contractID, groupID := groupID, includeID := includeID,
          network := network }
  | _ => .error (.other ("invalid include activation identifier: " ++ activationResourceID))

/-- The ID `fmt.Sprintf("%s:%s:%s:%s", contractID, groupID, includeID, network)` that
`resourcePropertyIncludeActivationUpsert` sets. -/
def formatResourceID (contractID groupID includeID network : String) : String :=
  contractID ++ ":" ++ groupID ++ ":" ++ includeID ++ ":" ++ network

/-- The ID that `resourcePropertyIncludeActivationUpsert` sets for the resource data
`activationResourceData`. -/
def propertyIncludeActivationData.resourceID
    (activationResourceData : propertyIncludeActivationData) : String :=
  formatResourceID activationResourceData.contractID activationResourceData.groupID
    activationResourceData.includeID activationResourceData.network

/-! ### Finding the latest activation -/

/-- Go `sort.Slice` on a slice of include activations, as a parameter: the standard
library does not fix the order of elements that compare equal. -/
abbrev SliceSort := (IncludeActivation → IncludeActivation → Bool) →
  List IncludeActivation → List IncludeActivation

/-- The `less` function of `findLatestActivationWithCondition`: later update dates first
(Go compares the date strings). -/
def updatedLater (a b : IncludeActivation) : Bool :=
  GoStd.stringGreater a.UpdateDate b.UpdateDate

/-- Embedding of `findLatestActivationWithCondition`. -/
def findLatestActivationWithCondition (sortSlice : SliceSort) (w : World)
    (activationResourceID : propertyIncludeActivationID) (cond : IncludeActivation → Bool)
    (r : Run) : Except Err IncludeActivation × Run :=
  match w.ListIncludeActivations r.calls.length activationResourceID.contractID
      activationResourceID.groupID activationResourceID.includeID with
  | .error e =>
    (.error (.api e),
      r.call (.listIncludeActivations activationResourceID.contractID
        activationResourceID.groupID activationResourceID.includeID))
  | .ok activations =>
    if activations.length = 0 then
      (.error .noLatestIncludeActivation,
        r.call (.listIncludeActivations activationResourceID.contractID
          activationResourceID.groupID activationResourceID.includeID))
    else
      match (sortSlice updatedLater activations).find? cond with
      | some v =>
        (.ok v,
          r.call (.listIncludeActivations activationResourceID.contractID
            activationResourceID.groupID activationResourceID.includeID))
      | none =>
        (.error .noLatestIncludeActivation,
          r.call (.listIncludeActivations activationResourceID.contractID
            activationResourceID.groupID activationResourceID.includeID))

/-- Embedding of `findLatestActivationInNetwork`. -/
def findLatestActivationInNetwork (sortSlice : SliceSort) (w : World)
    (activationResourceID : propertyIncludeActivationID) (r : Run) :
    Except Err IncludeActivation × Run :=
  findLatestActivationWithCondition sortSlice w activationResourceID
    (fun ia => decide (ia.Network = activationResourceID.network)) r

/-- Embedding of `getLatestActiveActivationInNetwork`. -/
def getLatestActiveActivationInNetwork (sortSlice : SliceSort) (w : World)
    (activationResourceID : propertyIncludeActivationID) (r : Run) :
    Except Err IncludeActivation × Run :=
  findLatestActivationWithCondition sortSlice w activationResourceID
    (fun ia => decide (ia.Status = ActivationStatusActive) &&
      decide (ia.Network = activationResourceID.network)) r

/-- Embedding of `getLatestActiveIncludeActivationResponseInNetwork`. -/
def getLatestActiveIncludeActivationResponseInNetwork (sortSlice : SliceSort) (w : World)
    (activationResourceID : propertyIncludeActivationID) (r : Run) :
    Except Err GetIncludeActivationResponse × Run :=
  match getLatestActiveActivationInNetwork sortSlice w activationResourceID r with
  | (.error e, r1) => (.error e, r1)
  | (.ok act, r1) =>
    match w.GetIncludeActivation r1.calls.length activationResourceID.includeID
        act.ActivationID with
    | .error e =>
      (.error (.api e),
        r1.call (.getIncludeActivation activationResourceID.includeID act.ActivationID))
    | .ok activation =>
      (.ok activation,
        r1.call (.getIncludeActivation activationResourceID.includeID act.ActivationID))

/-! ### Waiting for activations -/

/-- Embedding of `terminateProcess`. -/
def terminateProcess (ctxErr : CtxErr) (actStatus : String) : Err :=
  match ctxErr with
  | .deadlineExceeded =>
    .other ("timeout waiting for activation status: current status: " ++ actStatus)
  | .canceled =>
    .other ("operation canceled while waiting for activation status, current status: "
      ++ actStatus)
  | .other msg => .other ("activation context terminated: " ++ msg)

/-- Embedding of `waitForActivationCondition`; `none` means that the loop is still running
after `fuel` further iterations. -/
def waitForActivationCondition (w : World) (includeID activationID : String)
    (cond : String → Bool) :
    Nat → Run → Option (Except Err GetIncludeActivationResponse × Run)
  | fuel, r =>
    match w.GetIncludeActivation r.calls.length includeID activationID with
    | .error e => some (.error (.api e), r.call (.getIncludeActivation includeID activationID))
    | .ok activation =>
      if cond activation.Activation.Status then
        some (.ok activation, r.call (.getIncludeActivation includeID activationID))
      else
        match fuel with
        | 0 => none
        | fuel + 1 =>
          match w.select r.selects with
          | .timer =>
            waitForActivationCondition w includeID activationID cond fuel
              ((r.call (.getIncludeActivation includeID activationID)).tick)
          | .done ctxErr =>
            some (.error (terminateProcess ctxErr activation.Activation.Status),
              (r.call (.getIncludeActivation includeID activationID)).tick)

/-- Embedding of `waitForActivationCreation`; its `select` has the timer as only case, so
it reads no outcome of a `select`.  `none` means that the loop is still running after
`fuel` further iterations. -/
def waitForActivationCreation (w : World) (includeID activationID : String) :
    Nat → Run → Option (Except Err GetIncludeActivationResponse × Run)
  | fuel, r =>
    match w.GetIncludeActivation r.calls.length includeID activationID with
    | .ok activation =>
      some (.ok activation, r.call (.getIncludeActivation includeID activationID))
    | .error e =>
      match e.kind with
      | .missingComplianceRecord =>
        some (.error (.other
            ("for 'PRODUCTION' network, 'compliance_record' must be specified: " ++ e.msg)),
          r.call (.getIncludeActivation includeID activationID))
      | .other => some (.error (.api e), r.call (.getIncludeActivation includeID activationID))
      | .notFound =>
        match fuel with
        | 0 => none
        | fuel + 1 =>
          waitForActivationCreation w includeID activationID fuel
            (r.call (.getIncludeActivation includeID activationID))

/-- The condition that `waitUntilNoPendingActivationInNetwork` waits for. -/
def isTerminalStatus (status : String) : Bool :=
  decide (status = ActivationStatusActive) || decide (status = ActivationStatusFailed) ||
  decide (status = ActivationStatusAborted) || decide (status = ActivationStatusDeactivated)

/-- The `propertyIncludeActivationID` built from the resource data. -/
def propertyIncludeActivationData.toID (data : propertyIncludeActivationData) :
    propertyIncludeActivationID :=
  { contractID := data.contractID, groupID := data.groupID, includeID := data.includeID,
    network := data.network }

/-- Embedding of `waitUntilNoPendingActivationInNetwork`; the result `none` inside `some`
is the nil error. -/
def waitUntilNoPendingActivationInNetwork (sortSlice : SliceSort) (w : World) (fuel : Nat)
    (activationResourceData : propertyIncludeActivationData) (r : Run) :
    Option (Option Err × Run) :=
  match findLatestActivationInNetwork sortSlice w activationResourceData.toID r with
  | (.error .noLatestIncludeActivation, r1) => some (none, r1)
  | (.error e, r1) => some (some e, r1)
  | (.ok act, r1) =>
    match waitForActivationCondition w activationResourceData.includeID act.ActivationID
        isTerminalStatus fuel r1 with
    | none => none
    | some (.error e, r2) => some (some e, r2)
    | some (.ok _, r2) => some (none, r2)

/-- Embedding of `isLatestActiveExpectedWithActivationType`. -/
def isLatestActiveExpectedWithActivationType (sortSlice : SliceSort) (w : World)
    (activationResourceData : propertyIncludeActivationData) (expectedActivationType : String)
    (r : Run) : Except Err Bool × Run :=
  match getLatestActiveActivationInNetwork sortSlice w activationResourceData.toID r with
  | (.error .noLatestIncludeActivation, r1) => (.ok false, r1)
  | (.error e, r1) => (.error e, r1)
  | (.ok activation, r1) =>
    if activation.Status = ActivationStatusActive ∧
        activation.ActivationType = expectedActivationType ∧
        activation.IncludeVersion = activationResourceData.version then
      (.ok true, r1)
    else (.ok false, r1)

/-- Embedding of `isLatestActiveExpectedActivated`. -/
def isLatestActiveExpectedActivated (sortSlice : SliceSort) (w : World)
    (activationResourceData : propertyIncludeActivationData) (r : Run) :
    Except Err Bool × Run :=
  isLatestActiveExpectedWithActivationType sortSlice w activationResourceData
    ActivationTypeActivate r

/-- The request that `createNewActivation` sends. -/
def activateIncludeRequest (activationResourceData : propertyIncludeActivationData) :
    ActivateIncludeRequest :=
  { IncludeID := activationResourceData.includeID,
    Version := activationResourceData.version,
    Network := activationResourceData.network,
    Note := activationResourceData.note,
    NotifyEmails := activationResourceData.notifyEmails,
    AcknowledgeAllWarnings := activationResourceData.acknowledgement,
    ComplianceRecord := activationResourceData.complianceRecord }

/-- Embedding of `createNewActivation`. -/
def createNewActivation (w : World) (fuel : Nat)
    (activationResourceData : propertyIncludeActivationData) (r : Run) :
    Option (Option Err × Run) :=
  match w.ActivateInclude r.calls.length (activateIncludeRequest activationResourceData) with
  | .error e =>
    some (some (.api e), r.call (.activateInclude (activateIncludeRequest activationResourceData)))
  | .ok activationID =>
    match waitForActivationCreation w activationResourceData.includeID activationID fuel
        (r.call (.activateInclude (activateIncludeRequest activationResourceData))) with
    | none => none
    | some (.error e, r2) => some (some e, r2)
    | some (.ok _, r2) => some (none, r2)

/-! ### The CRUD functions -/

/-- The part of `resourcePropertyIncludeActivationUpsert` from "creating new activation"
on. -/
def activateAndWait (sortSlice : SliceSort) (w : World) (fuel : Nat) (d : ResourceData)
    (activationResourceData : propertyIncludeActivationData) (r : Run) :
    Option (Option Err × ResourceData × Run) :=
  match createNewActivation w fuel activationResourceData r with
  | none => none
  | some (some e, r3) => some (some e, d, r3)
  | some (none, r3) =>
    match waitUntilNoPendingActivationInNetwork sortSlice w fuel activationResourceData r3 with
    | none => none
    | some (some e, r4) => some (some e, d, r4)
    | some (none, r4) => some (none, { d with id := activationResourceData.resourceID }, r4)

/-- Embedding of `resourcePropertyIncludeActivationUpsert`: the error (`none` for nil), the
resource data and the run; the outer `none` means that a loop is still running after `fuel`
iterations. -/
def resourcePropertyIncludeActivationUpsert (sortSlice : SliceSort) (w : World) (fuel : Nat)
    (d : ResourceData) (r : Run) : Option (Option Err × ResourceData × Run) :=
  match d.populated with
  | .error e => some (some e, d, r)
  | .ok activationResourceData =>
    match waitUntilNoPendingActivationInNetwork sortSlice w fuel activationResourceData r with
    | none => none
    | some (some e, r1) => some (some e, d, r1)
    | some (none, r1) =>
      match isLatestActiveExpectedActivated sortSlice w activationResourceData r1 with
      | (.error .noLatestIncludeActivation, r2) =>
        activateAndWait sortSlice w fuel d activationResourceData r2
      | (.error e, r2) => some (some e, d, r2)
      | (.ok true, r2) => some (none, { d with id := activationResourceData.resourceID }, r2)
      | (.ok false, r2) => activateAndWait sortSlice w fuel d activationResourceData r2

/-- The value of `attrs["note"]`: the note, or `""` when
`len(strings.TrimSpace(activation.Activation.Note)) == 0`. -/
def noteAttr (note : String) : String :=
  if GoStd.trimSpaceIsEmpty note then "" else note

/-- The value of `attrs["validations"]`: `string(validations)`, where `validations` is the
JSON encoding of `activation.Validations` or nil. -/
def validationsAttr (validations : Option String) : String :=
  match validations with
  | some json => json
  | none => ""

/-- The attributes that `resourcePropertyIncludeActivationRead` collects in `attrs`. -/
def readAttrs (activation : GetIncludeActivationResponse) : StateAttrs :=
  { include_id := activation.Activation.IncludeID,
    contract_id := activation.ContractID,
    group_id := activation.GroupID,
    version := activation.Activation.IncludeVersion,
    network := activation.Activation.Network,
    notify_emails := activation.Activation.NotifyEmails,
    note := noteAttr activation.Activation.Note,
    validations := validationsAttr activation.Validations }

/-- Embedding of `resourcePropertyIncludeActivationRead`: the error of the diagnostics
(`none` for nil), the resource data and the run.  `tf.SetAttrs` on attributes of the
schema does not fail. -/
def resourcePropertyIncludeActivationRead (sortSlice : SliceSort) (w : World)
    (d : ResourceData) (r : Run) : Option Err × ResourceData × Run :=
  match parsePropertyIncludeActivationResourceID d.id with
  | .error e => (some e, d, r)
  | .ok rd =>
    match getLatestActiveIncludeActivationResponseInNetwork sortSlice w rd r with
    | (.error e, r1) => (some e, d, r1)
    | (.ok activation, r1) =>
      if activation.Activation.ActivationType = ActivationTypeDeactivate then
        (none, { d with id := "" }, r1)
      else (none, { d with attrs := some (readAttrs activation) }, r1)

/-- The message of the error that `resourcePropertyIncludeActivationUpdate` returns for a
change of the attributes of an activation without a change of `version`. -/
def updateWithoutVersionError : String :=
  "attributes such as 'notify_emails', 'auto_acknowledge_rule_warnings', 'compliance_record' cannot be updated after resource creation without 'version' attribute modification"

/-- Embedding of `resourcePropertyIncludeActivationUpdate`. -/
def resourcePropertyIncludeActivationUpdate (sortSlice : SliceSort) (w : World) (fuel : Nat)
    (d : ResourceData) (r : Run) : Option (Option Err × ResourceData × Run) :=
  if d.HasChanges ["notify_emails", "auto_acknowledge_rule_warnings", "compliance_record"] = true
      ∧ d.HasChanges ["version"] = false then
    some (some (.other updateWithoutVersionError), d, r)
  else if d.HasChangeExcept "timeouts" = false then some (none, d, r)
  else
    match resourcePropertyIncludeActivationUpsert sortSlice w fuel d r with
    | none => none
    | some (some e, d1, r1) => some (some e, d1, r1)
    | some (none, d1, r1) => some (resourcePropertyIncludeActivationRead sortSlice w d1 r1)

/-! ### Vocabulary of the statements -/

/-- The activation `a` of the list `acts` is a most recently updated one among the
activations of `acts` with status ACTIVE on `network`: no such activation was updated
later. -/
def IsLatestActive (network : String) (acts : List IncludeActivation)
    (a : IncludeActivation) : Prop :=
  a ∈ acts ∧ a.Status = ActivationStatusActive ∧ a.Network = network ∧
  ∀ b ∈ acts, b.Status = ActivationStatusActive → b.Network = network →
    updatedLater b a = false

/-- No `ActivateInclude` request was issued between the runs `r` and `r2`. -/
def NoNewActivate (r r2 : Run) : Prop :=
  ∀ req, Request.activateInclude req ∈ r2.calls → Request.activateInclude req ∈ r.calls

/-! ### Concrete runs -/

/-- The activation of version 3 of include `inc_3` on staging, active since August. -/
def activationAugust : IncludeActivation :=
  { ActivationID := "atv_1", Network := "STAGING", ActivationType := "ACTIVATE",
    Status := "ACTIVE", IncludeID := "inc_3", IncludeVersion := 3,
    UpdateDate := "2022-08-17T10:13:18Z", NotifyEmails := ["user@example.com"], Note := "" }

/-- A deactivation of include `inc_3` on staging, done out-of-band in September. -/
def deactivationSeptember : IncludeActivation :=
  { ActivationID := "atv_2", Network := "STAGING", ActivationType := "DEACTIVATE",
    Status := "ACTIVE", IncludeID := "inc_3", IncludeVersion := 3,
    UpdateDate := "2022-09-01T08:00:00Z", NotifyEmails := ["user@example.com"], Note := "" }

/-- A server that lists `activations` and answers `GetIncludeActivation` with the listed
activation of that ID; the context never ends. -/
def worldListing (activations : List IncludeActivation) : World :=
  { ListIncludeActivations := fun _ _ _ _ => .ok activations,
    GetIncludeActivation := fun _ _ activationID =>
      match activations.find? (fun a => a.ActivationID == activationID) with
      | some a => .ok { ContractID := "ctr_1", GroupID := "grp_2", Validations := none,
                        Activation := a }
      | none => .error { kind := .notFound, msg := "not found" },
    ActivateInclude := fun _ _ => .error { kind := .other, msg := "unexpected call" },
    select := fun _ => .timer }

/-- The configuration of version 3 of include `inc_3` on staging. -/
def dataVersion3 : propertyIncludeActivationData :=
  { includeID := "inc_3", contractID := "ctr_1", groupID := "grp_2", version := 3,
    network := "STAGING", notifyEmails := ["user@example.com"], note := "",
    acknowledgement := false, complianceRecord := none }

/-- The resource of `dataVersion3` in state, with its attributes as read earlier. -/
def resourceInState : ResourceData :=
  { id := "ctr_1:grp_2:inc_3:STAGING",
    attrs := some { include_id := "inc_3", contract_id := "ctr_1", group_id := "grp_2",
                    version := 3, network := "STAGING",
                    notify_emails := ["user@example.com"], note := "", validations := "" },
    changed := [],
    populated := .ok dataVersion3 }

/-- The resource of `dataVersion3` with a change of `notify_emails` only. -/
def resourceEmailsChanged : ResourceData :=
  { id := "ctr_1:grp_2:inc_3:STAGING",
    attrs := none,
    changed := ["notify_emails"],
    populated := .ok dataVersion3 }

/-- The activation `a` of the list `acts` is a most recently updated one among the
activations of `acts` on `network`: no activation on `network` was updated later. -/
def IsLatestInNetwork (network : String) (acts : List IncludeActivation)
    (a : IncludeActivation) : Prop :=
  a ∈ acts ∧ a.Network = network ∧
  ∀ b ∈ acts, b.Network = network → updatedLater b a = false

/-- A server that answers every `GetIncludeActivation` call with `papi.ErrNotFound`, under
a context that is done (deadline exceeded) at every `select`. -/
def worldNotFoundContextDone : World :=
  { ListIncludeActivations := fun _ _ _ _ => .ok [],
    GetIncludeActivation := fun _ _ _ => .error { kind := .notFound, msg := "not found" },
    ActivateInclude := fun _ _ => .ok "atv_9",
    select := fun _ => .done .deadlineExceeded }

/-- The activation of `activationAugust` while it is still pending. -/
def activationPending : IncludeActivation :=
  { ActivationID := "atv_1", Network := "STAGING", ActivationType := "ACTIVATE",
    Status := "PENDING", IncludeID := "inc_3", IncludeVersion := 3,
    UpdateDate := "2022-08-17T10:13:18Z", NotifyEmails := ["user@example.com"], Note := "" }

/-- A server that lists the activation `atv_1` and reports it as pending at the first
`GetIncludeActivation` call (the second API call) and as active afterwards; the context
never ends. -/
def worldPendingOnce : World :=
  { ListIncludeActivations := fun _ _ _ _ => .ok [activationPending],
    GetIncludeActivation := fun n _ _ =>
      if n = 1 then
        .ok { ContractID := "ctr_1", GroupID := "grp_2", Validations := none,
              Activation := activationPending }
      else
        .ok { ContractID := "ctr_1", GroupID := "grp_2", Validations := none,
              Activation := activationAugust },
    ActivateInclude := fun _ _ => .error { kind := .other, msg := "unexpected call" },
    select := fun _ => .timer }

end Property

namespace GTM

/-! Embedding of `src/pkg/providers/gtm/resource_akamai_gtm_resource.go`. -/

/-! ### `loadServersEqual` -/

/-- An interface value in the place of `load_servers`: the nil interface, a `*schema.Set`
of strings given by its `List()` (the elements of a set are distinct and `Len()` is their
number), or a slice of strings. -/
inductive Value where
  | nil : Value
  | set (elems : List String) : Value
  | strings (elems : List String) : Value
  deriving DecidableEq, Repr

/-- Embedding of `loadServersEqual`; the map `servers` has the elements of `oldServers` as
its keys. -/
def loadServersEqual (oldVal newVal : Value) : Bool :=
  match oldVal with
  | .set oldServers =>
    match newVal with
    | .set newServers =>
      if oldServers.length ≠ newServers.length then false
      else newServers.all fun server => oldServers.contains server
    | _ => false
  | _ => false

/-! ### `populateTerraformResourceInstancesState` -/

/-- The fields of `gtm.ResourceInstance` that the function reads; `LoadObject` is the field
`LoadObject.LoadObject`. -/
structure ResourceInstance where
  DatacenterID : Int
  UseDefaultLoadObject : Bool
  LoadObject : String
  LoadObjectPort : Int
  LoadServers : List String
  deriving DecidableEq, Repr

/-- An element of the `resource_instance` list, a `map[string]interface{}` with the keys of
the schema. -/
structure StateInstance where
  datacenter_id : Int
  use_default_load_object : Bool
  load_object : String
  load_object_port : Int
  load_servers : Value
  deriving DecidableEq, Repr

/-- The functions of package `gtm` that the function calls and that are not among the
sources, on lists of strings. -/
structure Helpers where
  reconcileTerraformLists : List String → List String → List String
  convertStringToInterfaceList : List String → List String

/-- A Go `map[int]*gtm.ResourceInstance` as the list of its entries, with distinct keys. -/
abbrev Inventory := List (Int × ResourceInstance)

/-- The assignment `m[key] = value`. -/
def Inventory.assign (m : Inventory) (key : Int) (value : ResourceInstance) : Inventory :=
  if m.any (fun entry => decide (entry.1 = key)) then
    m.map fun entry => if entry.1 = key then (key, value) else entry
  else m ++ [(key, value)]

/-- The statement `delete(m, key)`. -/
def Inventory.delete (m : Inventory) (key : Int) : Inventory :=
  m.filter fun entry => decide (entry.1 ≠ key)

/-- The first loop of `populateTerraformResourceInstancesState`: `riObjectInventory`. -/
def buildInventory (instances : List ResourceInstance) : Inventory :=
  instances.foldl
    (fun inventory riObj => Inventory.assign inventory riObj.DatacenterID riObj) []

/-- The new value of `ri["load_servers"]`; `none` is the nil-pointer panic of
`loadServers.List()` when the old value is neither nil nor a `*schema.Set`. -/
def reconcileLoadServers (h : Helpers) (loadServers : Value) (riObject : ResourceInstance) :
    Option Value :=
  match loadServers with
  | .nil => some (.strings riObject.LoadServers)
  | .set elems =>
    some (.strings (h.reconcileTerraformLists elems
      (h.convertStringToInterfaceList riObject.LoadServers)))
  | .strings _ => none

/-- The state entry `ri` after the assignments from `riObject`. -/
def refreshInstance (ri : StateInstance) (riObject : ResourceInstance)
    (loadServers : Value) : StateInstance :=
  { ri with
    use_default_load_object := riObject.UseDefaultLoadObject,
    load_object := riObject.LoadObject,
    load_object_port := riObject.LoadObjectPort,
    load_servers := loadServers }

/-- The loop `for _, riMap := range riStateList`: the entries after the loop and what is
left of `riObjectInventory`; an entry whose `datacenter_id` is not in the inventory is
skipped with a warning and stays as it is. -/
def refreshStateList (h : Helpers) :
    List StateInstance → Inventory → Option (List StateInstance × Inventory)
  | [], inventory => some ([], inventory)
  | ri :: rest, inventory =>
    match List.lookup ri.datacenter_id inventory with
    | none =>
      match refreshStateList h rest inventory with
      | none => none
      | some (entries, left) => some (ri :: entries, left)
    | some riObject =>
      match reconcileLoadServers h ri.load_servers riObject with
      | none => none
      | some loadServers =>
        match refreshStateList h rest (Inventory.delete inventory ri.datacenter_id) with
        | none => none
        | some (entries, left) => some (refreshInstance ri riObject loadServers :: entries, left)

/-- The entry `riNew` built for an object that is left in the inventory. -/
def newInstance (mriObj : ResourceInstance) : StateInstance :=
  { datacenter_id := mriObj.DatacenterID,
    use_default_load_object := mriObj.UseDefaultLoadObject,
    load_object := mriObj.LoadObject,
    load_object_port := mriObj.LoadObjectPort,
    load_servers := .strings mriObj.LoadServers }

/-- Embedding of `populateTerraformResourceInstancesState`: the list passed to
`d.Set("resource_instance", ...)`, given the list `riStateList` read from the state and
`rsrc.ResourceInstances`; `rangeOrder` is the order in which `range` visits the entries of
the map, which Go does not fix; `none` is a run-time panic. -/
def populateTerraformResourceInstancesState (h : Helpers)
    (rangeOrder : Inventory → Inventory) (riStateList : List StateInstance)
    (instances : List ResourceInstance) : Option (List StateInstance) :=
  match refreshStateList h riStateList (buildInventory instances) with
  | none => none
  | some (entries, left) =>
    some (entries ++ (rangeOrder left).map fun entry => newInstance entry.2)

/-- The entry carries the values that the API returned for `inst`. -/
def Carries (entry : StateInstance) (inst : ResourceInstance) : Prop :=
  entry.datacenter_id = inst.DatacenterID ∧
  entry.use_default_load_object = inst.UseDefaultLoadObject ∧
  entry.load_object = inst.LoadObject ∧
  entry.load_object_port = inst.LoadObjectPort

/-- Helpers that answer with the list of the API. -/
def helpersFromServer : Helpers :=
  { reconcileTerraformLists := fun _ netList => netList,
    convertStringToInterfaceList := fun l => l }

/-- The state entry for datacenter 3131. -/
def stateInstance3131 : StateInstance :=
  { datacenter_id := 3131, use_default_load_object := false, load_object := "/old",
    load_object_port := 80, load_servers := .set ["1.2.3.4"] }

/-- The resource instance of datacenter 3131 as the API returns it. -/
def instance3131 : ResourceInstance :=
  { DatacenterID := 3131, UseDefaultLoadObject := true, LoadObject := "/probe",
    LoadObjectPort := 443, LoadServers := ["1.2.3.5"] }

/-- The resource instance of datacenter 3132 as the API returns it. -/
def instance3132 : ResourceInstance :=
  { DatacenterID := 3132, UseDefaultLoadObject := false, LoadObject := "/test",
    LoadObjectPort := 8080, LoadServers := ["1.2.3.9"] }

end GTM

/-! ## Part II: theorems -/

namespace Cloudlets
open GoStd

/-- C1: `shouldRetryActivation` returns `false` for the nil error, `false` for every error
that wraps no v3 API error, `true` for every error that wraps a v3 API error with a status
in 500..599, and `false` for every error that wraps a v3 API error with a status below
500.  In full, it returns `true` exactly for the errors that wrap a v3 API error with a
status of at least 500. -/
theorem shouldRetryActivation_spec :
    shouldRetryActivation none = false ∧
    (∀ e : GoError, (∀ s, ¬ WrapsV3 e s) → shouldRetryActivation (some e) = false) ∧
    (∀ (e : GoError) (s : Int), WrapsV3 e s → 500 ≤ s → s ≤ 599 →
      shouldRetryActivation (some e) = true) ∧
    (∀ (e : GoError) (s : Int), WrapsV3 e s → s < 500 →
      shouldRetryActivation (some e) = false) ∧
    (∀ e : GoError, shouldRetryActivation (some e) = true ↔ ∃ s, WrapsV3 e s ∧ 500 ≤ s) := by
  have key : ∀ (e : GoError) (s : Int), WrapsV3 e s → errorsAsV3 e = some s := by
    intro e s h
    induction h with
    | here s => rfl
    | there msg inner s _ ih => simpa [errorsAsV3] using ih
  have conv : ∀ (e : GoError) (s : Int), errorsAsV3 e = some s → WrapsV3 e s := by
    intro e
    induction e with
    | v3Error status =>
      intro s h
      simp only [errorsAsV3, Option.some.injEq] at h
      subst h
      exact WrapsV3.here _
    | other msg => intro s h; simp [errorsAsV3] at h
    | wrap msg inner ih =>
      intro s h
      exact WrapsV3.there _ _ _ (ih s (by simpa [errorsAsV3] using h))
  refine ⟨rfl, ?_, ?_, ?_, ?_⟩
  · intro e hno
    cases hq : errorsAsV3 e with
    | none => simp [shouldRetryActivation, hq]
    | some s => exact absurd (conv e s hq) (hno s)
  · intro e s h h1 _
    simp [shouldRetryActivation, key e s h, h1]
  · intro e s h h1
    simp [shouldRetryActivation, key e s h, h1]
  · intro e
    constructor
    · intro hr
      cases hq : errorsAsV3 e with
      | none => simp [shouldRetryActivation, hq] at hr
      | some s =>
        simp only [shouldRetryActivation, hq, decide_eq_true_eq] at hr
        exact ⟨s, conv e s hq, hr⟩
    · rintro ⟨s, hw, hs⟩
      simp [shouldRetryActivation, key e s hw, hs]

/-- Witness for C1: an error wrapping a v3 API error with status 503 is retried. -/
theorem shouldRetryActivation_spec_witness :
    shouldRetryActivation (some (.wrap "policy activation" (.v3Error 503))) = true :=
  shouldRetryActivation_spec.2.2.1 _ 503 (WrapsV3.there _ _ _ (WrapsV3.here _))
    (by decide) (by decide)


/-! ### `waitForListPolicyActivations` -/

theorem waitForListLoop_nonempty (w : World) (req : ListPolicyActivationsRequest)
    (retries : Nat) (acts : List PolicyActivation) (r : Run) (h : acts ≠ []) :
    waitForListPolicyActivationsLoop w req retries acts r = (.ok acts, r) := by
  cases retries with
  | zero => rfl
  | succ n => simp [waitForListPolicyActivationsLoop, h]

theorem waitForListLoop_skip (w : World) (req : ListPolicyActivationsRequest) :
    ∀ (k retries : Nat) (r : Run),
      (∀ j, j < k → w.select (r.selects + j) = .timer ∧
        w.ListPolicyActivations (r.calls.length + j) req = .ok []) →
      waitForListPolicyActivationsLoop w req (retries + k) [] r =
        waitForListPolicyActivationsLoop w req retries [] (r.polls req k) := by
  intro k
  induction k with
  | zero =>
    intro retries r _
    simp [Run.polls]
  | succ k ih =>
    intro retries r h
    have h0 := h 0 (Nat.succ_pos k)
    simp only [Nat.add_zero] at h0
    have hstep : waitForListPolicyActivationsLoop w req (retries + (k + 1)) [] r =
        waitForListPolicyActivationsLoop w req (retries + k) []
          ((r.tick).call (.listPolicyActivations req)) := by
      rw [← Nat.add_assoc, waitForListPolicyActivationsLoop]
      simp [h0.1, h0.2]
    rw [hstep, ih]
    · congr 1
      simp [Run.polls, Run.tick, Run.call, List.replicate_succ, Nat.add_comm, Nat.add_left_comm]
    · intro j hj
      have hj1 := h (j + 1) (Nat.succ_lt_succ hj)
      simp only [Run.tick, Run.call, List.length_append, List.length_singleton]
      constructor
      · rw [← hj1.1]; congr 1; omega
      · rw [← hj1.2]; congr 1; omega

theorem waitForListLoop_calls (w : World) (req : ListPolicyActivationsRequest) :
    ∀ (retries : Nat) (acts : List PolicyActivation) (r : Run),
      ∃ m, m ≤ retries ∧
        (waitForListPolicyActivationsLoop w req retries acts r).2.calls =
          r.calls ++ List.replicate m (.listPolicyActivations req) := by
  intro retries
  induction retries with
  | zero => intro acts r; exact ⟨0, le_refl _, by simp [waitForListPolicyActivationsLoop]⟩
  | succ n ih =>
    intro acts r
    rw [waitForListPolicyActivationsLoop]
    split
    · split
      · split
        · exact ⟨1, by omega, by simp [Run.tick, Run.call]⟩
        · rename_i acts2 _
          obtain ⟨m, hm, hc⟩ := ih acts2 ((r.tick).call (.listPolicyActivations req))
          refine ⟨m + 1, by omega, ?_⟩
          rw [hc]
          simp [Run.tick, Run.call, List.replicate_succ]
      · exact ⟨0, by omega, by simp [Run.tick]⟩
    · exact ⟨0, by omega, by simp⟩

theorem waitForList_after_empties (w : World) (req : ListPolicyActivationsRequest)
    (r : Run) (k : Nat) (hk : k ≤ MaxListActivationsPollRetries)
    (hlist : ∀ j, j < k + 1 → w.ListPolicyActivations (r.calls.length + j) req = .ok [])
    (hsel : ∀ j, j < k → w.select (r.selects + j) = .timer) :
    waitForListPolicyActivations w req r =
      waitForListPolicyActivationsLoop w req (MaxListActivationsPollRetries - k) []
        ⟨r.calls ++ List.replicate (k + 1) (.listPolicyActivations req), r.selects + k⟩ := by
  have h0 := hlist 0 (Nat.succ_pos k)
  simp only [Nat.add_zero] at h0
  have hsplit : MaxListActivationsPollRetries = (MaxListActivationsPollRetries - k) + k := by
    omega
  rw [waitForListPolicyActivations, h0]
  simp only []
  rw [hsplit, waitForListLoop_skip w req k]
  · simp [Run.polls, Run.call, List.replicate_succ]
  · intro j hj
    refine ⟨hsel j hj, ?_⟩
    have := hlist (j + 1) (Nat.succ_lt_succ hj)
    simp only [Run.call, List.length_append, List.length_singleton]
    rw [← this]; congr 1; omega

/-- C4: `waitForListPolicyActivations` issues between 1 and 1 + 5 = 6
`ListPolicyActivations` calls (and no other call); if the first `k ≤ 5` answers are empty
lists, each followed by a `select` in which the timer fires, and answer `k` is a non-empty
list, that list is returned after exactly `k + 1` calls; if answer `k` is an error, that
error is returned after exactly `k + 1` calls; and if the first call and all 5 retries
answer with an empty list, the empty list is returned without error after exactly 6
calls. -/
theorem waitForListPolicyActivations_spec (w : World) (req : ListPolicyActivationsRequest)
    (r : Run) :
    MaxListActivationsPollRetries = 5 ∧
    (∃ m, 1 ≤ m ∧ m ≤ 1 + MaxListActivationsPollRetries ∧
      (waitForListPolicyActivations w req r).2.calls =
        r.calls ++ List.replicate m (.listPolicyActivations req)) ∧
    (∀ (k : Nat) (acts : List PolicyActivation), k ≤ MaxListActivationsPollRetries →
      (∀ j, j < k → w.ListPolicyActivations (r.calls.length + j) req = .ok [] ∧
        w.select (r.selects + j) = .timer) →
      w.ListPolicyActivations (r.calls.length + k) req = .ok acts → acts ≠ [] →
      waitForListPolicyActivations w req r =
        (.ok acts, ⟨r.calls ++ List.replicate (k + 1) (.listPolicyActivations req),
          r.selects + k⟩)) ∧
    (∀ (k : Nat) (e : GoError), k ≤ MaxListActivationsPollRetries →
      (∀ j, j < k → w.ListPolicyActivations (r.calls.length + j) req = .ok [] ∧
        w.select (r.selects + j) = .timer) →
      w.ListPolicyActivations (r.calls.length + k) req = .error e →
      waitForListPolicyActivations w req r =
        (.error (.client e), ⟨r.calls ++ List.replicate (k + 1) (.listPolicyActivations req),
          r.selects + k⟩)) ∧
    ((∀ j, j < 1 + MaxListActivationsPollRetries →
        w.ListPolicyActivations (r.calls.length + j) req = .ok []) →
      (∀ j, j < MaxListActivationsPollRetries → w.select (r.selects + j) = .timer) →
      waitForListPolicyActivations w req r =
        (.ok [], ⟨r.calls ++ List.replicate (1 + MaxListActivationsPollRetries)
          (.listPolicyActivations req), r.selects + MaxListActivationsPollRetries⟩)) := by
  refine ⟨rfl, ?_, ?_, ?_, ?_⟩
  · rw [waitForListPolicyActivations]
    split
    · exact ⟨1, le_refl _, by omega, by simp [Run.call]⟩
    · rename_i acts _
      obtain ⟨m, hm, hc⟩ := waitForListLoop_calls w req MaxListActivationsPollRetries acts
        (r.call (.listPolicyActivations req))
      refine ⟨m + 1, by omega, by omega, ?_⟩
      rw [hc]
      simp [Run.call, List.replicate_succ]
  · intro k acts hk hempty hresp hne
    cases k with
    | zero =>
      simp only [Nat.add_zero] at hresp
      rw [waitForListPolicyActivations, hresp]
      simp only []
      rw [waitForListLoop_nonempty w req _ acts _ hne]
      simp [Run.call]
    | succ k =>
      rw [waitForList_after_empties w req r k (by omega)
        (fun j hj => (hempty j hj).1) (fun j hj => (hempty j (by omega)).2)]
      have hret : MaxListActivationsPollRetries - k = (MaxListActivationsPollRetries - k - 1) + 1 := by
        omega
      rw [hret, waitForListPolicyActivationsLoop]
      have hs := (hempty k (by omega)).2
      have hidx : (r.calls ++ List.replicate (k + 1) (Request.listPolicyActivations req)).length
          = r.calls.length + (k + 1) := by simp
      simp only [List.length_nil, if_true, hs, hidx, hresp]
      rw [waitForListLoop_nonempty w req _ acts _ hne]
      simp [Run.call, Run.tick, List.replicate_succ', Nat.add_assoc]
  · intro k e hk hempty hresp
    cases k with
    | zero =>
      simp only [Nat.add_zero] at hresp
      rw [waitForListPolicyActivations, hresp]
      simp [Run.call]
    | succ k =>
      rw [waitForList_after_empties w req r k (by omega)
        (fun j hj => (hempty j hj).1) (fun j hj => (hempty j (by omega)).2)]
      have hret : MaxListActivationsPollRetries - k = (MaxListActivationsPollRetries - k - 1) + 1 := by
        omega
      rw [hret, waitForListPolicyActivationsLoop]
      have hs := (hempty k (by omega)).2
      have hidx : (r.calls ++ List.replicate (k + 1) (Request.listPolicyActivations req)).length
          = r.calls.length + (k + 1) := by simp
      simp only [List.length_nil, if_true, hs, hidx, hresp]
      simp [Run.call, Run.tick, List.replicate_succ', Nat.add_assoc]
  · intro hlist hsel
    rw [waitForList_after_empties w req r MaxListActivationsPollRetries (le_refl _)
      (fun j hj => hlist j (by omega)) hsel]
    simp [waitForListPolicyActivationsLoop, Nat.add_comm]

/-- Witness for C4: against a server that never lists an activation the function stops
after 6 calls and 5 waits with the empty list. -/
theorem waitForListPolicyActivations_spec_witness :
    waitForListPolicyActivations worldAlwaysEmpty ⟨1, "staging"⟩ ⟨[], 0⟩ =
      (.ok [], ⟨List.replicate 6 (.listPolicyActivations ⟨1, "staging"⟩), 5⟩) :=
  (waitForListPolicyActivations_spec worldAlwaysEmpty ⟨1, "staging"⟩ ⟨[], 0⟩).2.2.2.2
    (fun _ _ => rfl) (fun _ _ => rfl)

/-! ### `waitForPolicyActivation` -/

theorem scanActivations_ok (version : Int) (removed : List String) :
    ∀ (acts : List PolicyActivation) (aa ar : Bool),
      scanActivations version removed aa ar acts = .ok (true, true) →
      aa = true ∧ ar = true ∧
      (∀ a ∈ acts, a.PolicyInfo.Version = version →
        a.PolicyInfo.Status = PolicyActivationStatusActive) ∧
      (∀ a ∈ acts, a.PropertyInfo.Name ∉ removed) := by
  intro acts
  induction acts with
  | nil =>
    intro aa ar h
    simp only [scanActivations, Except.ok.injEq, Prod.mk.injEq] at h
    exact ⟨h.1, h.2, by simp, by simp⟩
  | cons act rest ih =>
    intro aa ar h
    rw [scanActivations] at h
    split at h
    · cases h
    · split at h
      · simp at h
      · split at h
        · simp at h
        · rename_i hfail hstat hrem
          obtain ⟨h1, h2, h3, h4⟩ := ih aa ar h
          refine ⟨h1, h2, ?_, ?_⟩
          · intro a ha hv
            rcases List.mem_cons.mp ha with rfl | ha
            · by_contra hne
              exact hstat ⟨hv, hne⟩
            · exact h3 a ha hv
          · intro a ha
            rcases List.mem_cons.mp ha with rfl | ha
            · intro hmem
              apply hrem
              simp only [List.any_eq_true, decide_eq_true_eq]
              exact ⟨_, hmem, rfl⟩
            · exact h4 a ha

theorem scanActivations_error (version : Int) (removed : List String) :
    ∀ (acts : List PolicyActivation) (aa ar : Bool) (e : Err),
      scanActivations version removed aa ar acts = .error e →
      ∃ a ∈ acts, a.PolicyInfo.Version = version ∧ activationFailed a = true ∧
        e = .activationFailure a.PolicyInfo.PolicyID a.PolicyInfo.StatusDetail := by
  intro acts
  induction acts with
  | nil => intro aa ar e h; simp [scanActivations] at h
  | cons act rest ih =>
    intro aa ar e h
    rw [scanActivations] at h
    split at h
    · rename_i hfail
      simp only [Except.error.injEq] at h
      exact ⟨act, List.mem_cons_self _ _, hfail.1, hfail.2, h.symm⟩
    · split at h
      · cases h
      · split at h
        · cases h
        · obtain ⟨a, ha, hrest⟩ := ih aa ar e h
          exact ⟨a, List.mem_cons_of_mem _ ha, hrest⟩

theorem filterActivations_present (sortSlice : SliceSort) (acts : List PolicyActivation)
    (version : Int) (properties : List String)
    (hne : filterActivations sortSlice acts version properties ≠ []) :
    ∀ name ∈ properties, ∃ a ∈ filterActivations sortSlice acts version properties,
      a.PropertyInfo.Name = name ∧ a.PolicyInfo.Version = version := by
  intro name hname
  unfold filterActivations at hne ⊢
  simp only at hne ⊢
  split at hne
  · rename_i hall
    rw [if_pos hall]
    simp only [allPropertiesPresent, List.all_eq_true, List.any_eq_true, Bool.and_eq_true,
      decide_eq_true_eq] at hall
    exact hall name hname
  · exact absurd rfl hne

theorem waitForPolicyActivationLoop_ok (sortSlice : SliceSort) (w : World)
    (policyID version : Int) (network : String) (props removed : List String) :
    ∀ (fuel : Nat) (cur : List PolicyActivation) (r : Run) (acts : List PolicyActivation)
      (r2 : Run),
      (cur ≠ [] → ∀ name ∈ props, ∃ a ∈ cur,
        a.PropertyInfo.Name = name ∧ a.PolicyInfo.Version = version) →
      waitForPolicyActivationLoop sortSlice w policyID version network props removed
        fuel cur r = some (.ok acts, r2) →
      acts ≠ [] ∧
      (∀ name ∈ props, ∃ a ∈ acts, a.PropertyInfo.Name = name ∧
        a.PolicyInfo.Version = version ∧
        a.PolicyInfo.Status = PolicyActivationStatusActive) ∧
      (∀ a ∈ acts, a.PolicyInfo.Version = version →
        a.PolicyInfo.Status = PolicyActivationStatusActive) ∧
      (∀ a ∈ acts, a.PropertyInfo.Name ∉ removed) := by
  have settled : ∀ (cur : List PolicyActivation) (allActive allRemoved : Bool),
      (cur ≠ [] → ∀ name ∈ props, ∃ a ∈ cur,
        a.PropertyInfo.Name = name ∧ a.PolicyInfo.Version = version) →
      cur.length > 0 →
      scanActivations version removed true true cur = .ok (allActive, allRemoved) →
      (allActive && allRemoved) = true →
      cur ≠ [] ∧
      (∀ name ∈ props, ∃ a ∈ cur, a.PropertyInfo.Name = name ∧
        a.PolicyInfo.Version = version ∧
        a.PolicyInfo.Status = PolicyActivationStatusActive) ∧
      (∀ a ∈ cur, a.PolicyInfo.Version = version →
        a.PolicyInfo.Status = PolicyActivationStatusActive) ∧
      (∀ a ∈ cur, a.PropertyInfo.Name ∉ removed) := by
    intro cur allActive allRemoved hcur hlen hscan hboth
    have hne : cur ≠ [] := List.ne_nil_of_length_pos hlen
    simp only [Bool.and_eq_true] at hboth
    rw [hboth.1, hboth.2] at hscan
    obtain ⟨_, _, h3, h4⟩ := scanActivations_ok version removed cur true true hscan
    refine ⟨hne, ?_, h3, h4⟩
    intro name hname
    obtain ⟨a, ha, hn, hv⟩ := hcur hne name hname
    exact ⟨a, ha, hn, hv, h3 a ha hv⟩
  intro fuel
  induction fuel with
  | zero =>
    intro cur r acts r2 hcur h
    rw [waitForPolicyActivationLoop] at h
    split at h
    · rename_i hlen
      split at h
      · simp at h
      · rename_i allActive allRemoved hscan
        split at h
        · rename_i hboth
          simp only [Option.some.injEq, Prod.mk.injEq, Except.ok.injEq] at h
          rw [← h.1]
          exact settled cur allActive allRemoved hcur hlen hscan hboth
        · simp at h
    · simp at h
  | succ fuel ih =>
    intro cur r acts r2 hcur h
    rw [waitForPolicyActivationLoop] at h
    split at h
    · rename_i hlen
      split at h
      · simp at h
      · rename_i allActive allRemoved hscan
        split at h
        · rename_i hboth
          simp only [Option.some.injEq, Prod.mk.injEq, Except.ok.injEq] at h
          rw [← h.1]
          exact settled cur allActive allRemoved hcur hlen hscan hboth
        · split at h
          · split at h
            · simp at h
            · rename_i polled r3 _
              exact ih _ r3 acts r2
                (fun hne => filterActivations_present sortSlice polled version props hne) h
          · simp at h
    · simp at h

/-- C2: whenever `waitForPolicyActivation` returns a list without error, the list is
non-empty, every name in `additionalProps` has an activation in it with the requested
version and status active, every returned activation of the requested version is active,
and no returned activation belongs to a property named in `removedProperties`. -/
theorem waitForPolicyActivation_success (sortSlice : SliceSort) (w : World) (fuel : Nat)
    (policyID version : Int) (network : String)
    (additionalProps removedProperties : List String) (r : Run)
    (acts : List PolicyActivation) (r2 : Run)
    (h : waitForPolicyActivation sortSlice w fuel policyID version network additionalProps
      removedProperties r = some (.ok acts, r2)) :
    acts ≠ [] ∧
    (∀ name ∈ additionalProps, ∃ a ∈ acts, a.PropertyInfo.Name = name ∧
      a.PolicyInfo.Version = version ∧
      a.PolicyInfo.Status = PolicyActivationStatusActive) ∧
    (∀ a ∈ acts, a.PolicyInfo.Version = version →
      a.PolicyInfo.Status = PolicyActivationStatusActive) ∧
    (∀ a ∈ acts, a.PropertyInfo.Name ∉ removedProperties) := by
  rw [waitForPolicyActivation] at h
  split at h
  · simp at h
  · rename_i polled r1 _
    exact waitForPolicyActivationLoop_ok sortSlice w policyID version network additionalProps
      removedProperties fuel _ r1 acts r2
      (fun hne => filterActivations_present sortSlice polled version additionalProps hne) h

theorem waitForListLoop_trace (w : World) (req : ListPolicyActivationsRequest) :
    ∀ (retries : Nat) (acts : List PolicyActivation) (r : Run)
      (res : Except Err (List PolicyActivation)) (r2 : Run),
      waitForListPolicyActivationsLoop w req retries acts r = (res, r2) →
      r.calls.length ≤ r2.calls.length ∧ r.selects ≤ r2.selects ∧
      (∀ out, res = .ok out → out = acts ∨
        ∃ n, r.calls.length ≤ n ∧ n < r2.calls.length ∧
          w.ListPolicyActivations n req = .ok out) ∧
      (∀ e, res = .error e →
        (∃ n ge, r.calls.length ≤ n ∧ n < r2.calls.length ∧
          w.ListPolicyActivations n req = .error ge ∧ e = .client ge) ∨
        (∃ k c, r.selects ≤ k ∧ k < r2.selects ∧ w.select k = .done c ∧
          e = ctxDoneError c)) := by
  intro retries
  induction retries with
  | zero =>
    intro acts r res r2 h
    simp only [waitForListPolicyActivationsLoop, Prod.mk.injEq] at h
    obtain ⟨h1, h2⟩ := h
    subst h1 h2
    exact ⟨le_refl _, le_refl _, fun out ho => Or.inl (by cases ho; rfl),
      fun e he => by cases he⟩
  | succ n ih =>
    intro acts r res r2 h
    rw [waitForListPolicyActivationsLoop] at h
    split at h
    · split at h
      · rename_i hsel
        split at h
        · rename_i ge hcall
          simp only [Prod.mk.injEq] at h
          obtain ⟨h1, h2⟩ := h
          subst h1 h2
          refine ⟨by simp [Run.tick, Run.call], by simp [Run.tick, Run.call],
            fun out ho => (by cases ho), fun e he => Or.inl ?_⟩
          cases he
          exact ⟨r.calls.length, ge, le_refl _, by simp [Run.tick, Run.call], hcall, rfl⟩
        · rename_i polled hcall
          obtain ⟨h1, h2, h3, h4⟩ := ih polled _ res r2 h
          simp only [Run.tick, Run.call, List.length_append, List.length_singleton] at h1 h2 h3 h4
          refine ⟨by omega, by omega, ?_, ?_⟩
          · intro out ho
            rcases h3 out ho with rfl | ⟨m, hm1, hm2, hm3⟩
            · exact Or.inr ⟨r.calls.length, le_refl _, by omega, hcall⟩
            · exact Or.inr ⟨m, by omega, hm2, hm3⟩
          · intro e he
            rcases h4 e he with ⟨m, ge, hm1, hm2, hm3, hm4⟩ | ⟨k, c, hk1, hk2, hk3, hk4⟩
            · exact Or.inl ⟨m, ge, by omega, hm2, hm3, hm4⟩
            · exact Or.inr ⟨k, c, by omega, hk2, hk3, hk4⟩
      · rename_i c hsel
        simp only [Prod.mk.injEq] at h
        obtain ⟨h1, h2⟩ := h
        subst h1 h2
        refine ⟨by simp [Run.tick], by simp [Run.tick],
          fun out ho => (by cases ho), fun e he => Or.inr ?_⟩
        cases he
        exact ⟨r.selects, c, le_refl _, by simp [Run.tick], hsel, rfl⟩
    · simp only [Prod.mk.injEq] at h
      obtain ⟨h1, h2⟩ := h
      subst h1 h2
      exact ⟨le_refl _, le_refl _, fun out ho => Or.inl (by cases ho; rfl),
        fun e he => by cases he⟩

theorem waitForList_trace (w : World) (req : ListPolicyActivationsRequest) (r : Run)
    (res : Except Err (List PolicyActivation)) (r2 : Run)
    (h : waitForListPolicyActivations w req r = (res, r2)) :
    r.calls.length ≤ r2.calls.length ∧ r.selects ≤ r2.selects ∧
    (∀ out, res = .ok out →
      ∃ n, r.calls.length ≤ n ∧ n < r2.calls.length ∧
        w.ListPolicyActivations n req = .ok out) ∧
    (∀ e, res = .error e →
      (∃ n ge, r.calls.length ≤ n ∧ n < r2.calls.length ∧
        w.ListPolicyActivations n req = .error ge ∧ e = .client ge) ∨
      (∃ k c, r.selects ≤ k ∧ k < r2.selects ∧ w.select k = .done c ∧
        e = ctxDoneError c)) := by
  rw [waitForListPolicyActivations] at h
  split at h
  · rename_i ge hcall
    simp only [Prod.mk.injEq] at h
    obtain ⟨h1, h2⟩ := h
    subst h1 h2
    refine ⟨by simp [Run.call], by simp [Run.call], fun out ho => (by cases ho),
      fun e he => Or.inl ?_⟩
    cases he
    exact ⟨r.calls.length, ge, le_refl _, by simp [Run.call], hcall, rfl⟩
  · rename_i polled hcall
    obtain ⟨h1, h2, h3, h4⟩ := waitForListLoop_trace w req _ polled _ res r2 h
    simp only [Run.call, List.length_append, List.length_singleton] at h1 h2 h3 h4
    refine ⟨by omega, by omega, ?_, ?_⟩
    · intro out ho
      rcases h3 out ho with rfl | ⟨m, hm1, hm2, hm3⟩
      · exact ⟨r.calls.length, le_refl _, by omega, hcall⟩
      · exact ⟨m, by omega, hm2, hm3⟩
    · intro e he
      rcases h4 e he with ⟨m, ge, hm1, hm2, hm3, hm4⟩ | ⟨k, c, hk1, hk2, hk3, hk4⟩
      · exact Or.inl ⟨m, ge, by omega, hm2, hm3, hm4⟩
      · exact Or.inr ⟨k, c, by omega, hk2, hk3, hk4⟩

theorem waitForPolicyActivationLoop_error (sortSlice : SliceSort) (w : World)
    (policyID version : Int) (network : String) (props removed : List String)
    (lo slo : Nat) :
    ∀ (fuel : Nat) (cur : List PolicyActivation) (r : Run) (e : Err) (r2 : Run),
      slo ≤ r.selects →
      (∃ n acts, lo ≤ n ∧ n < r.calls.length ∧
        w.ListPolicyActivations n ⟨policyID, network⟩ = .ok acts ∧
        cur = filterActivations sortSlice acts version props) →
      waitForPolicyActivationLoop sortSlice w policyID version network props removed
        fuel cur r = some (.error e, r2) →
      ErrorCause sortSlice w policyID version network props lo slo e r2 := by
  have exits : ∀ (cur : List PolicyActivation) (r : Run) (e : Err),
      (∃ n acts, lo ≤ n ∧ n < r.calls.length ∧
        w.ListPolicyActivations n ⟨policyID, network⟩ = .ok acts ∧
        cur = filterActivations sortSlice acts version props) →
      scanActivations version removed true true cur = .error e →
      ErrorCause sortSlice w policyID version network props lo slo e r := by
    intro cur r e hcur hscan
    obtain ⟨n, acts, hn1, hn2, hn3, hn4⟩ := hcur
    obtain ⟨a, ha, hv, hf, he⟩ := scanActivations_error version removed cur true true e hscan
    exact Or.inl ⟨n, acts, a, hn1, hn2, hn3, hn4 ▸ ha, hv, hf, he⟩
  have empty : ∀ (cur : List PolicyActivation) (r : Run),
      (∃ n acts, lo ≤ n ∧ n < r.calls.length ∧
        w.ListPolicyActivations n ⟨policyID, network⟩ = .ok acts ∧
        cur = filterActivations sortSlice acts version props) →
      ¬ cur.length > 0 →
      ErrorCause sortSlice w policyID version network props lo slo
        (.notAllPropertiesActive policyID) r := by
    intro cur r hcur hlen
    obtain ⟨n, acts, hn1, hn2, hn3, hn4⟩ := hcur
    have hnil : cur = [] := by
      cases cur with
      | nil => rfl
      | cons a l => simp at hlen
    exact Or.inr (Or.inr (Or.inr ⟨n, acts, hn1, hn2, hn3, hn4 ▸ hnil, rfl⟩))
  intro fuel
  induction fuel with
  | zero =>
    intro cur r e r2 hslo hcur h
    rw [waitForPolicyActivationLoop] at h
    split at h
    · split at h
      · rename_i e2 hscan
        simp only [Option.some.injEq, Prod.mk.injEq, Except.error.injEq] at h
        obtain ⟨h1, h2⟩ := h
        subst h1 h2
        exact exits cur r e2 hcur hscan
      · split at h
        · simp at h
        · simp at h
    · rename_i hlen
      simp only [Option.some.injEq, Prod.mk.injEq, Except.error.injEq] at h
      obtain ⟨h1, h2⟩ := h
      subst h1 h2
      exact empty cur r hcur hlen
  | succ fuel ih =>
    intro cur r e r2 hslo hcur h
    rw [waitForPolicyActivationLoop] at h
    split at h
    · split at h
      · rename_i e2 hscan
        simp only [Option.some.injEq, Prod.mk.injEq, Except.error.injEq] at h
        obtain ⟨h1, h2⟩ := h
        subst h1 h2
        exact exits cur r e2 hcur hscan
      · split at h
        · simp at h
        · split at h
          · split at h
            · rename_i e3 r3 hwait
              simp only [Option.some.injEq, Prod.mk.injEq, Except.error.injEq] at h
              obtain ⟨h1, h2⟩ := h
              subst h1 h2
              obtain ⟨n0, _, _, hn0, _, _⟩ := hcur
              obtain ⟨t1, t2, _, t4⟩ := waitForList_trace w _ _ _ _ hwait
              simp only [Run.tick] at t1 t2 t4
              rcases t4 e3 rfl with ⟨m, ge, hm1, hm2, hm3, hm4⟩ | ⟨k, c, hk1, hk2, hk3, hk4⟩
              · exact Or.inr (Or.inl ⟨m, ge, by omega, hm2, hm3, hm4⟩)
              · exact Or.inr (Or.inr (Or.inl ⟨k, c, by omega, hk2, hk3, hk4⟩))
            · rename_i polled r3 hwait
              obtain ⟨n0, _, _, hn0, _, _⟩ := hcur
              obtain ⟨t1, t2, t3, _⟩ := waitForList_trace w _ _ _ _ hwait
              simp only [Run.tick] at t1 t2 t3
              obtain ⟨m, hm1, hm2, hm3⟩ := t3 polled rfl
              exact ih _ r3 e r2 (by omega) ⟨m, polled, by omega, hm2, hm3, rfl⟩ h
          · rename_i c hsel
            simp only [Option.some.injEq, Prod.mk.injEq, Except.error.injEq] at h
            obtain ⟨h1, h2⟩ := h
            subst h1 h2
            exact Or.inr (Or.inr (Or.inl ⟨r.selects, c, hslo, by simp [Run.tick], hsel, rfl⟩))
    · rename_i hlen
      simp only [Option.some.injEq, Prod.mk.injEq, Except.error.injEq] at h
      obtain ⟨h1, h2⟩ := h
      subst h1 h2
      exact empty cur r hcur hlen

theorem waitForPolicyActivation_error (sortSlice : SliceSort) (w : World) (fuel : Nat)
    (policyID version : Int) (network : String) (props removed : List String)
    (r : Run) (e : Err) (r2 : Run)
    (h : waitForPolicyActivation sortSlice w fuel policyID version network props removed r =
      some (.error e, r2)) :
    ErrorCause sortSlice w policyID version network props r.calls.length r.selects e r2 := by
  rw [waitForPolicyActivation] at h
  split at h
  · rename_i e3 r3 hwait
    simp only [Option.some.injEq, Prod.mk.injEq, Except.error.injEq] at h
    obtain ⟨h1, h2⟩ := h
    subst h1 h2
    obtain ⟨t1, t2, _, t4⟩ := waitForList_trace w _ _ _ _ hwait
    rcases t4 e3 rfl with ⟨m, ge, hm1, hm2, hm3, hm4⟩ | ⟨k, c, hk1, hk2, hk3, hk4⟩
    · exact Or.inr (Or.inl ⟨m, ge, hm1, hm2, hm3, hm4⟩)
    · exact Or.inr (Or.inr (Or.inl ⟨k, c, hk1, hk2, hk3, hk4⟩))
  · rename_i polled r3 hwait
    obtain ⟨t1, t2, t3, _⟩ := waitForList_trace w _ _ _ _ hwait
    obtain ⟨m, hm1, hm2, hm3⟩ := t3 polled rfl
    exact waitForPolicyActivationLoop_error sortSlice w policyID version network props removed
      r.calls.length r.selects fuel _ r3 e r2 t2 ⟨m, polled, hm1, hm2, hm3, rfl⟩ h

theorem scanActivations_settled (version : Int) (removed : List String) :
    ∀ (l : List PolicyActivation) (aa ar : Bool), NoneFailed version l →
      AllSettled version removed l →
      scanActivations version removed aa ar l = .ok (aa, ar) := by
  intro l
  induction l with
  | nil => intro aa ar _ _; rfl
  | cons act rest ih =>
    intro aa ar hnf hs
    rw [scanActivations]
    have hf : ¬ (act.PolicyInfo.Version = version ∧ activationFailed act = true) := by
      rintro ⟨hv, hfail⟩
      have := hnf act (List.mem_cons_self _ _) hv
      rw [this] at hfail
      cases hfail
    have hst : ¬ (act.PolicyInfo.Version = version ∧
        act.PolicyInfo.Status ≠ PolicyActivationStatusActive) := by
      rintro ⟨hv, hne⟩
      exact hne (hs.1 act (List.mem_cons_self _ _) hv)
    have hrem : ¬ (removed.any (fun property => decide (property = act.PropertyInfo.Name))
        = true) := by
      intro hany
      simp only [List.any_eq_true, decide_eq_true_eq] at hany
      obtain ⟨p, hp, rfl⟩ := hany
      exact hs.2 act (List.mem_cons_self _ _) hp
    rw [if_neg hf, if_neg hst, if_neg hrem]
    exact ih aa ar (fun a ha => hnf a (List.mem_cons_of_mem _ ha))
      ⟨fun a ha => hs.1 a (List.mem_cons_of_mem _ ha),
       fun a ha => hs.2 a (List.mem_cons_of_mem _ ha)⟩

theorem scanActivations_noneFailed (version : Int) (removed : List String) :
    ∀ (l : List PolicyActivation) (aa ar : Bool), NoneFailed version l →
      ∃ p, scanActivations version removed aa ar l = .ok p := by
  intro l aa ar hnf
  cases hscan : scanActivations version removed aa ar l with
  | ok p => exact ⟨p, rfl⟩
  | error e =>
    obtain ⟨a, ha, hv, hf, _⟩ := scanActivations_error version removed l aa ar e hscan
    rw [hnf a ha hv] at hf
    cases hf

theorem waitForList_first (w : World) (req : ListPolicyActivationsRequest) (r : Run)
    (acts : List PolicyActivation)
    (hcall : w.ListPolicyActivations r.calls.length req = .ok acts) (hne : acts ≠ []) :
    waitForListPolicyActivations w req r = (.ok acts, r.call (.listPolicyActivations req)) := by
  rw [waitForListPolicyActivations, hcall]
  simp only []
  exact waitForListLoop_nonempty w req _ acts _ hne

theorem waitForPolicyActivationLoop_polls (sortSlice : SliceSort) (w : World)
    (policyID version : Int) (network : String) (props removed : List String) :
    ∀ (n fuel : Nat) (r : Run) (blk resp : Nat → List PolicyActivation), n ≤ fuel →
      (∀ j, j < n → w.select (r.selects + j) = .timer ∧
        w.ListPolicyActivations (r.calls.length + j) ⟨policyID, network⟩ = .ok (resp j) ∧
        resp j ≠ [] ∧ blk (j + 1) = filterActivations sortSlice (resp j) version props) →
      (∀ j, j ≤ n → blk j ≠ [] ∧ NoneFailed version (blk j)) →
      (∀ j, j < n → ¬ AllSettled version removed (blk j)) →
      AllSettled version removed (blk n) →
      waitForPolicyActivationLoop sortSlice w policyID version network props removed
        fuel (blk 0) r =
      some (.ok (blk n),
        ⟨r.calls ++ List.replicate n (.listPolicyActivations ⟨policyID, network⟩),
          r.selects + n⟩) := by
  intro n
  induction n with
  | zero =>
    intro fuel r blk resp _ _ hblk _ hset
    obtain ⟨hne, hnf⟩ := hblk 0 (le_refl _)
    have hlen : (blk 0).length > 0 := List.length_pos.mpr hne
    cases fuel with
    | zero =>
      rw [waitForPolicyActivationLoop, if_pos hlen,
        scanActivations_settled version removed (blk 0) true true hnf hset]
      simp
    | succ m =>
      rw [waitForPolicyActivationLoop, if_pos hlen,
        scanActivations_settled version removed (blk 0) true true hnf hset]
      simp
  | succ n ih =>
    intro fuel r blk resp hfuel hstep hblk hpend hset
    obtain ⟨hne, hnf⟩ := hblk 0 (Nat.zero_le _)
    have hlen : (blk 0).length > 0 := List.length_pos.mpr hne
    obtain ⟨⟨aa, ar⟩, hp⟩ := scanActivations_noneFailed version removed (blk 0) true true hnf
    have hnot : ¬ ((aa && ar) = true) := by
      intro hboth
      simp only [Bool.and_eq_true] at hboth
      have hp2 : scanActivations version removed true true (blk 0) = .ok (true, true) := by
        rw [hp, hboth.1, hboth.2]
      obtain ⟨_, _, h3, h4⟩ := scanActivations_ok version removed (blk 0) true true hp2
      exact hpend 0 (Nat.succ_pos _) ⟨h3, h4⟩
    obtain ⟨fuel2, rfl⟩ : ∃ m, fuel = m + 1 := ⟨fuel - 1, by omega⟩
    obtain ⟨hsel, hcall, hrne, hb1⟩ := hstep 0 (Nat.succ_pos _)
    simp only [Nat.add_zero] at hsel hcall
    have hwait := waitForList_first w ⟨policyID, network⟩ r.tick (resp 0)
      (by simpa [Run.tick] using hcall) hrne
    rw [waitForPolicyActivationLoop, if_pos hlen, hp]
    simp only [hnot, if_false, hsel, hwait]
    rw [← hb1]
    have := ih fuel2 ((r.tick).call (.listPolicyActivations ⟨policyID, network⟩))
      (fun j => blk (j + 1)) (fun j => resp (j + 1)) (by omega)
      (fun j hj => by
        obtain ⟨a1, a2, a3, a4⟩ := hstep (j + 1) (Nat.succ_lt_succ hj)
        refine ⟨?_, ?_, a3, a4⟩
        · rw [← a1]; simp only [Run.tick, Run.call]; congr 1; omega
        · rw [← a2]
          simp only [Run.tick, Run.call, List.length_append, List.length_singleton]
          congr 1; omega)
      (fun j hj => hblk (j + 1) (Nat.succ_le_succ hj))
      (fun j hj => hpend (j + 1) (Nat.succ_lt_succ hj))
      hset
    rw [this]
    simp [Run.tick, Run.call, List.replicate_succ, Nat.add_comm, Nat.add_left_comm]

/-- Witness for C2: the activation of version 2 for property `a` is pending at the first
listing and active at the second; the function returns the active activation. -/
theorem waitForPolicyActivation_success_witness :
    [mkActivation "a" 2 "active" 10] ≠ [] ∧
    (∀ name ∈ ["a"], ∃ a ∈ [mkActivation "a" 2 "active" 10], a.PropertyInfo.Name = name ∧
      a.PolicyInfo.Version = 2 ∧
      a.PolicyInfo.Status = PolicyActivationStatusActive) ∧
    (∀ a ∈ [mkActivation "a" 2 "active" 10], a.PolicyInfo.Version = 2 →
      a.PolicyInfo.Status = PolicyActivationStatusActive) ∧
    (∀ a ∈ [mkActivation "a" 2 "active" 10], a.PropertyInfo.Name ∉ ["b"]) :=
  waitForPolicyActivation_success GoStd.insertionSortSlice worldPendingThenActive 5 1 2
    "staging" ["a"] ["b"] ⟨[], 0⟩ [mkActivation "a" 2 "active" 10]
    ⟨[.listPolicyActivations ⟨1, "staging"⟩, .listPolicyActivations ⟨1, "staging"⟩], 1⟩ rfl

/-- C3 as stated fails: the server lists only the active version 1 for property `a`, no
listed activation failed, no listing call fails and the context never ends, yet
`waitForPolicyActivation` for version 2 returns the "not all properties are active" error
after a single listing call and without waiting. -/
theorem waitForPolicyActivation_error_without_listed_cause :
    waitForPolicyActivation GoStd.insertionSortSlice worldOldVersion 5 1 2 "staging" ["a"] []
        ⟨[], 0⟩ =
      some (.error (.notAllPropertiesActive 1), ⟨[.listPolicyActivations ⟨1, "staging"⟩], 0⟩) ∧
    (∀ n req, ∃ acts, worldOldVersion.ListPolicyActivations n req = .ok acts ∧
      ∀ a ∈ acts, activationFailed a = false) ∧
    (∀ k, worldOldVersion.select k = .timer) :=
  ⟨rfl, fun _ _ => ⟨_, rfl, fun a ha => by
    rw [List.mem_singleton.mp ha]; rfl⟩, fun _ => rfl⟩

/-- C3, amended: an error of `waitForPolicyActivation` has one of four causes: an
activation of the requested version in the latest activation block of a listing failed
(status failed, or a status detail containing "fail"); a listing call returned an error;
the context ended; or the filtered latest activation block of a listing is empty (nothing
listed, or a requested property without activation of the requested version in the latest
block), which gives the "not all properties are active" error.  And as long as the
filtered latest activation block is non-empty with no failure but not settled, each timer
tick leads to one more listing call: after `n` such rounds a settled block is returned. -/
theorem waitForPolicyActivation_polls_until_settled (sortSlice : SliceSort) (w : World)
    (policyID version : Int) (network : String)
    (additionalProps removedProperties : List String) :
    (∀ (fuel : Nat) (r : Run) (e : Err) (r2 : Run),
      waitForPolicyActivation sortSlice w fuel policyID version network additionalProps
        removedProperties r = some (.error e, r2) →
      (∃ n acts a, r.calls.length ≤ n ∧ n < r2.calls.length ∧
          w.ListPolicyActivations n ⟨policyID, network⟩ = .ok acts ∧
          a ∈ filterActivations sortSlice acts version additionalProps ∧
          a.PolicyInfo.Version = version ∧ activationFailed a = true ∧
          e = .activationFailure a.PolicyInfo.PolicyID a.PolicyInfo.StatusDetail) ∨
      (∃ n ge, r.calls.length ≤ n ∧ n < r2.calls.length ∧
          w.ListPolicyActivations n ⟨policyID, network⟩ = .error ge ∧ e = .client ge) ∨
      (∃ k c, r.selects ≤ k ∧ k < r2.selects ∧ w.select k = .done c ∧
          e = ctxDoneError c) ∨
      (∃ n acts, r.calls.length ≤ n ∧ n < r2.calls.length ∧
          w.ListPolicyActivations n ⟨policyID, network⟩ = .ok acts ∧
          filterActivations sortSlice acts version additionalProps = [] ∧
          e = .notAllPropertiesActive policyID)) ∧
    (∀ (n fuel : Nat) (r : Run) (resp : Nat → List PolicyActivation), n ≤ fuel →
      (∀ j, j ≤ n →
        w.ListPolicyActivations (r.calls.length + j) ⟨policyID, network⟩ = .ok (resp j) ∧
        resp j ≠ []) →
      (∀ j, j < n → w.select (r.selects + j) = .timer) →
      (∀ j, j ≤ n → filterActivations sortSlice (resp j) version additionalProps ≠ [] ∧
        NoneFailed version (filterActivations sortSlice (resp j) version additionalProps)) →
      (∀ j, j < n → ¬ AllSettled version removedProperties
        (filterActivations sortSlice (resp j) version additionalProps)) →
      AllSettled version removedProperties
        (filterActivations sortSlice (resp n) version additionalProps) →
      waitForPolicyActivation sortSlice w fuel policyID version network additionalProps
        removedProperties r =
      some (.ok (filterActivations sortSlice (resp n) version additionalProps),
        ⟨r.calls ++ List.replicate (n + 1) (.listPolicyActivations ⟨policyID, network⟩),
          r.selects + n⟩)) := by
  refine ⟨?_, ?_⟩
  · intro fuel r e r2 h
    exact waitForPolicyActivation_error sortSlice w fuel policyID version network
      additionalProps removedProperties r e r2 h
  · intro n fuel r resp hfuel hresp hsel hblk hpend hset
    obtain ⟨hcall0, hne0⟩ := hresp 0 (Nat.zero_le _)
    simp only [Nat.add_zero] at hcall0
    rw [waitForPolicyActivation, waitForList_first w ⟨policyID, network⟩ r (resp 0) hcall0 hne0]
    simp only []
    have := waitForPolicyActivationLoop_polls sortSlice w policyID version network
      additionalProps removedProperties n fuel
      (r.call (.listPolicyActivations ⟨policyID, network⟩))
      (fun j => filterActivations sortSlice (resp j) version additionalProps)
      (fun j => resp (j + 1)) hfuel
      (fun j hj => by
        obtain ⟨a1, a2⟩ := hresp (j + 1) (by omega)
        refine ⟨by simpa [Run.call] using hsel j hj, ?_, a2, rfl⟩
        rw [← a1]
        simp only [Run.call, List.length_append, List.length_singleton]
        congr 1; omega)
      hblk hpend hset
    rw [this]
    simp [Run.call, List.replicate_succ]

/-- Witness for C3, amended: the error of the run against `worldOldVersion` has the fourth
cause, an empty filtered activation block. -/
theorem waitForPolicyActivation_polls_until_settled_witness :
    ErrorCause GoStd.insertionSortSlice worldOldVersion 1 2 "staging" ["a"] 0 0
      (.notAllPropertiesActive 1) ⟨[.listPolicyActivations ⟨1, "staging"⟩], 0⟩ :=
  (waitForPolicyActivation_polls_until_settled GoStd.insertionSortSlice worldOldVersion 1 2
    "staging" ["a"] []).1 5 ⟨[], 0⟩ _ _ rfl

/-! ### `filterActivations` -/

theorem collectLastActivationBlock_of_ne_zero :
    ∀ (l block : List PolicyActivation) (d : Int), d ≠ 0 →
      collectLastActivationBlock d block l =
        block ++ l.takeWhile (fun a => decide (a.PolicyInfo.ActivationDate = d)) := by
  intro l
  induction l with
  | nil => intro block d _; simp [collectLastActivationBlock]
  | cons a rest ih =>
    intro block d hd
    rw [collectLastActivationBlock]
    by_cases h : d = a.PolicyInfo.ActivationDate
    · have hne : ¬ (d ≠ 0 ∧ d ≠ a.PolicyInfo.ActivationDate) := fun hh => hh.2 h
      rw [if_neg hne, ih _ _ (h ▸ hd), List.takeWhile_cons_of_pos (by simp [h])]
      simp [h]
    · rw [if_pos ⟨hd, h⟩, List.takeWhile_cons_of_neg (by simpa using Ne.symm h)]
      simp

theorem takeWhile_eq_filter_of_sorted :
    ∀ (l : List PolicyActivation) (d : Int),
      l.Pairwise (fun a b => activatedLater b a = false) →
      (∀ a ∈ l, a.PolicyInfo.ActivationDate ≤ d) →
      l.takeWhile (fun a => decide (a.PolicyInfo.ActivationDate = d)) =
        l.filter (fun a => decide (a.PolicyInfo.ActivationDate = d)) := by
  intro l
  induction l with
  | nil => intro d _ _; rfl
  | cons a rest ih =>
    intro d hp hle
    rw [List.pairwise_cons] at hp
    by_cases h : a.PolicyInfo.ActivationDate = d
    · rw [List.takeWhile_cons_of_pos (by simp [h]), List.filter_cons_of_pos (by simp [h]),
        ih d hp.2 (fun b hb => hle b (List.mem_cons_of_mem _ hb))]
    · rw [List.takeWhile_cons_of_neg (by simp [h]), List.filter_cons_of_neg (by simp [h])]
      symm
      rw [List.filter_eq_nil_iff]
      intro b hb
      have h1 := hp.1 b hb
      simp only [activatedLater, decide_eq_false_iff_not, gt_iff_lt, not_lt] at h1
      have h2 := hle a (List.mem_cons_self _ _)
      simp only [decide_eq_true_eq]
      omega

theorem lastActivationBlock_eq (sortSlice : SliceSort) (acts : List PolicyActivation)
    (hsort : IsSortOf activatedLater acts (sortPolicyActivationsByDate sortSlice acts))
    (hmax : ∀ a ∈ acts, (∀ b ∈ acts, b.PolicyInfo.ActivationDate ≤ a.PolicyInfo.ActivationDate) →
      a.PolicyInfo.ActivationDate ≠ 0) :
    (lastActivationBlock sortSlice acts).Perm (latestActivations acts) := by
  obtain ⟨hperm, hpw⟩ := hsort
  unfold lastActivationBlock
  generalize hs : sortPolicyActivationsByDate sortSlice acts = sorted at hperm hpw
  cases sorted with
  | nil =>
    have : acts = [] := by simpa using hperm.symm
    subst this
    simp [collectLastActivationBlock, latestActivations]
  | cons a rest =>
    have hmaxa : ∀ b ∈ acts, b.PolicyInfo.ActivationDate ≤ a.PolicyInfo.ActivationDate := by
      intro b hb
      have hb2 : b ∈ a :: rest := hperm.mem_iff.mpr hb
      rcases List.mem_cons.mp hb2 with rfl | hbr
      · exact le_refl _
      · have := (List.pairwise_cons.mp hpw).1 b hbr
        simpa [activatedLater] using this
    have ha0 : a.PolicyInfo.ActivationDate ≠ 0 :=
      hmax a (hperm.mem_iff.mp (List.mem_cons_self _ _)) hmaxa
    have hstep : collectLastActivationBlock 0 [] (a :: rest) =
        collectLastActivationBlock a.PolicyInfo.ActivationDate [a] rest := by
      rw [collectLastActivationBlock]
      simp
    rw [hstep, collectLastActivationBlock_of_ne_zero _ _ _ ha0]
    have htw : [a] ++ rest.takeWhile
        (fun x => decide (x.PolicyInfo.ActivationDate = a.PolicyInfo.ActivationDate)) =
        (a :: rest).takeWhile
          (fun x => decide (x.PolicyInfo.ActivationDate = a.PolicyInfo.ActivationDate)) := by
      rw [List.takeWhile_cons_of_pos (by simp)]
      rfl
    rw [htw, takeWhile_eq_filter_of_sorted _ _ hpw
      (fun b hb => hmaxa b (hperm.mem_iff.mp hb))]
    have hfilter : latestActivations acts =
        acts.filter (fun x =>
          decide (x.PolicyInfo.ActivationDate = a.PolicyInfo.ActivationDate)) := by
      unfold latestActivations
      apply List.filter_congr
      intro x hx
      have ha : a ∈ acts := hperm.mem_iff.mp (List.mem_cons_self _ _)
      by_cases hxa : x.PolicyInfo.ActivationDate = a.PolicyInfo.ActivationDate
      · simp only [hxa, decide_True, decide_eq_true_eq]
        exact hmaxa
      · have hlt := hmaxa x hx
        simp only [hxa, decide_False, decide_eq_false_iff_not]
        intro hall
        have := hall a ha
        omega
    rw [hfilter]
    exact hperm.filter _

theorem allPropertiesPresent_perm (block latest : List PolicyActivation) (version : Int)
    (props : List String) (h : block.Perm latest) :
    allPropertiesPresent block version props = allPropertiesPresent latest version props := by
  unfold allPropertiesPresent
  rw [Bool.eq_iff_iff]
  simp only [List.all_eq_true, List.any_eq_true]
  constructor
  · intro hall name hname
    obtain ⟨a, ha, hc⟩ := hall name hname
    exact ⟨a, h.mem_iff.mp ha, hc⟩
  · intro hall name hname
    obtain ⟨a, ha, hc⟩ := hall name hname
    exact ⟨a, h.mem_iff.mpr ha, hc⟩

/-- C17: for every activation list whose activation dates are all positive (and every
result of `sort.Slice` that is a sorted permutation), every version and every list of
property names: if some property name has no activation with that name and the given
version among the activations carrying the greatest activation date, `filterActivations`
returns nil; otherwise it returns the activations carrying the greatest activation date,
in some order.  In both cases the result is a sub-multiset of the input. -/
theorem filterActivations_latest_block (sortSlice : SliceSort)
    (activations : List PolicyActivation) (version : Int) (properties : List String)
    (hsort : IsSortOf activatedLater activations
      (sortPolicyActivationsByDate sortSlice activations))
    (hpos : ∀ a ∈ activations, 0 < a.PolicyInfo.ActivationDate) :
    ((∃ name ∈ properties, ∀ a ∈ latestActivations activations,
        ¬ (a.PropertyInfo.Name = name ∧ a.PolicyInfo.Version = version)) →
      filterActivations sortSlice activations version properties = []) ∧
    ((∀ name ∈ properties, ∃ a ∈ latestActivations activations,
        a.PropertyInfo.Name = name ∧ a.PolicyInfo.Version = version) →
      (filterActivations sortSlice activations version properties).Perm
        (latestActivations activations)) ∧
    (filterActivations sortSlice activations version properties).Subperm activations := by
  have hblock := lastActivationBlock_eq sortSlice activations hsort
    (fun a ha _ => ne_of_gt (hpos a ha))
  have hpres := allPropertiesPresent_perm _ _ version properties hblock
  unfold lastActivationBlock at hblock hpres
  have hsub : (latestActivations activations).Subperm activations :=
    (List.filter_sublist _).subperm
  refine ⟨?_, ?_, ?_⟩
  · rintro ⟨name, hname, hno⟩
    unfold filterActivations
    simp only
    rw [hpres, if_neg]
    intro hall
    simp only [allPropertiesPresent, List.all_eq_true, List.any_eq_true, Bool.and_eq_true,
      decide_eq_true_eq] at hall
    obtain ⟨a, ha, hc⟩ := hall name hname
    exact hno a ha hc
  · intro hall
    unfold filterActivations
    simp only
    rw [hpres, if_pos]
    · exact hblock
    · simp only [allPropertiesPresent, List.all_eq_true, List.any_eq_true, Bool.and_eq_true,
        decide_eq_true_eq]
      exact hall
  · unfold filterActivations
    simp only
    split
    · exact hblock.subperm.trans hsub
    · exact List.nil_subperm

/-- Witness for C17: of two activations of version 2, the one with the greater date is
returned for property `a`. -/
theorem filterActivations_latest_block_witness :
    (filterActivations insertionSortSlice
        [mkActivation "a" 2 "active" 10, mkActivation "a" 2 "active" 20] 2 ["a"]).Perm
      (latestActivations [mkActivation "a" 2 "active" 10, mkActivation "a" 2 "active" 20]) :=
  (filterActivations_latest_block insertionSortSlice
    [mkActivation "a" 2 "active" 10, mkActivation "a" 2 "active" 20] 2 ["a"]
    ⟨by decide, by decide⟩ (by decide)).2.1 (by decide)

/-- C18 as stated fails: for an activation with date 0 and one with date -1 the
last-activation block holds both, although their dates differ. -/
theorem lastActivationBlock_mixed_dates :
    lastActivationBlock insertionSortSlice [activationDateZero, activationDateNegative] =
      [activationDateZero, activationDateNegative] ∧
    activationDateZero.PolicyInfo.ActivationDate ≠
      activationDateNegative.PolicyInfo.ActivationDate :=
  ⟨by decide, by decide⟩

/-- C18, amended: for every input list of activations whose greatest activation date is
not 0 (and every result of `sort.Slice` that is a sorted permutation), the last-activation
block collected by `filterActivations` consists of activations of the input that all
carry the greatest activation date of the input; it is non-empty when the input is. -/
theorem lastActivationBlock_latest_date (sortSlice : SliceSort)
    (activations : List PolicyActivation)
    (hsort : IsSortOf activatedLater activations
      (sortPolicyActivationsByDate sortSlice activations))
    (hmax : ∀ a ∈ activations,
      (∀ b ∈ activations, b.PolicyInfo.ActivationDate ≤ a.PolicyInfo.ActivationDate) →
      a.PolicyInfo.ActivationDate ≠ 0) :
    (∀ x ∈ lastActivationBlock sortSlice activations, x ∈ activations ∧
      ∀ b ∈ activations, b.PolicyInfo.ActivationDate ≤ x.PolicyInfo.ActivationDate) ∧
    (∀ x ∈ lastActivationBlock sortSlice activations,
      ∀ y ∈ lastActivationBlock sortSlice activations,
      x.PolicyInfo.ActivationDate = y.PolicyInfo.ActivationDate) ∧
    (activations ≠ [] → lastActivationBlock sortSlice activations ≠ []) := by
  have hblock := lastActivationBlock_eq sortSlice activations hsort hmax
  have hmem : ∀ x ∈ lastActivationBlock sortSlice activations, x ∈ activations ∧
      ∀ b ∈ activations, b.PolicyInfo.ActivationDate ≤ x.PolicyInfo.ActivationDate := by
    intro x hx
    have := hblock.mem_iff.mp hx
    simpa [latestActivations] using this
  refine ⟨hmem, ?_, ?_⟩
  · intro x hx y hy
    obtain ⟨hxa, hxm⟩ := hmem x hx
    obtain ⟨hya, hym⟩ := hmem y hy
    exact le_antisymm (hym x hxa) (hxm y hya)
  · intro hne hnil
    rw [hnil] at hblock
    have hlat : latestActivations activations = [] := by simpa using hblock.symm
    obtain ⟨hperm, hpw⟩ := hsort
    cases hs : sortPolicyActivationsByDate sortSlice activations with
    | nil =>
      rw [hs] at hperm
      exact hne (by simpa using hperm.symm)
    | cons a rest =>
      rw [hs] at hperm hpw
      have ha : a ∈ activations := hperm.mem_iff.mp (List.mem_cons_self _ _)
      have : a ∈ latestActivations activations := by
        simp only [latestActivations, List.mem_filter, decide_eq_true_eq]
        refine ⟨ha, ?_⟩
        intro b hb
        have hb2 : b ∈ a :: rest := hperm.mem_iff.mpr hb
        rcases List.mem_cons.mp hb2 with rfl | hbr
        · exact le_refl _
        · have := (List.pairwise_cons.mp hpw).1 b hbr
          simpa [activatedLater] using this
      rw [hlat] at this
      cases this

/-- Witness for C18, amended: the block of two activations with the dates 10 and 20. -/
theorem lastActivationBlock_latest_date_witness :
    lastActivationBlock insertionSortSlice
        [mkActivation "a" 2 "active" 10, mkActivation "a" 2 "active" 20] =
      [mkActivation "a" 2 "active" 20] ∧
    ∀ x ∈ lastActivationBlock insertionSortSlice
        [mkActivation "a" 2 "active" 10, mkActivation "a" 2 "active" 20],
      x ∈ [mkActivation "a" 2 "active" 10, mkActivation "a" 2 "active" 20] ∧
      ∀ b ∈ [mkActivation "a" 2 "active" 10, mkActivation "a" 2 "active" 20],
        b.PolicyInfo.ActivationDate ≤ x.PolicyInfo.ActivationDate :=
  ⟨by decide, (lastActivationBlock_latest_date insertionSortSlice
    [mkActivation "a" 2 "active" 10, mkActivation "a" 2 "active" 20]
    ⟨by decide, by decide⟩ (by decide)).1⟩

/-! ### `v3ActivationStrategy.waitForActivation` -/

theorem v3_waitForActivation_success (strategy : v3ActivationStrategy) (w : World)
    (policyID : Int) :
    ∀ (fuel : Nat) (r : Run) (id : String) (r2 : Run),
      strategy.waitForActivation w policyID fuel r = some (.ok id, r2) →
      id = strategy.getID policyID ∧ r.calls.length < r2.calls.length ∧
      ∃ activation,
        w.GetPolicyActivation (r2.calls.length - 1) policyID strategy.activationID
          = .ok (some activation) ∧
        activation.Status = V3ActivationStatusSuccess := by
  intro fuel
  induction fuel with
  | zero => intro r id r2 h; simp [v3ActivationStrategy.waitForActivation] at h
  | succ fuel ih =>
    intro r id r2 h
    rw [v3ActivationStrategy.waitForActivation] at h
    split at h
    · split at h
      · simp at h
      · obtain ⟨h1, h2, h3⟩ := ih _ id r2 h
        simp only [Run.call, Run.tick, List.length_append, List.length_singleton] at h2
        exact ⟨h1, by omega, h3⟩
      · rename_i activation hget
        split at h
        · rename_i hs
          simp only [Option.some.injEq, Prod.mk.injEq, Except.ok.injEq] at h
          obtain ⟨h1, h2⟩ := h
          subst h1 h2
          exact ⟨rfl, by simp [Run.call, Run.tick],
            activation, by simpa [Run.call, Run.tick] using hget, hs⟩
        · split at h
          · simp at h
          · obtain ⟨h1, h2, h3⟩ := ih _ id r2 h
            simp only [Run.call, Run.tick, List.length_append, List.length_singleton] at h2
            exact ⟨h1, by omega, h3⟩
    · simp at h

theorem v3_waitForActivation_skip (strategy : v3ActivationStrategy) (w : World)
    (policyID : Int) :
    ∀ (k fuel : Nat) (r : Run),
      (∀ j, j < k → w.select (r.selects + j) = .timer ∧
        KeepsPolling (w.GetPolicyActivation (r.calls.length + j) policyID
          strategy.activationID)) →
      strategy.waitForActivation w policyID (fuel + k) r =
        strategy.waitForActivation w policyID fuel
          ⟨r.calls ++ List.replicate k (.getPolicyActivation policyID strategy.activationID),
            r.selects + k⟩ := by
  intro k
  induction k with
  | zero => intro fuel r _; simp
  | succ k ih =>
    intro fuel r h
    obtain ⟨hsel, hkeep⟩ := h 0 (Nat.succ_pos k)
    simp only [Nat.add_zero] at hsel hkeep
    have hstep : strategy.waitForActivation w policyID (fuel + (k + 1)) r =
        strategy.waitForActivation w policyID (fuel + k)
          ((r.tick).call (.getPolicyActivation policyID strategy.activationID)) := by
      rw [← Nat.add_assoc, v3ActivationStrategy.waitForActivation, hsel]
      rcases hkeep with hnil | ⟨activation, hact, hs, hf⟩
      · rw [hnil]
      · rw [hact]
        simp only [hs, hf, if_false]
    rw [hstep, ih]
    · simp [Run.tick, Run.call, List.replicate_succ, Nat.add_comm, Nat.add_left_comm]
    · intro j hj
      obtain ⟨a1, a2⟩ := h (j + 1) (Nat.succ_lt_succ hj)
      constructor
      · rw [← a1]; simp only [Run.tick, Run.call]; congr 1; omega
      · have hidx : ((r.tick).call
            (.getPolicyActivation policyID strategy.activationID)).calls.length + j =
            r.calls.length + (j + 1) := by
          simp [Run.tick, Run.call]; omega
        rw [hidx]
        exact a2

/-- C16: `waitForActivation` returns an ID without error only after a `GetPolicyActivation`
call (its last call) answered with status SUCCESS, and the ID is `<policyID>:<network>`.
After `k` polls that were answered with a nil activation or with a status other than
SUCCESS and FAILED, the timer firing before each poll, the next poll decides: status
SUCCESS gives the ID, status FAILED the error "activation failed for policy <policyID>",
and an error of the call that error; each after exactly `k + 1` calls. -/
theorem v3_waitForActivation_spec (strategy : v3ActivationStrategy) (w : World)
    (policyID : Int) :
    (∀ (fuel : Nat) (r : Run) (id : String) (r2 : Run),
      strategy.waitForActivation w policyID fuel r = some (.ok id, r2) →
      id = toString policyID ++ ":" ++ strategy.network ∧
      r.calls.length < r2.calls.length ∧
      ∃ activation,
        w.GetPolicyActivation (r2.calls.length - 1) policyID strategy.activationID
          = .ok (some activation) ∧
        activation.Status = V3ActivationStatusSuccess) ∧
    (∀ (k fuel : Nat) (r : Run), k < fuel →
      (∀ j, j < k → w.select (r.selects + j) = .timer ∧
        KeepsPolling (w.GetPolicyActivation (r.calls.length + j) policyID
          strategy.activationID)) →
      w.select (r.selects + k) = .timer →
      (∀ activation,
        w.GetPolicyActivation (r.calls.length + k) policyID strategy.activationID
          = .ok (some activation) →
        activation.Status = V3ActivationStatusSuccess →
        strategy.waitForActivation w policyID fuel r =
          some (.ok (toString policyID ++ ":" ++ strategy.network),
            ⟨r.calls ++ List.replicate (k + 1)
              (.getPolicyActivation policyID strategy.activationID), r.selects + (k + 1)⟩)) ∧
      (∀ activation,
        w.GetPolicyActivation (r.calls.length + k) policyID strategy.activationID
          = .ok (some activation) →
        activation.Status = V3ActivationStatusFailed →
        strategy.waitForActivation w policyID fuel r =
          some (.error (.activationFailedForPolicy policyID),
            ⟨r.calls ++ List.replicate (k + 1)
              (.getPolicyActivation policyID strategy.activationID), r.selects + (k + 1)⟩)) ∧
      (∀ e,
        w.GetPolicyActivation (r.calls.length + k) policyID strategy.activationID
          = .error e →
        strategy.waitForActivation w policyID fuel r =
          some (.error (.client e),
            ⟨r.calls ++ List.replicate (k + 1)
              (.getPolicyActivation policyID strategy.activationID),
              r.selects + (k + 1)⟩))) := by
  constructor
  · intro fuel r id r2 h
    exact v3_waitForActivation_success strategy w policyID fuel r id r2 h
  · intro k fuel r hk hkeep hsel
    obtain ⟨fuel2, rfl⟩ : ∃ m, fuel = (m + 1) + k := ⟨fuel - k - 1, by omega⟩
    have hskip := v3_waitForActivation_skip strategy w policyID k (fuel2 + 1) r hkeep
    have hidx : (r.calls ++ List.replicate k
        (Request.getPolicyActivation policyID strategy.activationID)).length =
        r.calls.length + k := by simp
    refine ⟨?_, ?_, ?_⟩
    · intro activation hget hs
      rw [hskip, v3ActivationStrategy.waitForActivation]
      simp only [hsel, hidx, hget, hs, if_true]
      simp [Run.tick, Run.call, List.replicate_succ', v3ActivationStrategy.getID,
        Nat.add_assoc]
    · intro activation hget hs
      have hne : ¬ (V3ActivationStatusFailed = V3ActivationStatusSuccess) := by decide
      rw [hskip, v3ActivationStrategy.waitForActivation]
      simp only [hsel, hidx, hget, hs, hne, if_true, if_false]
      simp [Run.tick, Run.call, List.replicate_succ', Nat.add_assoc]
    · intro e hget
      rw [hskip, v3ActivationStrategy.waitForActivation]
      simp only [hsel, hidx, hget]
      simp [Run.tick, Run.call, List.replicate_succ', Nat.add_assoc]

/-- Witness for C16: activation 7 is in progress at the first poll and has succeeded at the
second; `waitForActivation` returns `1:STAGING` after two calls. -/
theorem v3_waitForActivation_spec_witness :
    (⟨"STAGING", 7⟩ : v3ActivationStrategy).waitForActivation worldV3Succeeds 1 5 ⟨[], 0⟩ =
      some (.ok "1:STAGING",
        ⟨[.getPolicyActivation 1 7, .getPolicyActivation 1 7], 2⟩) :=
  ((v3_waitForActivation_spec ⟨"STAGING", 7⟩ worldV3Succeeds 1).2 1 5 ⟨[], 0⟩ (by decide)
    (fun j hj => by
      have hj0 : j = 0 := by omega
      subst hj0
      exact ⟨rfl, Or.inr ⟨_, rfl, by decide, by decide⟩⟩)
    rfl).1 { ID := 7, PolicyID := 1, Status := "SUCCESS" } rfl rfl

/-! ### The retry loop of `resourcePolicyActivationCreate` -/

/-- C15, the code at the failing input: `ActivatePolicyVersion` keeps failing with the
retryable error and the context never ends.  The loop makes 7 attempts; the timers that
fire after them last 15, 30, 60, 120, 240, 480 and 960 seconds, so the waits start at 15 s
and double, but retrying goes on after 945 s of accumulated waiting and is abandoned only
after 1905 s, more than the 600 s of `PolicyActivationRetryTimeout`. -/
theorem activatePolicyVersionRetryLoop_exceeds_timeout :
    activatePolicyVersionRetryLoop worldNeverActivates activateVersion2 10
        PolicyActivationRetryPollMinimum [] ⟨[], 0⟩ =
      some (some (.createError propertyDoesNotExist.msg),
        [15 * Second, 30 * Second, 60 * Second, 120 * Second, 240 * Second, 480 * Second,
          960 * Second],
        ⟨List.replicate 7 (.activatePolicyVersion activateVersion2), 7⟩) ∧
    ([15 * Second, 30 * Second, 60 * Second, 120 * Second, 240 * Second,
        480 * Second].sum = 945 * Second ∧ 945 * Second > PolicyActivationRetryTimeout) ∧
    ([15 * Second, 30 * Second, 60 * Second, 120 * Second, 240 * Second, 480 * Second,
        960 * Second].sum = 1905 * Second ∧ PolicyActivationRetryTimeout = 600 * Second) :=
  ⟨by decide, ⟨by decide, by decide⟩, ⟨by decide, by decide⟩⟩

/-! ### `syncToServerRemovedProperties` -/

theorem deleteRequests_append (l1 l2 : List Request) :
    deleteRequests (l1 ++ l2) = deleteRequests l1 ++ deleteRequests l2 := by
  simp [deleteRequests, List.filterMap_append]

theorem deleteRequests_replicate_list (m : Nat) (req : ListPolicyActivationsRequest) :
    deleteRequests (List.replicate m (.listPolicyActivations req)) = [] := by
  induction m with
  | zero => rfl
  | succ n ih =>
    rw [List.replicate_succ]
    simp [deleteRequests]

theorem waitForList_deleteRequests (w : World) (req : ListPolicyActivationsRequest)
    (r : Run) :
    deleteRequests (waitForListPolicyActivations w req r).2.calls =
      deleteRequests r.calls := by
  rw [waitForListPolicyActivations]
  split
  · simp [Run.call, deleteRequests]
  · rename_i acts _
    obtain ⟨m, _, hc⟩ := waitForListLoop_calls w req MaxListActivationsPollRetries acts
      (r.call (.listPolicyActivations req))
    rw [hc, deleteRequests_append, deleteRequests_replicate_list]
    simp [Run.call, deleteRequests]

theorem waitForNotPendingLoop_deleteRequests (w : World) (policyID : Int)
    (network : String) :
    ∀ (fuel : Nat) (acts : List PolicyActivation) (r : Run) (res : Option Err) (r2 : Run),
      waitForNotPendingLoop w policyID network fuel acts r = some (res, r2) →
      deleteRequests r2.calls = deleteRequests r.calls := by
  intro fuel
  induction fuel with
  | zero =>
    intro acts r res r2 h
    rw [waitForNotPendingLoop] at h
    split at h
    · split at h
      · cases h; rfl
      · cases h; rfl
      · cases h
    · cases h; rfl
  | succ n ih =>
    intro acts r res r2 h
    rw [waitForNotPendingLoop] at h
    split at h
    · split at h
      · cases h; rfl
      · cases h; rfl
      · split at h
        · have hd := waitForList_deleteRequests w ⟨policyID, network⟩ r.tick
          split at h
          · rename_i e r3 heq
            cases h
            rw [heq] at hd
            simpa [Run.tick] using hd
          · rename_i acts2 r3 heq
            rw [heq] at hd
            rw [ih acts2 r3 res r2 h]
            simpa [Run.tick] using hd
        · cases h; rfl
    · cases h; rfl

theorem waitForNotPending_deleteRequests (w : World) (fuel : Nat) (policyID : Int)
    (network : String) (r : Run) (res : Option Err) (r2 : Run)
    (h : waitForNotPendingPolicyActivation w fuel policyID network r = some (res, r2)) :
    deleteRequests r2.calls = deleteRequests r.calls := by
  rw [waitForNotPendingPolicyActivation] at h
  have hd := waitForList_deleteRequests w ⟨policyID, ""⟩ r
  split at h
  · rename_i e r1 heq
    cases h
    rw [heq] at hd
    exact hd
  · rename_i acts r1 heq
    rw [heq] at hd
    rw [waitForNotPendingLoop_deleteRequests w policyID network fuel acts r1 res r2 h]
    exact hd

theorem syncRemovedPropertiesLoop_ok (w : World) (fuel : Nat) (policyID : Int)
    (network : String) (newPolicyProperties : List String)
    (policyProperties : List (String × PolicyProperty)) :
    ∀ (activeProps removed : List String) (r : Run) (out : List String) (r2 : Run),
      syncRemovedPropertiesLoop w fuel policyID network newPolicyProperties policyProperties
        activeProps removed r = some (.ok out, r2) →
      out = removed ++ unnecessaryProperties activeProps newPolicyProperties policyProperties ∧
      deleteRequests r2.calls = deleteRequests r.calls ++
        (unnecessaryProperties activeProps newPolicyProperties policyProperties).filterMap
          (deleteRequestFor policyID network policyProperties) := by
  intro activeProps
  induction activeProps with
  | nil =>
    intro removed r out r2 h
    rw [syncRemovedPropertiesLoop] at h
    split at h
    · cases h
    · cases h
    · rename_i r3 heq
      cases h
      have hd := waitForNotPending_deleteRequests w fuel policyID network r none r2 heq
      simp [unnecessaryProperties, hd]
  | cons activeProp rest ih =>
    intro removed r out r2 h
    rw [syncRemovedPropertiesLoop] at h
    split at h
    · rename_i hmem
      obtain ⟨h1, h2⟩ := ih removed r out r2 h
      have hc : newPolicyProperties.contains activeProp = true := by
        simp only [List.any_eq_true, decide_eq_true_eq] at hmem
        obtain ⟨x, hx, rfl⟩ := hmem
        simpa using hx
      simp only [unnecessaryProperties, List.filter_cons, hc, Bool.not_true, Bool.false_and]
      exact ⟨h1, h2⟩
    · rename_i hmem
      have hc : newPolicyProperties.contains activeProp = false := by
        rw [Bool.eq_false_iff]
        intro hcon
        apply hmem
        simp only [List.any_eq_true, decide_eq_true_eq]
        exact ⟨activeProp, by simpa using hcon, rfl⟩
      split at h
      · rename_i hlook
        obtain ⟨h1, h2⟩ := ih removed r out r2 h
        simp only [unnecessaryProperties, List.filter_cons, hc, hlook, Option.isSome_none,
          Bool.and_false]
        exact ⟨h1, h2⟩
      · rename_i property hlook
        split at h
        · cases h
        · cases h
        · rename_i r3 heq
          have hd := waitForNotPending_deleteRequests w fuel policyID network r none r3 heq
          split at h
          · cases h
          · obtain ⟨h1, h2⟩ := ih _ _ out r2 h
            have hfilter : unnecessaryProperties (activeProp :: rest) newPolicyProperties
                policyProperties = activeProp ::
                  unnecessaryProperties rest newPolicyProperties policyProperties := by
              have hnm : activeProp ∉ newPolicyProperties := by
                intro hin
                have : newPolicyProperties.contains activeProp = true := by simpa using hin
                rw [hc] at this
                cases this
              simp [unnecessaryProperties, List.filter_cons, hnm, hlook]
            rw [hfilter]
            constructor
            · rw [h1]; simp
            · rw [h2]
              simp only [Run.call, deleteRequests_append, hd]
              simp [deleteRequests, deleteRequestFor, hlook]

/-- C20: when `syncToServerRemovedProperties` succeeds, with `policyProperties` the map
answered by `GetPolicyProperties`, the returned list is `activeProps` restricted, in
order, to the names that are not in `newPolicyProperties` and are keys of the map; the
`DeletePolicyProperty` requests issued are, in order, one for each returned name, with the
ID of that property in the map and the given network; no returned name, hence no deleted
one, is in `newPolicyProperties`; and if `activeProps` has no duplicates, no name is
deleted twice. -/
theorem syncToServerRemovedProperties_spec (w : World) (fuel : Nat) (policyID : Int)
    (network : String) (activeProps newPolicyProperties : List String) (r : Run)
    (policyProperties : List (String × PolicyProperty)) (out : List String) (r2 : Run)
    (hprops : w.GetPolicyProperties r.calls.length policyID = .ok policyProperties)
    (h : syncToServerRemovedProperties w fuel policyID network activeProps
      newPolicyProperties r = some (.ok out, r2)) :
    out = activeProps.filter (fun name =>
      !(newPolicyProperties.contains name) && (policyProperties.lookup name).isSome) ∧
    deleteRequests r2.calls = deleteRequests r.calls ++
      out.filterMap (deleteRequestFor policyID network policyProperties) ∧
    (out.filterMap (deleteRequestFor policyID network policyProperties)).length =
      out.length ∧
    (∀ name ∈ out, name ∉ newPolicyProperties ∧
      ∃ property, policyProperties.lookup name = some property ∧
        deleteRequestFor policyID network policyProperties name =
          some ⟨policyID, property.ID, network⟩) ∧
    (activeProps.Nodup → out.Nodup) := by
  rw [syncToServerRemovedProperties, hprops] at h
  obtain ⟨h1, h2⟩ := syncRemovedPropertiesLoop_ok w fuel policyID network
    newPolicyProperties policyProperties activeProps [] _ out r2 h
  simp only [List.nil_append] at h1
  have hmem : ∀ name ∈ out, name ∉ newPolicyProperties ∧
      ∃ property, policyProperties.lookup name = some property ∧
        deleteRequestFor policyID network policyProperties name =
          some ⟨policyID, property.ID, network⟩ := by
    intro name hn
    rw [h1] at hn
    simp only [unnecessaryProperties, List.mem_filter, Bool.and_eq_true, Bool.not_eq_true',
      List.contains_eq_any_beq, List.any_eq_false, beq_iff_eq, Option.isSome_iff_exists] at hn
    obtain ⟨_, hnot, property, hp⟩ := hn
    refine ⟨fun hin => hnot name hin rfl, property, hp, ?_⟩
    simp [deleteRequestFor, hp]
  refine ⟨h1, ?_, ?_, hmem, ?_⟩
  · rw [h2, ← h1]
    simp [Run.call, deleteRequests_append, deleteRequests]
  · clear h h1 h2
    induction out with
    | nil => rfl
    | cons a l ih =>
      obtain ⟨_, property, _, hreq⟩ := hmem a (List.mem_cons_self _ _)
      rw [List.filterMap_cons, hreq]
      simp only [List.length_cons]
      rw [ih (fun name hn => hmem name (List.mem_cons_of_mem _ hn))]
  · intro hnd
    rw [h1]
    exact hnd.filter _

/-- Witness for C20: of the active properties `a`, `b`, `c`, `d`, with `a` kept and `d`
unknown to the policy, `b` and `c` are removed with their IDs 12 and 13. -/
theorem syncToServerRemovedProperties_spec_witness :
    syncToServerRemovedProperties worldThreeProperties 1 1 "staging" ["a", "b", "c", "d"]
        ["a"] ⟨[], 0⟩ =
      some (.ok ["b", "c"],
        ⟨[.getPolicyProperties 1, .listPolicyActivations ⟨1, ""⟩,
          .deletePolicyProperty ⟨1, 12, "staging"⟩, .listPolicyActivations ⟨1, ""⟩,
          .deletePolicyProperty ⟨1, 13, "staging"⟩, .listPolicyActivations ⟨1, ""⟩], 0⟩) ∧
    deleteRequests [.getPolicyProperties 1, .listPolicyActivations ⟨1, ""⟩,
        .deletePolicyProperty ⟨1, 12, "staging"⟩, .listPolicyActivations ⟨1, ""⟩,
        .deletePolicyProperty ⟨1, 13, "staging"⟩, .listPolicyActivations ⟨1, ""⟩] =
      [⟨1, 12, "staging"⟩, ⟨1, 13, "staging"⟩] :=
  ⟨rfl, by
    have h := (syncToServerRemovedProperties_spec worldThreeProperties 1 1 "staging"
      ["a", "b", "c", "d"] ["a"] ⟨[], 0⟩ [("a", ⟨11⟩), ("b", ⟨12⟩), ("c", ⟨13⟩)]
      ["b", "c"] _ rfl rfl).2.1
    exact h⟩

/-! ### `resourcePolicyActivationUpdate` -/

/-- C19, the code at the failing input: the network of the resource was changed to
production, where version 2 for property `a` is still pending and version 1 is the active
one.  The update takes the shortcut: it issues `GetPolicyVersion` and two listings, no
`ActivatePolicyVersion` and no `DeletePolicyProperty`, and returns without a diagnostic
after the read; yet no listed activation of property `a` is active with version 2. -/
theorem resourcePolicyActivationUpdate_shortcut_without_active_version :
    resourcePolicyActivationUpdate insertionSortSlice tfCanonical worldProductionPending 10
        resourceNetworkChanged ⟨[], 0⟩ =
      some (none, resourceAfterShortcut,
        ⟨[.getPolicyVersion 1 2, .listPolicyActivations ⟨1, "prod"⟩,
          .listPolicyActivations ⟨1, "prod"⟩], 0⟩) ∧
    worldProductionPending.ListPolicyActivations 1 ⟨1, "prod"⟩ =
      .ok [productionPending, productionActive] ∧
    alreadyActive resourceNetworkChanged [productionPending, productionActive]
      (getActiveProperties [productionPending, productionActive]) ["a"] 2 = some true ∧
    ¬ ∃ act ∈ [productionPending, productionActive],
      act.PropertyInfo.Name = "a" ∧ act.PolicyInfo.Status = PolicyActivationStatusActive ∧
        act.PolicyInfo.Version = 2 :=
  ⟨rfl, rfl, by decide, by decide⟩

end Cloudlets

namespace CPS
open GoStd

theorem cons_replicate_append {α : Type} (a : α) (k : Nat) (l : List α) :
    a :: (List.replicate k a ++ l) = List.replicate k a ++ a :: l := by
  induction k with
  | zero => rfl
  | succ k ih => simp [List.replicate_succ, ih]

theorem retryAcknowledgement_failures (w : World) (d : ResourceData)
    (enrollmentID changeID : Int) :
    ∀ (k fuel : Nat) (err : String) (errs : Nat → String) (r : Run),
      (∀ j, j < k → w.select (r.selects + j) = .timer ∧
        w.AcknowledgeDVChallenges (r.calls.length + j) enrollmentID changeID
          = some (errs j)) →
      retryAcknowledgement w d enrollmentID changeID (fuel + k) err r =
        retryAcknowledgement w d enrollmentID changeID fuel
          (match k with
           | 0 => err
           | k + 1 => errs k)
          ⟨r.calls ++ List.replicate k (ackRequest enrollmentID changeID), r.selects + k⟩ := by
  intro k
  induction k with
  | zero => intro fuel err errs r _; simp
  | succ k ih =>
    intro fuel err errs r h
    obtain ⟨hsel, hack⟩ := h 0 (Nat.succ_pos k)
    simp only [Nat.add_zero] at hsel hack
    rw [← Nat.add_assoc, retryAcknowledgement]
    simp only [hsel, hack]
    rw [ih fuel (errs 0) (fun j => errs (j + 1))]
    · cases k with
      | zero => simp [Run.tick, Run.call, ackRequest]
      | succ k =>
        simp [Run.tick, Run.call, ackRequest, List.replicate_succ, Nat.add_comm,
          Nat.add_left_comm]
    · intro j hj
      obtain ⟨a1, a2⟩ := h (j + 1) (Nat.succ_lt_succ hj)
      constructor
      · rw [← a1]; simp only [Run.tick, Run.call]; congr 1; omega
      · rw [← a2]
        simp only [Run.tick, Run.call, List.length_append, List.length_singleton]
        congr 1; omega

theorem acknowledgeDVChallenges_retry (w : World) (fuel : Nat) (d : ResourceData)
    (enrollmentID changeID : Int) (r : Run) (k : Nat) (errs : Nat → String)
    (hk : k ≤ fuel)
    (hfail : ∀ j, j < k →
      w.AcknowledgeDVChallenges (r.calls.length + j) enrollmentID changeID = some (errs j)) :
    ((∀ j, j < k → w.select (r.selects + j) = .timer) →
      w.AcknowledgeDVChallenges (r.calls.length + k) enrollmentID changeID = none →
      acknowledgeDVChallenges w fuel d enrollmentID changeID r =
        some (resourceCPSDVValidationRead w { d with id := toString enrollmentID }
          ⟨r.calls ++ List.replicate (k + 1) (ackRequest enrollmentID changeID),
            r.selects + k⟩)) ∧
    (∀ ctxErr, 1 ≤ k → (∀ j, j + 1 < k → w.select (r.selects + j) = .timer) →
      w.select (r.selects + (k - 1)) = .done ctxErr →
      acknowledgeDVChallenges w fuel d enrollmentID changeID r =
        some (.error ("retry timeout reached - error sending acknowledgement request: "
            ++ errs (k - 1)), d,
          ⟨r.calls ++ List.replicate k (ackRequest enrollmentID changeID),
            r.selects + k⟩)) := by
  constructor
  · intro hsel hok
    cases k with
    | zero =>
      simp only [Nat.add_zero] at hok
      rw [acknowledgeDVChallenges, hok]
      simp [Run.call, ackRequest]
    | succ k =>
      have h0 := hfail 0 (Nat.succ_pos k)
      simp only [Nat.add_zero] at h0
      obtain ⟨fuel2, rfl⟩ : ∃ m, fuel = (m + 1) + k := ⟨fuel - (k + 1), by omega⟩
      rw [acknowledgeDVChallenges, h0]
      simp only []
      rw [retryAcknowledgement_failures w d enrollmentID changeID k (fuel2 + 1) (errs 0)
        (fun j => errs (j + 1))]
      · rw [retryAcknowledgement]
        have hs := hsel k (Nat.lt_succ_self k)
        have hidx : (r.calls ++ [Request.acknowledgeDVChallenges AcknowledgementAcknowledge
            enrollmentID changeID] ++ List.replicate k (ackRequest enrollmentID changeID)).length
            = r.calls.length + (k + 1) := by simp
        simp only [Run.call, hs, hidx, hok]
        simp [Run.tick, Run.call, ackRequest, List.replicate_succ', cons_replicate_append,
          Nat.add_assoc]
      · intro j hj
        refine ⟨by simpa [Run.call] using hsel j (by omega), ?_⟩
        have := hfail (j + 1) (Nat.succ_lt_succ hj)
        rw [← this]
        simp only [Run.call, List.length_append, List.length_singleton]
        congr 1; omega
  · intro ctxErr hk1 hsel hdone
    obtain ⟨k, rfl⟩ : ∃ m, k = m + 1 := ⟨k - 1, by omega⟩
    have h0 := hfail 0 (Nat.succ_pos k)
    simp only [Nat.add_zero] at h0
    obtain ⟨fuel2, rfl⟩ : ∃ m, fuel = (m + 1) + k := ⟨fuel - (k + 1), by omega⟩
    rw [acknowledgeDVChallenges, h0]
    simp only []
    rw [retryAcknowledgement_failures w d enrollmentID changeID k (fuel2 + 1) (errs 0)
      (fun j => errs (j + 1))]
    · rw [retryAcknowledgement]
      simp only [Nat.add_sub_cancel] at hdone
      simp only [Run.call, hdone]
      cases k with
      | zero => simp [Run.tick, ackRequest]
      | succ k => simp [Run.tick, ackRequest, List.replicate_succ, Nat.add_assoc]
    · intro j hj
      refine ⟨by simpa [Run.call] using hsel j (by omega), ?_⟩
      have := hfail (j + 1) (Nat.succ_lt_succ hj)
      rw [← this]
      simp only [Run.call, List.length_append, List.length_singleton]
      congr 1; omega

/-- C5, amended: in `resourceCPSDVValidationCreate`, once the status loop is left with the
status `coodinate-domain-validation` (at run `r2`), let the first `k` acknowledgement
attempts fail with the errors `errs 0, ..., errs (k - 1)`.  If the timer fires in each of
the `k` waits and attempt `k + 1` succeeds, the resource ID is set to the decimal
enrollment ID and create returns what the read-back `resourceCPSDVValidationRead` returns
after `k + 1` acknowledgement calls.  If `k ≥ 1` and the context is done in the `k`-th
wait, create fails with "retry timeout reached - error sending acknowledgement request: "
followed by the error of the last failed attempt, and the resource data is unchanged. -/
theorem create_acknowledgement_retry (w : World) (fuel : Nat) (d : ResourceData) (r : Run)
    (enrollmentID : Int) (res : GetEnrollmentResponse) (changeID : Int) (status : Change)
    (r2 : Run) (k : Nat) (errs : Nat → String)
    (hid : d.enrollment_id = .ok enrollmentID)
    (henr : w.GetEnrollment r.calls.length enrollmentID = .ok res)
    (hcid : w.GetChangeIDFromPendingChanges res.PendingChanges = .ok changeID)
    (hst : w.GetChangeStatus (r.calls.length + 1) enrollmentID changeID = .ok status)
    (hpoll : pollChangeStatus w enrollmentID changeID fuel status
      ((r.call (.getEnrollment enrollmentID)).call (.getChangeStatus enrollmentID changeID))
      = some (none, r2))
    (hk : k ≤ fuel)
    (hfail : ∀ j, j < k →
      w.AcknowledgeDVChallenges (r2.calls.length + j) enrollmentID changeID
        = some (errs j)) :
    ((∀ j, j < k → w.select (r2.selects + j) = .timer) →
      w.AcknowledgeDVChallenges (r2.calls.length + k) enrollmentID changeID = none →
      resourceCPSDVValidationCreate w fuel d r =
        some (resourceCPSDVValidationRead w { d with id := toString enrollmentID }
          ⟨r2.calls ++ List.replicate (k + 1) (ackRequest enrollmentID changeID),
            r2.selects + k⟩)) ∧
    (∀ ctxErr, 1 ≤ k → (∀ j, j + 1 < k → w.select (r2.selects + j) = .timer) →
      w.select (r2.selects + (k - 1)) = .done ctxErr →
      resourceCPSDVValidationCreate w fuel d r =
        some (.error ("retry timeout reached - error sending acknowledgement request: "
            ++ errs (k - 1)), d,
          ⟨r2.calls ++ List.replicate k (ackRequest enrollmentID changeID),
            r2.selects + k⟩)) := by
  have hc : resourceCPSDVValidationCreate w fuel d r =
      acknowledgeDVChallenges w fuel d enrollmentID changeID r2 := by
    rw [resourceCPSDVValidationCreate, hid]
    simp only [henr, hcid, hst, hpoll]
  rw [hc]
  exact acknowledgeDVChallenges_retry w fuel d enrollmentID changeID r2 k errs hk hfail

/-- Witness for C5, amended: the run of the test "retry acknowledgement with timeout": the
first acknowledgement fails with `oops`, the timer fires once, the second acknowledgement
fails with `oops` and the context is done in the second wait. -/
theorem create_acknowledgement_retry_witness :
    resourceCPSDVValidationCreate worldRetryTimeout 5 newResource ⟨[], 0⟩ =
      some (.error "retry timeout reached - error sending acknowledgement request: oops",
        newResource,
        ⟨[.getEnrollment 1, .getChangeStatus 1 2, ackRequest 1 2, ackRequest 1 2], 2⟩) :=
  (create_acknowledgement_retry worldRetryTimeout 5 newResource ⟨[], 0⟩ 1 pendingEnrollment 2
    awaitingInput ⟨[.getEnrollment 1, .getChangeStatus 1 2], 0⟩ 2 (fun _ => "oops")
    rfl rfl rfl rfl rfl (by decide) (fun _ _ => rfl)).2 "context deadline exceeded"
    (by decide) (fun j hj => by
      have hj0 : j = 0 := by omega
      subst hj0
      rfl) rfl

/-- C5 as stated fails: the first acknowledgement succeeds and the context never ends, the
resource ID is the decimal enrollment ID, yet create does not succeed: it returns the
error of the read-back, whose `GetEnrollment` call fails. -/
theorem create_fails_after_acknowledgement :
    worldReadBackFails.AcknowledgeDVChallenges 2 1 2 = none ∧
    (∀ n, worldReadBackFails.select n = .timer) ∧
    resourceCPSDVValidationCreate worldReadBackFails 5 newResource ⟨[], 0⟩ =
      some (.error "boom", { newResource with id := "1" },
        ⟨[.getEnrollment 1, .getChangeStatus 1 2, ackRequest 1 2, .getEnrollment 1], 0⟩) :=
  ⟨rfl, fun _ => rfl, rfl⟩

/-- C6, the code at the failing input: the polled change status carries the error
description `rate limit at 100%`; create aborts without acknowledgement, but with the
message `rate limit at 100%!(NOVERB)`, which is not that description, because
`diag.Errorf` takes the description as its format string. -/
theorem create_mangles_error_description :
    errorDescription percentDescription = some "rate limit at 100%" ∧
    resourceCPSDVValidationCreate worldPercentDescription 5 newResource ⟨[], 0⟩ =
      some (.error "rate limit at 100%!(NOVERB)", newResource,
        ⟨[.getEnrollment 1, .getChangeStatus 1 2, .getChangeStatus 1 2], 1⟩) ∧
    "rate limit at 100%!(NOVERB)" ≠ "rate limit at 100%" :=
  ⟨rfl, rfl, by decide⟩

/-! ### The status loop -/

theorem sprintfLoop_of_no_percent :
    ∀ (fuel : Nat) (s : List Char), s.length < fuel → '%' ∉ s → sprintfLoop fuel s = s := by
  intro fuel
  induction fuel with
  | zero => intro s h; omega
  | succ fuel ih =>
    intro s hlen hno
    cases s with
    | nil => rfl
    | cons c t =>
      have hc : c ≠ '%' := fun hc => hno (by simp [hc])
      have ht : '%' ∉ t := fun ht => hno (List.mem_cons_of_mem _ ht)
      rw [sprintfLoop, if_neg hc, ih t (by simpa using hlen) ht]

theorem sprintfNoOperands_of_no_percent (s : String) (h : '%' ∉ s.toList) :
    sprintfNoOperands s = s := by
  have hlen : s.toList.length < s.length + 1 := by
    cases s
    exact Nat.lt_succ_self _
  unfold sprintfNoOperands
  rw [sprintfLoop_of_no_percent _ _ hlen h]
  rfl

theorem pollChangeStatus_trace (w : World) (enrollmentID changeID : Int) :
    ∀ (fuel : Nat) (status : Change) (r : Run) (out : Option Outcome) (r2 : Run),
      pollChangeStatus w enrollmentID changeID fuel status r = some (out, r2) →
      (∃ m, r2.calls = r.calls ++
        List.replicate m (Request.getChangeStatus enrollmentID changeID)) ∧
      (out = none →
        (r2 = r ∧ ∃ si, status.StatusInfo = some si ∧
          si.Status = statusCoordinateDomainValidation) ∨
        (r.calls.length < r2.calls.length ∧ ∃ last si,
          w.GetChangeStatus (r2.calls.length - 1) enrollmentID changeID = .ok last ∧
          last.StatusInfo = some si ∧ si.Status = statusCoordinateDomainValidation ∧
          errorDescription last = none)) ∧
      (∀ summary, out = some (.error summary) →
        (∃ n e, r.calls.length ≤ n ∧ n < r2.calls.length ∧
          w.GetChangeStatus n enrollmentID changeID = .error e ∧ summary = e) ∨
        (∃ n polled description, r.calls.length ≤ n ∧ n < r2.calls.length ∧
          w.GetChangeStatus n enrollmentID changeID = .ok polled ∧
          errorDescription polled = some description ∧
          summary = sprintfNoOperands description) ∨
        (∃ k ctxErr, r.selects ≤ k ∧ k < r2.selects ∧ w.select k = .done ctxErr ∧
          summary = "change status context terminated: " ++ ctxErr)) := by
  have stop : ∀ (status : Change) (r : Run) (out : Option Outcome) (r2 : Run)
      (si : StatusInfo), status.StatusInfo = some si →
      ¬ (si.Status ≠ statusCoordinateDomainValidation) →
      some ((none : Option Outcome), r) = some (out, r2) →
      (∃ m, r2.calls = r.calls ++
        List.replicate m (Request.getChangeStatus enrollmentID changeID)) ∧
      (out = none →
        (r2 = r ∧ ∃ si, status.StatusInfo = some si ∧
          si.Status = statusCoordinateDomainValidation) ∨
        (r.calls.length < r2.calls.length ∧ ∃ last si,
          w.GetChangeStatus (r2.calls.length - 1) enrollmentID changeID = .ok last ∧
          last.StatusInfo = some si ∧ si.Status = statusCoordinateDomainValidation ∧
          errorDescription last = none)) ∧
      (∀ summary, out = some (.error summary) →
        (∃ n e, r.calls.length ≤ n ∧ n < r2.calls.length ∧
          w.GetChangeStatus n enrollmentID changeID = .error e ∧ summary = e) ∨
        (∃ n polled description, r.calls.length ≤ n ∧ n < r2.calls.length ∧
          w.GetChangeStatus n enrollmentID changeID = .ok polled ∧
          errorDescription polled = some description ∧
          summary = sprintfNoOperands description) ∨
        (∃ k ctxErr, r.selects ≤ k ∧ k < r2.selects ∧ w.select k = .done ctxErr ∧
          summary = "change status context terminated: " ++ ctxErr)) := by
    intro status r out r2 si hsi hst h
    simp only [Option.some.injEq, Prod.mk.injEq] at h
    obtain ⟨h1, h2⟩ := h
    subst h1 h2
    refine ⟨⟨0, by simp⟩, fun _ => Or.inl ⟨rfl, si, hsi, not_not.mp hst⟩, ?_⟩
    intro summary hs
    cases hs
  have panics : ∀ (status : Change) (r : Run) (out : Option Outcome) (r2 : Run),
      some (some Outcome.panic, r) = some (out, r2) →
      (∃ m, r2.calls = r.calls ++
        List.replicate m (Request.getChangeStatus enrollmentID changeID)) ∧
      (out = none →
        (r2 = r ∧ ∃ si, status.StatusInfo = some si ∧
          si.Status = statusCoordinateDomainValidation) ∨
        (r.calls.length < r2.calls.length ∧ ∃ last si,
          w.GetChangeStatus (r2.calls.length - 1) enrollmentID changeID = .ok last ∧
          last.StatusInfo = some si ∧ si.Status = statusCoordinateDomainValidation ∧
          errorDescription last = none)) ∧
      (∀ summary, out = some (.error summary) →
        (∃ n e, r.calls.length ≤ n ∧ n < r2.calls.length ∧
          w.GetChangeStatus n enrollmentID changeID = .error e ∧ summary = e) ∨
        (∃ n polled description, r.calls.length ≤ n ∧ n < r2.calls.length ∧
          w.GetChangeStatus n enrollmentID changeID = .ok polled ∧
          errorDescription polled = some description ∧
          summary = sprintfNoOperands description) ∨
        (∃ k ctxErr, r.selects ≤ k ∧ k < r2.selects ∧ w.select k = .done ctxErr ∧
          summary = "change status context terminated: " ++ ctxErr)) := by
    intro status r out r2 h
    simp only [Option.some.injEq, Prod.mk.injEq] at h
    obtain ⟨h1, h2⟩ := h
    subst h1 h2
    refine ⟨⟨0, by simp⟩, fun h => (by cases h), ?_⟩
    intro summary hs
    cases hs
  intro fuel
  induction fuel with
  | zero =>
    intro status r out r2 h
    rw [pollChangeStatus] at h
    split at h
    · exact panics status r out r2 h
    · rename_i si hsi
      split at h
      · simp at h
      · rename_i hst
        exact stop status r out r2 si hsi hst h
  | succ fuel ih =>
    intro status r out r2 h
    rw [pollChangeStatus] at h
    split at h
    · exact panics status r out r2 h
    · rename_i si hsi
      split at h
      · split at h
        · rename_i hsel
          split at h
          · rename_i e hcall
            simp only [Option.some.injEq, Prod.mk.injEq] at h
            obtain ⟨h1, h2⟩ := h
            subst h1 h2
            refine ⟨⟨1, by simp [Run.tick, Run.call]⟩, fun h => (by cases h), ?_⟩
            intro summary hs
            simp only [Option.some.injEq, Outcome.error.injEq] at hs
            exact Or.inl ⟨r.calls.length, e, le_refl _, by simp [Run.tick, Run.call], hcall,
              hs.symm⟩
          · rename_i polled hcall
            split at h
            · rename_i description hdesc
              simp only [Option.some.injEq, Prod.mk.injEq] at h
              obtain ⟨h1, h2⟩ := h
              subst h1 h2
              refine ⟨⟨1, by simp [Run.tick, Run.call]⟩, fun h => (by cases h), ?_⟩
              intro summary hs
              simp only [Option.some.injEq, Outcome.error.injEq] at hs
              exact Or.inr (Or.inl ⟨r.calls.length, polled, description, le_refl _,
                by simp [Run.tick, Run.call], hcall, hdesc, hs.symm⟩)
            · rename_i hdesc
              obtain ⟨⟨m, hm⟩, hnone, herr⟩ := ih polled _ out r2 h
              have hlen : r2.calls.length = r.calls.length + 1 + m := by
                rw [hm]; simp [Run.tick, Run.call]; omega
              refine ⟨⟨m + 1, ?_⟩, ?_, ?_⟩
              · rw [hm]
                simp [Run.tick, Run.call, List.replicate_succ]
              · intro ho
                right
                rcases hnone ho with ⟨hr, si2, hsi2, hst2⟩ | ⟨hlt, last, si2, h1, h2, h3, h4⟩
                · refine ⟨by omega, polled, si2, ?_, hsi2, hst2, hdesc⟩
                  rw [hr]
                  simpa [Run.tick, Run.call] using hcall
                · exact ⟨by omega, last, si2, h1, h2, h3, h4⟩
              · intro summary hs
                simp only [Run.tick, Run.call, List.length_append, List.length_singleton]
                  at herr
                rcases herr summary hs with ⟨n, e, a1, a2, a3, a4⟩ |
                    ⟨n, p, dsc, a1, a2, a3, a4, a5⟩ | ⟨k, c, a1, a2, a3, a4⟩
                · exact Or.inl ⟨n, e, by omega, a2, a3, a4⟩
                · exact Or.inr (Or.inl ⟨n, p, dsc, by omega, a2, a3, a4, a5⟩)
                · exact Or.inr (Or.inr ⟨k, c, by omega, a2, a3, a4⟩)
        · rename_i ctxErr hsel
          simp only [Option.some.injEq, Prod.mk.injEq] at h
          obtain ⟨h1, h2⟩ := h
          subst h1 h2
          refine ⟨⟨0, by simp [Run.tick]⟩, fun h => (by cases h), ?_⟩
          intro summary hs
          simp only [Option.some.injEq, Outcome.error.injEq] at hs
          exact Or.inr (Or.inr ⟨r.selects, ctxErr, le_refl _, by simp [Run.tick], hsel,
            hs.symm⟩)
      · rename_i hst
        exact stop status r out r2 si hsi hst h

theorem resourceCPSDVValidationRead_calls (w : World) (d : ResourceData) (r : Run) :
    ∃ tail, (resourceCPSDVValidationRead w d r).2.2.calls = r.calls ++ tail := by
  unfold resourceCPSDVValidationRead
  split
  · exact ⟨[], by simp⟩
  · split
    · exact ⟨_, rfl⟩
    · split
      · exact ⟨_, rfl⟩
      · exact ⟨_, rfl⟩
      · rename_i enrollmentID _ _ _ _ _ changeID _
        split
        · exact ⟨[.getEnrollment enrollmentID, .getChangeStatus enrollmentID changeID],
            by simp [Run.call]⟩
        · split
          · exact ⟨[.getEnrollment enrollmentID, .getChangeStatus enrollmentID changeID],
              by simp [Run.call]⟩
          · exact ⟨[.getEnrollment enrollmentID, .getChangeStatus enrollmentID changeID],
              by simp [Run.call]⟩

theorem retryAcknowledgement_calls (w : World) (d : ResourceData)
    (enrollmentID changeID : Int) :
    ∀ (fuel : Nat) (err : String) (r : Run) (res : Outcome × ResourceData × Run),
      retryAcknowledgement w d enrollmentID changeID fuel err r = some res →
      ∃ tail, res.2.2.calls = r.calls ++ tail := by
  intro fuel
  induction fuel with
  | zero => intro err r res h; simp [retryAcknowledgement] at h
  | succ fuel ih =>
    intro err r res h
    rw [retryAcknowledgement] at h
    split at h
    · split at h
      · simp only [Option.some.injEq] at h
        obtain ⟨tail, ht⟩ := resourceCPSDVValidationRead_calls w
          { d with id := toString enrollmentID }
          ((r.tick).call
            (.acknowledgeDVChallenges AcknowledgementAcknowledge enrollmentID changeID))
        rw [← h, ht]
        exact ⟨.acknowledgeDVChallenges AcknowledgementAcknowledge enrollmentID changeID
          :: tail, by simp [Run.tick, Run.call]⟩
      · obtain ⟨tail, ht⟩ := ih _ _ res h
        rw [ht]
        exact ⟨.acknowledgeDVChallenges AcknowledgementAcknowledge enrollmentID changeID
          :: tail, by simp [Run.tick, Run.call]⟩
    · simp only [Option.some.injEq] at h
      rw [← h]
      exact ⟨[], by simp [Run.tick]⟩

theorem acknowledgeDVChallenges_calls (w : World) (fuel : Nat) (d : ResourceData)
    (enrollmentID changeID : Int) (r : Run) (res : Outcome × ResourceData × Run)
    (h : acknowledgeDVChallenges w fuel d enrollmentID changeID r = some res) :
    ∃ tail, res.2.2.calls = r.calls ++ tail := by
  unfold acknowledgeDVChallenges at h
  split at h
  · simp only [Option.some.injEq] at h
    obtain ⟨tail, ht⟩ := resourceCPSDVValidationRead_calls w
      { d with id := toString enrollmentID }
      (r.call (.acknowledgeDVChallenges AcknowledgementAcknowledge enrollmentID changeID))
    rw [← h, ht]
    exact ⟨.acknowledgeDVChallenges AcknowledgementAcknowledge enrollmentID changeID
      :: tail, by simp [Run.call]⟩
  · obtain ⟨tail, ht⟩ := retryAcknowledgement_calls w d enrollmentID changeID fuel _ _ res h
    rw [ht]
    exact ⟨.acknowledgeDVChallenges AcknowledgementAcknowledge enrollmentID changeID
      :: tail, by simp [Run.call]⟩

/-- Support for C6: the order of the calls of `resourceCPSDVValidationCreate`.  Either
create issues no `AcknowledgeDVChallenges` request at all, or its calls split into a part
`pre` without such a request, whose last call is a `GetChangeStatus` call answered with
the status `coodinate-domain-validation`, and the calls issued after it. -/
theorem create_acknowledges_after_coordinate_status (w : World) (fuel : Nat)
    (d : ResourceData) (r : Run) (out : Outcome) (d2 : ResourceData) (r2 : Run)
    (h : resourceCPSDVValidationCreate w fuel d r = some (out, d2, r2)) :
    (∃ new, r2.calls = r.calls ++ new ∧ ∀ q ∈ new, q.isAck = false) ∨
    (∃ pre post enrollmentID changeID status statusInfo,
      r2.calls = r.calls ++ pre ++ post ∧ (∀ q ∈ pre, q.isAck = false) ∧
      pre.getLast? = some (.getChangeStatus enrollmentID changeID) ∧
      w.GetChangeStatus (r.calls.length + pre.length - 1) enrollmentID changeID
        = .ok status ∧
      status.StatusInfo = some statusInfo ∧
      statusInfo.Status = statusCoordinateDomainValidation) := by
  unfold resourceCPSDVValidationCreate at h
  split at h
  · simp only [Option.some.injEq, Prod.mk.injEq] at h
    exact Or.inl ⟨[], by rw [← h.2.2]; simp, by simp⟩
  · rename_i enrollmentID _
    split at h
    · simp only [Option.some.injEq, Prod.mk.injEq] at h
      exact Or.inl ⟨[.getEnrollment enrollmentID], by rw [← h.2.2]; rfl,
        by simp [Request.isAck]⟩
    · split at h
      · simp only [Option.some.injEq, Prod.mk.injEq] at h
        exact Or.inl ⟨[.getEnrollment enrollmentID], by rw [← h.2.2]; rfl,
          by simp [Request.isAck]⟩
      · simp only [Option.some.injEq, Prod.mk.injEq] at h
        exact Or.inl ⟨[.getEnrollment enrollmentID], by rw [← h.2.2]; rfl,
          by simp [Request.isAck]⟩
      · rename_i changeID _
        split at h
        · simp only [Option.some.injEq, Prod.mk.injEq] at h
          exact Or.inl ⟨[.getEnrollment enrollmentID,
              .getChangeStatus enrollmentID changeID],
            by rw [← h.2.2]; simp [Run.call], by simp [Request.isAck]⟩
        · rename_i status hstatus
          split at h
          · simp at h
          · rename_i outcome r1 hpoll
            simp only [Option.some.injEq, Prod.mk.injEq] at h
            obtain ⟨⟨m, hm⟩, _, _⟩ := pollChangeStatus_trace w enrollmentID changeID fuel
              status _ _ _ hpoll
            refine Or.inl ⟨[.getEnrollment enrollmentID,
                .getChangeStatus enrollmentID changeID] ++
                List.replicate m (.getChangeStatus enrollmentID changeID), ?_, ?_⟩
            · rw [← h.2.2, hm]; simp [Run.call]
            · intro q hq
              simp only [List.mem_append, List.mem_cons, List.mem_singleton,
                List.not_mem_nil, or_false, List.mem_replicate] at hq
              rcases hq with (rfl | rfl) | ⟨_, rfl⟩ <;> rfl
          · rename_i r1 hpoll
            obtain ⟨⟨m, hm⟩, hnone, _⟩ := pollChangeStatus_trace w enrollmentID changeID fuel
              status _ _ _ hpoll
            obtain ⟨tail, ht⟩ := acknowledgeDVChallenges_calls w fuel d enrollmentID changeID
              r1 _ h
            simp only [Run.call] at hm hnone
            have hpre : ∀ q ∈ [Request.getEnrollment enrollmentID,
                Request.getChangeStatus enrollmentID changeID] ++
                List.replicate m (Request.getChangeStatus enrollmentID changeID),
                q.isAck = false := by
              intro q hq
              simp only [List.mem_append, List.mem_cons, List.mem_singleton,
                List.not_mem_nil, or_false, List.mem_replicate] at hq
              rcases hq with (rfl | rfl) | ⟨_, rfl⟩ <;> rfl
            have hlast : ([Request.getEnrollment enrollmentID,
                Request.getChangeStatus enrollmentID changeID] ++
                List.replicate m (Request.getChangeStatus enrollmentID changeID)).getLast?
                = some (.getChangeStatus enrollmentID changeID) := by
              cases m with
              | zero => rfl
              | succ m =>
                rw [List.replicate_succ', ← List.append_assoc, List.getLast?_append]
                rfl
            have hr1 : r1.calls.length = r.calls.length + (2 + m) := by
              rw [hm]; simp; omega
            rcases hnone trivial with ⟨hr, si, hsi, hst⟩ | ⟨hlt, last, si, h1, h2, h3, _⟩
            · have hm0 : m = 0 := by
                have := congrArg (fun x => x.calls.length) hr
                simp only at this
                rw [hr1] at this
                simp at this
                omega
              subst hm0
              refine Or.inr ⟨_, tail, enrollmentID, changeID, status, si, ?_, hpre, hlast,
                ?_, hsi, hst⟩
              · simp only at ht
                rw [ht, hm]
                simp
              · simpa using hstatus
            · refine Or.inr ⟨_, tail, enrollmentID, changeID, last, si, ?_, hpre, hlast,
                ?_, h2, h3⟩
              · simp only at ht
                rw [ht, hm]
                simp
              · rw [hr1] at h1
                rw [← h1]
                congr 1
                simp
                omega

end CPS

namespace Property
open GoStd

/-! ### The resource ID -/

theorem splitOnChar_ne_nil (sep : Char) (l : List Char) : splitOnChar sep l ≠ [] := by
  induction l with
  | nil => simp [splitOnChar]
  | cons c s ih =>
    rw [splitOnChar]
    split
    · simp
    · split <;> simp

theorem splitOnChar_length (sep : Char) (l : List Char) :
    (splitOnChar sep l).length = l.count sep + 1 := by
  induction l with
  | nil => simp [splitOnChar]
  | cons c s ih =>
    rw [splitOnChar]
    by_cases h : c = sep
    · subst h
      simp [ih]
    · rw [if_neg h]
      have hcount : (c :: s).count sep = s.count sep := by
        rw [List.count_cons]
        simp [h]
      rw [hcount, ← ih]
      split
      · rename_i heq
        exact absurd heq (splitOnChar_ne_nil sep s)
      · rename_i piece pieces heq
        simp [heq]

theorem splitOnChar_of_not_mem (sep : Char) (l : List Char) (h : sep ∉ l) :
    splitOnChar sep l = [l] := by
  induction l with
  | nil => rfl
  | cons c s ih =>
    have hc : c ≠ sep := fun hc => h (by simp [hc])
    have hs : sep ∉ s := fun hs => h (List.mem_cons_of_mem _ hs)
    rw [splitOnChar, if_neg hc, ih hs]

theorem splitOnChar_append (sep : Char) (a b : List Char) (h : sep ∉ a) :
    splitOnChar sep (a ++ sep :: b) = a :: splitOnChar sep b := by
  induction a with
  | nil => simp [splitOnChar]
  | cons c s ih =>
    have hc : c ≠ sep := fun hc => h (by simp [hc])
    have hs : sep ∉ s := fun hs => h (List.mem_cons_of_mem _ hs)
    rw [List.cons_append, splitOnChar, if_neg hc, ih hs]

/-- C8: `parsePropertyIncludeActivationResourceID` succeeds exactly on the strings with
exactly three `:`; on every other string it fails with "invalid include activation
identifier: " followed by the string; and for colon-free `contractID`, `groupID`,
`includeID` and `network` it maps the ID `contractID:groupID:includeID:network` set by
`resourcePropertyIncludeActivationUpsert` back to these four components. -/
theorem parsePropertyIncludeActivationResourceID_spec :
    (∀ s : String, (∃ id, parsePropertyIncludeActivationResourceID s = .ok id) ↔
      s.toList.count ':' = 3) ∧
    (∀ s : String, s.toList.count ':' ≠ 3 →
      parsePropertyIncludeActivationResourceID s =
        .error (.other ("invalid include activation identifier: " ++ s))) ∧
    (∀ contractID groupID includeID network : String,
      ':' ∉ contractID.toList → ':' ∉ groupID.toList → ':' ∉ includeID.toList →
      ':' ∉ network.toList →
      parsePropertyIncludeActivationResourceID
          (formatResourceID contractID groupID includeID network) =
        .ok { contractID := contractID, groupID := groupID, includeID := includeID,
              network := network }) := by
  have hlen : ∀ s : String, (stringsSplit s ':').length = s.toList.count ':' + 1 := by
    intro s
    simp [stringsSplit, splitOnChar_length]
  have hfail : ∀ s : String, s.toList.count ':' ≠ 3 →
      parsePropertyIncludeActivationResourceID s =
        .error (.other ("invalid include activation identifier: " ++ s)) := by
    intro s hs
    have h4 : (stringsSplit s ':').length ≠ 4 := by rw [hlen]; omega
    unfold parsePropertyIncludeActivationResourceID
    split
    · rename_i heq
      rw [heq] at h4
      simp at h4
    · rfl
  refine ⟨?_, hfail, ?_⟩
  · intro s
    constructor
    · rintro ⟨id, hid⟩
      by_contra hne
      rw [hfail s hne] at hid
      cases hid
    · intro hs
      have h4 : (stringsSplit s ':').length = 4 := by rw [hlen, hs]
      unfold parsePropertyIncludeActivationResourceID
      match hsp : stringsSplit s ':' with
      | [a, b, c, d] => exact ⟨_, rfl⟩
      | [] => rw [hsp] at h4; simp at h4
      | [_] => rw [hsp] at h4; simp at h4
      | [_, _] => rw [hsp] at h4; simp at h4
      | [_, _, _] => rw [hsp] at h4; simp at h4
      | _ :: _ :: _ :: _ :: _ :: _ => rw [hsp] at h4; simp at h4
  · intro contractID groupID includeID network hc hg hi hn
    have hsplit : stringsSplit (formatResourceID contractID groupID includeID network) ':' =
        [contractID, groupID, includeID, network] := by
      have hl : (formatResourceID contractID groupID includeID network).toList =
          contractID.toList ++ ':' :: (groupID.toList ++ ':' ::
            (includeID.toList ++ ':' :: network.toList)) := by
        simp [formatResourceID, String.toList, String.data_append]
      unfold stringsSplit
      rw [hl, splitOnChar_append _ _ _ hc, splitOnChar_append _ _ _ hg,
        splitOnChar_append _ _ _ hi, splitOnChar_of_not_mem _ _ hn]
      simp [String.toList]
    unfold parsePropertyIncludeActivationResourceID
    rw [hsplit]

/-- Witness for C8: the ID of include `inc_3` on staging parses into its components. -/
theorem parsePropertyIncludeActivationResourceID_spec_witness :
    parsePropertyIncludeActivationResourceID (formatResourceID "ctr_1" "grp_2" "inc_3" "STAGING")
      = .ok { contractID := "ctr_1", groupID := "grp_2", includeID := "inc_3",
              network := "STAGING" } :=
  parsePropertyIncludeActivationResourceID_spec.2.2 "ctr_1" "grp_2" "inc_3" "STAGING"
    (by decide) (by decide) (by decide) (by decide)

/-! ### Update -/

/-- C7: whenever one of `notify_emails`, `auto_acknowledge_rule_warnings`,
`compliance_record` has a change and `version` has none,
`resourcePropertyIncludeActivationUpdate` returns the error "attributes such as ... cannot
be updated after resource creation without 'version' attribute modification", issues no
API call and executes no `select` (the run is unchanged) and leaves the resource data
unchanged. -/
theorem resourcePropertyIncludeActivationUpdate_guard (sortSlice : SliceSort) (w : World)
    (fuel : Nat) (d : ResourceData) (r : Run)
    (hmutable : d.HasChanges
      ["notify_emails", "auto_acknowledge_rule_warnings", "compliance_record"] = true)
    (hversion : d.HasChanges ["version"] = false) :
    resourcePropertyIncludeActivationUpdate sortSlice w fuel d r =
      some (some (.other
        "attributes such as 'notify_emails', 'auto_acknowledge_rule_warnings', 'compliance_record' cannot be updated after resource creation without 'version' attribute modification"),
        d, r) := by
  unfold resourcePropertyIncludeActivationUpdate
  rw [if_pos ⟨hmutable, hversion⟩]
  rfl

/-- Witness for C7: a change of `notify_emails` alone is refused. -/
theorem resourcePropertyIncludeActivationUpdate_guard_witness :
    resourcePropertyIncludeActivationUpdate insertionSortSlice (worldListing [activationAugust])
        3 resourceEmailsChanged ⟨[], 0⟩ =
      some (some (.other updateWithoutVersionError), resourceEmailsChanged, ⟨[], 0⟩) :=
  resourcePropertyIncludeActivationUpdate_guard insertionSortSlice
    (worldListing [activationAugust]) 3 resourceEmailsChanged ⟨[], 0⟩ (by decide) (by decide)

/-! ### The latest active activation -/

theorem charsLess_irrefl (l : List Char) : charsLess l l = false := by
  induction l with
  | nil => rfl
  | cons c s ih => simp [charsLess, ih]

theorem updatedLater_irrefl (a : IncludeActivation) : updatedLater a a = false := by
  simp [updatedLater, stringGreater, charsLess_irrefl]

theorem find_first_of_pairwise {α : Type} (R : α → α → Prop) (cond : α → Bool) :
    ∀ (l : List α) (v : α), l.Pairwise R → l.find? cond = some v →
      ∀ b ∈ l, cond b = true → b = v ∨ R v b := by
  intro l
  induction l with
  | nil => intro v _ h; simp at h
  | cons a t ih =>
    intro v hp hf b hb hcb
    rw [List.pairwise_cons] at hp
    by_cases hca : cond a = true
    · rw [List.find?_cons_of_pos _ hca] at hf
      cases hf
      rcases List.mem_cons.mp hb with rfl | hbt
      · exact Or.inl rfl
      · exact Or.inr (hp.1 b hbt)
    · rw [List.find?_cons_of_neg _ hca] at hf
      rcases List.mem_cons.mp hb with rfl | hbt
      · exact absurd hcb hca
      · exact ih v hp.2 hf b hbt hcb

theorem getLatestActiveActivationInNetwork_spec (sortSlice : SliceSort) (w : World)
    (id : propertyIncludeActivationID) (r : Run) (acts : List IncludeActivation)
    (hlist : w.ListIncludeActivations r.calls.length id.contractID id.groupID id.includeID
      = .ok acts)
    (hsort : IsSortOf updatedLater acts (sortSlice updatedLater acts))
    (hsome : ∃ a ∈ acts, a.Status = ActivationStatusActive ∧ a.Network = id.network) :
    ∃ v, IsLatestActive id.network acts v ∧
      getLatestActiveActivationInNetwork sortSlice w id r =
        (.ok v, r.call (.listIncludeActivations id.contractID id.groupID id.includeID)) := by
  obtain ⟨a, ha, hst, hnet⟩ := hsome
  obtain ⟨hperm, hpw⟩ := hsort
  have hne : ¬ (acts.length = 0) := by
    intro h0
    rw [List.length_eq_zero] at h0
    rw [h0] at ha
    cases ha
  have hex : ∃ v, (sortSlice updatedLater acts).find?
      (fun ia => decide (ia.Status = ActivationStatusActive) &&
        decide (ia.Network = id.network)) = some v := by
    cases hfind : (sortSlice updatedLater acts).find?
      (fun ia => decide (ia.Status = ActivationStatusActive) &&
        decide (ia.Network = id.network)) with
    | some v => exact ⟨v, rfl⟩
    | none =>
      rw [List.find?_eq_none] at hfind
      have := hfind a (hperm.mem_iff.mpr ha)
      simp [hst, hnet] at this
  obtain ⟨v, hv⟩ := hex
  refine ⟨v, ?_, ?_⟩
  · have hvmem := List.mem_of_find?_eq_some hv
    have hvc := List.find?_some hv
    simp only [Bool.and_eq_true, decide_eq_true_eq] at hvc
    refine ⟨hperm.mem_iff.mp hvmem, hvc.1, hvc.2, ?_⟩
    intro b hb hbs hbn
    rcases find_first_of_pairwise _ _ _ v hpw hv b (hperm.mem_iff.mpr hb)
      (by simp [hbs, hbn]) with rfl | hR
    · exact updatedLater_irrefl _
    · exact hR
  · unfold getLatestActiveActivationInNetwork findLatestActivationWithCondition
    rw [hlist]
    simp only [hne, if_false, hv]

/-- C9: when the latest activation with status ACTIVE on the network of the resource (the
one that `resourcePropertyIncludeActivationRead` finds in the sorted listing) is answered
by `GetIncludeActivation` with activation type DEACTIVATE, Read sets the resource ID to the
empty string, returns no error and leaves every attribute of the state as it was. -/
theorem resourcePropertyIncludeActivationRead_deactivated (sortSlice : SliceSort) (w : World)
    (d : ResourceData) (r : Run) (id : propertyIncludeActivationID)
    (acts : List IncludeActivation)
    (hparse : parsePropertyIncludeActivationResourceID d.id = .ok id)
    (hlist : w.ListIncludeActivations r.calls.length id.contractID id.groupID id.includeID
      = .ok acts)
    (hsort : IsSortOf updatedLater acts (sortSlice updatedLater acts))
    (hsome : ∃ a ∈ acts, a.Status = ActivationStatusActive ∧ a.Network = id.network)
    (hdeact : ∀ a, IsLatestActive id.network acts a →
      ∃ resp, w.GetIncludeActivation (r.calls.length + 1) id.includeID a.ActivationID
          = .ok resp ∧
        resp.Activation.ActivationType = ActivationTypeDeactivate) :
    ∃ a, IsLatestActive id.network acts a ∧
      resourcePropertyIncludeActivationRead sortSlice w d r =
        (none, { d with id := "" },
          (r.call (.listIncludeActivations id.contractID id.groupID id.includeID)).call
            (.getIncludeActivation id.includeID a.ActivationID)) ∧
      (resourcePropertyIncludeActivationRead sortSlice w d r).2.1.attrs = d.attrs := by
  obtain ⟨v, hv, hget⟩ :=
    getLatestActiveActivationInNetwork_spec sortSlice w id r acts hlist hsort hsome
  obtain ⟨resp, hresp, htype⟩ := hdeact v hv
  have hread : resourcePropertyIncludeActivationRead sortSlice w d r =
      (none, { d with id := "" },
        (r.call (.listIncludeActivations id.contractID id.groupID id.includeID)).call
          (.getIncludeActivation id.includeID v.ActivationID)) := by
    unfold resourcePropertyIncludeActivationRead
      getLatestActiveIncludeActivationResponseInNetwork
    rw [hparse]
    simp only [hget]
    have hidx : (r.call (.listIncludeActivations id.contractID id.groupID
        id.includeID)).calls.length = r.calls.length + 1 := by simp [Run.call]
    rw [hidx, hresp]
    simp only [htype, if_true]
  exact ⟨v, hv, hread, by rw [hread]⟩

/-- Witness for C9: the include was activated in August and deactivated out-of-band in
September; Read clears the resource ID and keeps the attributes. -/
theorem resourcePropertyIncludeActivationRead_deactivated_witness :
    ∃ a, IsLatestActive "STAGING" [activationAugust, deactivationSeptember] a ∧
      resourcePropertyIncludeActivationRead insertionSortSlice
          (worldListing [activationAugust, deactivationSeptember]) resourceInState ⟨[], 0⟩ =
        (none, { resourceInState with id := "" },
          (Run.call ⟨[], 0⟩ (.listIncludeActivations "ctr_1" "grp_2" "inc_3")).call
            (.getIncludeActivation "inc_3" a.ActivationID)) ∧
      (resourcePropertyIncludeActivationRead insertionSortSlice
          (worldListing [activationAugust, deactivationSeptember]) resourceInState
          ⟨[], 0⟩).2.1.attrs = resourceInState.attrs :=
  resourcePropertyIncludeActivationRead_deactivated insertionSortSlice
    (worldListing [activationAugust, deactivationSeptember]) resourceInState ⟨[], 0⟩
    ⟨"ctr_1", "grp_2", "inc_3", "STAGING"⟩ [activationAugust, deactivationSeptember]
    rfl rfl ⟨by decide, by decide⟩
    ⟨deactivationSeptember, by decide, rfl, rfl⟩
    (fun a ha => by
      obtain ⟨hmem, _, _, hmax⟩ := ha
      have hcases : a = activationAugust ∨ a = deactivationSeptember := by
        simpa using hmem
      rcases hcases with rfl | rfl
      · have := hmax deactivationSeptember (by decide) rfl rfl
        exact absurd this (by decide)
      · exact ⟨_, rfl, rfl⟩)

/-! ### Upsert -/

theorem NoNewActivate.refl (r : Run) : NoNewActivate r r := fun _ h => h

theorem NoNewActivate.trans {r r2 r3 : Run} (h1 : NoNewActivate r r2)
    (h2 : NoNewActivate r2 r3) : NoNewActivate r r3 := fun req h => h1 req (h2 req h)

theorem NoNewActivate.list (r : Run) (c g i : String) :
    NoNewActivate r (r.call (.listIncludeActivations c g i)) := by
  intro req h
  simpa [Run.call] using h

theorem NoNewActivate.get (r : Run) (i a : String) :
    NoNewActivate r (r.call (.getIncludeActivation i a)) := by
  intro req h
  simpa [Run.call] using h

theorem NoNewActivate.tick (r : Run) : NoNewActivate r r.tick := fun _ h => h

theorem findLatestActivationWithCondition_run (sortSlice : SliceSort) (w : World)
    (id : propertyIncludeActivationID) (cond : IncludeActivation → Bool) (r : Run) :
    (findLatestActivationWithCondition sortSlice w id cond r).2 =
      r.call (.listIncludeActivations id.contractID id.groupID id.includeID) := by
  unfold findLatestActivationWithCondition
  split
  · rfl
  · split
    · rfl
    · split <;> rfl

theorem waitForActivationCondition_noActivate (w : World) (includeID activationID : String)
    (cond : String → Bool) :
    ∀ (fuel : Nat) (r : Run) (res : Except Err GetIncludeActivationResponse) (r2 : Run),
      waitForActivationCondition w includeID activationID cond fuel r = some (res, r2) →
      NoNewActivate r r2 := by
  intro fuel
  induction fuel with
  | zero =>
    intro r res r2 h
    rw [waitForActivationCondition] at h
    split at h
    · simp only [Option.some.injEq, Prod.mk.injEq] at h
      rw [← h.2]
      exact NoNewActivate.get _ _ _
    · split at h
      · simp only [Option.some.injEq, Prod.mk.injEq] at h
        rw [← h.2]
        exact NoNewActivate.get _ _ _
      · simp at h
  | succ fuel ih =>
    intro r res r2 h
    rw [waitForActivationCondition] at h
    split at h
    · simp only [Option.some.injEq, Prod.mk.injEq] at h
      rw [← h.2]
      exact NoNewActivate.get _ _ _
    · split at h
      · simp only [Option.some.injEq, Prod.mk.injEq] at h
        rw [← h.2]
        exact NoNewActivate.get _ _ _
      · dsimp only at h
        split at h
        · exact ((NoNewActivate.get r _ _).trans (NoNewActivate.tick _)).trans
            (ih _ res r2 h)
        · simp only [Option.some.injEq, Prod.mk.injEq] at h
          rw [← h.2]
          exact (NoNewActivate.get r _ _).trans (NoNewActivate.tick _)

theorem waitUntilNoPendingActivationInNetwork_noActivate (sortSlice : SliceSort) (w : World)
    (fuel : Nat) (data : propertyIncludeActivationData) (r : Run) (res : Option Err)
    (r2 : Run)
    (h : waitUntilNoPendingActivationInNetwork sortSlice w fuel data r = some (res, r2)) :
    NoNewActivate r r2 := by
  unfold waitUntilNoPendingActivationInNetwork findLatestActivationInNetwork at h
  have hrun := findLatestActivationWithCondition_run sortSlice w data.toID
    (fun ia => decide (ia.Network = data.toID.network)) r
  split at h
  · rename_i r1 heq
    rw [heq] at hrun
    simp only [Option.some.injEq, Prod.mk.injEq] at h
    rw [← h.2]
    simp only at hrun
    rw [hrun]
    exact NoNewActivate.list _ _ _ _
  · rename_i e r1 _ heq
    rw [heq] at hrun
    simp only [Option.some.injEq, Prod.mk.injEq] at h
    rw [← h.2]
    simp only at hrun
    rw [hrun]
    exact NoNewActivate.list _ _ _ _
  · rename_i act r1 heq
    rw [heq] at hrun
    simp only at hrun
    split at h
    · simp at h
    · rename_i e r3 hw
      simp only [Option.some.injEq, Prod.mk.injEq] at h
      rw [← h.2, hrun] at *
      exact (NoNewActivate.list _ _ _ _).trans
        (waitForActivationCondition_noActivate w _ _ _ fuel _ _ _ hw)
    · rename_i resp r3 hw
      simp only [Option.some.injEq, Prod.mk.injEq] at h
      rw [← h.2, hrun] at *
      exact (NoNewActivate.list _ _ _ _).trans
        (waitForActivationCondition_noActivate w _ _ _ fuel _ _ _ hw)

/-- C10: if the pending activations have settled (the first
`waitUntilNoPendingActivationInNetwork` returns without error, at run `r1`) and every most
recently updated activation with status ACTIVE on the configured network in the listing
that follows has activation type ACTIVATE and the configured include version, then Upsert
returns no error, sets the resource ID to `data.resourceID`, which is
`contractID:groupID:includeID:network`, issues
only the listing call after the wait, and sends no `ActivateInclude` request. -/
theorem resourcePropertyIncludeActivationUpsert_idempotent (sortSlice : SliceSort)
    (w : World) (fuel : Nat) (d : ResourceData) (r : Run)
    (data : propertyIncludeActivationData) (r1 : Run) (acts : List IncludeActivation)
    (hpop : d.populated = .ok data)
    (hwait : waitUntilNoPendingActivationInNetwork sortSlice w fuel data r = some (none, r1))
    (hlist : w.ListIncludeActivations r1.calls.length data.contractID data.groupID
      data.includeID = .ok acts)
    (hsort : IsSortOf updatedLater acts (sortSlice updatedLater acts))
    (hsome : ∃ a ∈ acts, a.Status = ActivationStatusActive ∧ a.Network = data.network)
    (hexp : ∀ a, IsLatestActive data.network acts a →
      a.ActivationType = ActivationTypeActivate ∧ a.IncludeVersion = data.version) :
    resourcePropertyIncludeActivationUpsert sortSlice w fuel d r =
      some (none,
        { d with id := data.resourceID },
        r1.call (.listIncludeActivations data.contractID data.groupID data.includeID)) ∧
    (∀ req, Request.activateInclude req ∈
        (r1.call (.listIncludeActivations data.contractID data.groupID data.includeID)).calls →
      Request.activateInclude req ∈ r.calls) := by
  obtain ⟨v, hv, hget⟩ :=
    getLatestActiveActivationInNetwork_spec sortSlice w data.toID r1 acts hlist hsort hsome
  obtain ⟨htype, hver⟩ := hexp v hv
  constructor
  · unfold resourcePropertyIncludeActivationUpsert
    rw [hpop]
    simp only [hwait]
    have hexpected : isLatestActiveExpectedActivated sortSlice w data r1 =
        (.ok true, r1.call (.listIncludeActivations data.contractID data.groupID
          data.includeID)) := by
      unfold isLatestActiveExpectedActivated isLatestActiveExpectedWithActivationType
      rw [hget]
      simp only [propertyIncludeActivationData.toID]
      rw [if_pos ⟨hv.2.1, htype, hver⟩]
    rw [hexpected]
  · exact (waitUntilNoPendingActivationInNetwork_noActivate sortSlice w fuel data r none r1
      hwait).trans (NoNewActivate.list _ _ _ _)

/-- Witness for C10: version 3 is the only activation, active on staging; Upsert for
version 3 lists, polls the activation once, lists again and sets the ID. -/
theorem resourcePropertyIncludeActivationUpsert_idempotent_witness :
    resourcePropertyIncludeActivationUpsert insertionSortSlice (worldListing [activationAugust])
        3 resourceInState ⟨[], 0⟩ =
      some (none,
        { resourceInState with id := formatResourceID "ctr_1" "grp_2" "inc_3" "STAGING" },
        Run.call ⟨[.listIncludeActivations "ctr_1" "grp_2" "inc_3",
          .getIncludeActivation "inc_3" "atv_1"], 0⟩
          (.listIncludeActivations "ctr_1" "grp_2" "inc_3")) ∧
    (∀ req, Request.activateInclude req ∈
        (Run.call ⟨[.listIncludeActivations "ctr_1" "grp_2" "inc_3",
          .getIncludeActivation "inc_3" "atv_1"], 0⟩
          (.listIncludeActivations "ctr_1" "grp_2" "inc_3")).calls →
      Request.activateInclude req ∈ (⟨[], 0⟩ : Run).calls) :=
  resourcePropertyIncludeActivationUpsert_idempotent insertionSortSlice
    (worldListing [activationAugust]) 3 resourceInState ⟨[], 0⟩ dataVersion3
    ⟨[.listIncludeActivations "ctr_1" "grp_2" "inc_3",
      .getIncludeActivation "inc_3" "atv_1"], 0⟩ [activationAugust]
    rfl rfl rfl ⟨by decide, by decide⟩ ⟨activationAugust, by decide, rfl, rfl⟩
    (fun a ha => by
      have : a = activationAugust := by simpa using ha.1
      subst this
      exact ⟨rfl, rfl⟩)

/-! ### Waiting for pending activations -/

theorem findLatestActivationWithCondition_spec (sortSlice : SliceSort) (w : World)
    (id : propertyIncludeActivationID) (cond : IncludeActivation → Bool) (r : Run)
    (acts : List IncludeActivation)
    (hlist : w.ListIncludeActivations r.calls.length id.contractID id.groupID id.includeID
      = .ok acts)
    (hsort : IsSortOf updatedLater acts (sortSlice updatedLater acts)) :
    ((∀ a ∈ acts, cond a = false) →
      findLatestActivationWithCondition sortSlice w id cond r =
        (.error .noLatestIncludeActivation,
          r.call (.listIncludeActivations id.contractID id.groupID id.includeID))) ∧
    ((∃ a ∈ acts, cond a = true) →
      ∃ v, v ∈ acts ∧ cond v = true ∧ (∀ b ∈ acts, cond b = true → updatedLater b v = false) ∧
        findLatestActivationWithCondition sortSlice w id cond r =
          (.ok v, r.call (.listIncludeActivations id.contractID id.groupID id.includeID))) := by
  obtain ⟨hperm, hpw⟩ := hsort
  constructor
  · intro hnone
    unfold findLatestActivationWithCondition
    rw [hlist]
    simp only
    split
    · rfl
    · have hfind : (sortSlice updatedLater acts).find? cond = none := by
        rw [List.find?_eq_none]
        intro x hx
        simp [hnone x (hperm.mem_iff.mp hx)]
      rw [hfind]
  · rintro ⟨a, ha, hca⟩
    have hne : ¬ (acts.length = 0) := by
      intro h0
      rw [List.length_eq_zero] at h0
      rw [h0] at ha
      cases ha
    have hex : ∃ v, (sortSlice updatedLater acts).find? cond = some v := by
      cases hfind : (sortSlice updatedLater acts).find? cond with
      | some v => exact ⟨v, rfl⟩
      | none =>
        rw [List.find?_eq_none] at hfind
        exact absurd hca (hfind a (hperm.mem_iff.mpr ha))
    obtain ⟨v, hv⟩ := hex
    refine ⟨v, hperm.mem_iff.mp (List.mem_of_find?_eq_some hv), List.find?_some hv, ?_, ?_⟩
    · intro b hb hcb
      rcases find_first_of_pairwise _ _ _ v hpw hv b (hperm.mem_iff.mpr hb) hcb with rfl | hR
      · exact updatedLater_irrefl _
      · exact hR
    · unfold findLatestActivationWithCondition
      rw [hlist]
      simp only [hne, if_false, hv]

theorem isTerminalStatus_iff (status : String) :
    isTerminalStatus status = true ↔
      status = ActivationStatusActive ∨ status = ActivationStatusFailed ∨
      status = ActivationStatusAborted ∨ status = ActivationStatusDeactivated := by
  simp [isTerminalStatus, or_assoc]

theorem waitForActivationCondition_success (w : World) (includeID activationID : String)
    (cond : String → Bool) :
    ∀ (fuel : Nat) (r : Run) (resp : GetIncludeActivationResponse) (r2 : Run),
      waitForActivationCondition w includeID activationID cond fuel r = some (.ok resp, r2) →
      r.calls.length < r2.calls.length ∧
      w.GetIncludeActivation (r2.calls.length - 1) includeID activationID = .ok resp ∧
      cond resp.Activation.Status = true := by
  intro fuel
  induction fuel with
  | zero =>
    intro r resp r2 h
    rw [waitForActivationCondition] at h
    split at h
    · simp at h
    · rename_i activation hget
      split at h
      · rename_i hc
        simp only [Option.some.injEq, Prod.mk.injEq, Except.ok.injEq] at h
        obtain ⟨h1, h2⟩ := h
        subst h1 h2
        exact ⟨by simp [Run.call], by simpa [Run.call] using hget, hc⟩
      · simp at h
  | succ fuel ih =>
    intro r resp r2 h
    rw [waitForActivationCondition] at h
    split at h
    · simp at h
    · rename_i activation hget
      split at h
      · rename_i hc
        simp only [Option.some.injEq, Prod.mk.injEq, Except.ok.injEq] at h
        obtain ⟨h1, h2⟩ := h
        subst h1 h2
        exact ⟨by simp [Run.call], by simpa [Run.call] using hget, hc⟩
      · dsimp only at h
        split at h
        · obtain ⟨h1, h2, h3⟩ := ih _ resp r2 h
          simp only [Run.call, Run.tick, List.length_append, List.length_singleton] at h1
          exact ⟨by omega, h2, h3⟩
        · simp at h

theorem waitForActivationCondition_polls (w : World) (includeID activationID : String)
    (cond : String → Bool) :
    ∀ (n fuel : Nat) (r : Run) (resp : GetIncludeActivationResponse), n ≤ fuel →
      (∀ j, j < n → w.select (r.selects + j) = .timer ∧
        ∃ pending, w.GetIncludeActivation (r.calls.length + j) includeID activationID
            = .ok pending ∧
          cond pending.Activation.Status = false) →
      w.GetIncludeActivation (r.calls.length + n) includeID activationID = .ok resp →
      cond resp.Activation.Status = true →
      waitForActivationCondition w includeID activationID cond fuel r =
        some (.ok resp,
          ⟨r.calls ++ List.replicate (n + 1) (.getIncludeActivation includeID activationID),
            r.selects + n⟩) := by
  intro n
  induction n with
  | zero =>
    intro fuel r resp _ _ hget hc
    simp only [Nat.add_zero] at hget
    cases fuel with
    | zero =>
      rw [waitForActivationCondition, hget]
      simp [hc, Run.call]
    | succ m =>
      rw [waitForActivationCondition, hget]
      simp [hc, Run.call]
  | succ n ih =>
    intro fuel r resp hfuel hpend hget hc
    obtain ⟨fuel2, rfl⟩ : ∃ m, fuel = m + 1 := ⟨fuel - 1, by omega⟩
    obtain ⟨hsel, pending, hp1, hp2⟩ := hpend 0 (Nat.succ_pos n)
    simp only [Nat.add_zero] at hsel hp1
    rw [waitForActivationCondition, hp1]
    simp only [hp2, hsel]
    rw [ih fuel2 _ resp (by omega)]
    · simp [Run.call, Run.tick, List.replicate_succ, Nat.add_comm, Nat.add_left_comm]
    · intro j hj
      obtain ⟨a1, pj, a2, a3⟩ := hpend (j + 1) (Nat.succ_lt_succ hj)
      refine ⟨?_, pj, ?_, a3⟩
      · rw [← a1]; simp only [Run.call, Run.tick]; congr 1; omega
      · rw [← a2]
        simp only [Run.call, Run.tick, List.length_append, List.length_singleton]
        congr 1; omega
    · rw [← hget]
      simp only [Run.call, Run.tick, List.length_append, List.length_singleton]
      congr 1; omega
    · exact hc

/-- The runs of `waitUntilNoPendingActivationInNetwork` in which the listing of the include
answers with `acts`. -/
theorem waitUntilNoPending_of_listing (sortSlice : SliceSort) (w : World)
    (fuel : Nat) (data : propertyIncludeActivationData) (r : Run)
    (acts : List IncludeActivation)
    (hlist : w.ListIncludeActivations r.calls.length data.contractID data.groupID
      data.includeID = .ok acts)
    (hsort : IsSortOf updatedLater acts (sortSlice updatedLater acts)) :
    (∀ r2, waitUntilNoPendingActivationInNetwork sortSlice w fuel data r = some (none, r2) →
      (∀ a ∈ acts, a.Network ≠ data.network) ∨
      (∃ act resp, IsLatestInNetwork data.network acts act ∧
        r.calls.length + 1 < r2.calls.length ∧
        w.GetIncludeActivation (r2.calls.length - 1) data.includeID act.ActivationID
          = .ok resp ∧
        (resp.Activation.Status = ActivationStatusActive ∨
          resp.Activation.Status = ActivationStatusFailed ∨
          resp.Activation.Status = ActivationStatusAborted ∨
          resp.Activation.Status = ActivationStatusDeactivated))) ∧
    ((∃ a ∈ acts, a.Network = data.network) →
      ∃ act, IsLatestInNetwork data.network acts act ∧
        ∀ (n : Nat) (resp : GetIncludeActivationResponse), n ≤ fuel →
          (∀ j, j < n → w.select (r.selects + j) = .timer ∧
            ∃ pending, w.GetIncludeActivation (r.calls.length + 1 + j) data.includeID
                act.ActivationID = .ok pending ∧
              isTerminalStatus pending.Activation.Status = false) →
          w.GetIncludeActivation (r.calls.length + 1 + n) data.includeID act.ActivationID
            = .ok resp →
          isTerminalStatus resp.Activation.Status = true →
          waitUntilNoPendingActivationInNetwork sortSlice w fuel data r =
            some (none,
              ⟨r.calls ++ .listIncludeActivations data.contractID data.groupID
                  data.includeID ::
                List.replicate (n + 1)
                  (.getIncludeActivation data.includeID act.ActivationID),
                r.selects + n⟩)) := by
  obtain ⟨hnone, hsome⟩ := findLatestActivationWithCondition_spec sortSlice w data.toID
    (fun ia => decide (ia.Network = data.toID.network)) r acts hlist hsort
  constructor
  · intro r2 h
    by_cases hex : ∃ a ∈ acts, a.Network = data.network
    · right
      obtain ⟨a, ha, hna⟩ := hex
      obtain ⟨v, hv, hcv, hmax, hfind⟩ := hsome ⟨a, ha, by simpa using hna⟩
      unfold waitUntilNoPendingActivationInNetwork findLatestActivationInNetwork at h
      rw [hfind] at h
      simp only at h
      split at h
      · simp at h
      · simp at h
      · rename_i resp r3 hw
        simp only [Option.some.injEq, Prod.mk.injEq, true_and] at h
        subst h
        obtain ⟨h1, h2, h3⟩ := waitForActivationCondition_success w _ _ _ fuel _ resp r3 hw
        refine ⟨v, resp, ⟨hv, by simpa using hcv, ?_⟩, ?_, h2, (isTerminalStatus_iff _).mp h3⟩
        · intro b hb hbn
          exact hmax b hb (by simpa using hbn)
        · simpa [Run.call] using h1
    · left
      intro a ha hna
      exact hex ⟨a, ha, hna⟩
  · rintro ⟨a, ha, hna⟩
    obtain ⟨v, hv, hcv, hmax, hfind⟩ := hsome ⟨a, ha, by simpa using hna⟩
    refine ⟨v, ⟨hv, by simpa using hcv, fun b hb hbn => hmax b hb (by simpa using hbn)⟩, ?_⟩
    intro n resp hfuel hpend hget hterm
    unfold waitUntilNoPendingActivationInNetwork findLatestActivationInNetwork
    rw [hfind]
    simp only
    rw [waitForActivationCondition_polls w data.includeID v.ActivationID isTerminalStatus n
      fuel _ resp hfuel]
    · simp [Run.call, propertyIncludeActivationData.toID]
    · intro j hj
      simpa [Run.call] using hpend j hj
    · simpa [Run.call] using hget
    · exact hterm

theorem waitUntilNoPending_of_listing_error (sortSlice : SliceSort) (w : World)
    (fuel : Nat) (data : propertyIncludeActivationData) (r : Run) (e : ApiError)
    (hlist : w.ListIncludeActivations r.calls.length data.contractID data.groupID
      data.includeID = .error e) :
    waitUntilNoPendingActivationInNetwork sortSlice w fuel data r =
      some (some (.api e),
        r.call (.listIncludeActivations data.contractID data.groupID data.includeID)) := by
  have hfind : findLatestActivationWithCondition sortSlice w data.toID
      (fun ia => decide (ia.Network = data.toID.network)) r =
      (.error (.api e),
        r.call (.listIncludeActivations data.contractID data.groupID data.includeID)) := by
    unfold findLatestActivationWithCondition
    simp only [propertyIncludeActivationData.toID]
    rw [hlist]
  unfold waitUntilNoPendingActivationInNetwork findLatestActivationInNetwork
  rw [hfind]

/-- C11: whatever the listing of the include answers (the result of `sort.Slice` being a
sorted permutation of a listed slice), if `waitUntilNoPendingActivationInNetwork` returns
without error, then the listing succeeded with some `acts` and either no listed activation
is on the configured network, or an activation on that network with the greatest update
date was answered by the last `GetIncludeActivation` call with one of the statuses ACTIVE,
FAILED, ABORTED, DEACTIVATED.  When the listing fails, the function returns that error
after the one call.  And a non-terminal status only leads to another poll: when the
latest activation on the network is answered `n` times with a non-terminal status, the
timer firing each time, and then with a terminal status, the function returns without
error after exactly `n + 1` `GetIncludeActivation` calls. -/
theorem waitUntilNoPendingActivationInNetwork_terminal (sortSlice : SliceSort) (w : World)
    (fuel : Nat) (data : propertyIncludeActivationData) (r : Run)
    (hsort : ∀ acts, w.ListIncludeActivations r.calls.length data.contractID data.groupID
      data.includeID = .ok acts → IsSortOf updatedLater acts (sortSlice updatedLater acts)) :
    (∀ r2, waitUntilNoPendingActivationInNetwork sortSlice w fuel data r = some (none, r2) →
      ∃ acts, w.ListIncludeActivations r.calls.length data.contractID data.groupID
          data.includeID = .ok acts ∧
        ((∀ a ∈ acts, a.Network ≠ data.network) ∨
        (∃ act resp, IsLatestInNetwork data.network acts act ∧
          r.calls.length + 1 < r2.calls.length ∧
          w.GetIncludeActivation (r2.calls.length - 1) data.includeID act.ActivationID
            = .ok resp ∧
          (resp.Activation.Status = ActivationStatusActive ∨
            resp.Activation.Status = ActivationStatusFailed ∨
            resp.Activation.Status = ActivationStatusAborted ∨
            resp.Activation.Status = ActivationStatusDeactivated)))) ∧
    (∀ e, w.ListIncludeActivations r.calls.length data.contractID data.groupID
        data.includeID = .error e →
      waitUntilNoPendingActivationInNetwork sortSlice w fuel data r =
        some (some (.api e),
          r.call (.listIncludeActivations data.contractID data.groupID data.includeID))) ∧
    (∀ acts, w.ListIncludeActivations r.calls.length data.contractID data.groupID
        data.includeID = .ok acts →
      (∃ a ∈ acts, a.Network = data.network) →
      ∃ act, IsLatestInNetwork data.network acts act ∧
        ∀ (n : Nat) (resp : GetIncludeActivationResponse), n ≤ fuel →
          (∀ j, j < n → w.select (r.selects + j) = .timer ∧
            ∃ pending, w.GetIncludeActivation (r.calls.length + 1 + j) data.includeID
                act.ActivationID = .ok pending ∧
              isTerminalStatus pending.Activation.Status = false) →
          w.GetIncludeActivation (r.calls.length + 1 + n) data.includeID act.ActivationID
            = .ok resp →
          isTerminalStatus resp.Activation.Status = true →
          waitUntilNoPendingActivationInNetwork sortSlice w fuel data r =
            some (none,
              ⟨r.calls ++ .listIncludeActivations data.contractID data.groupID
                  data.includeID ::
                List.replicate (n + 1)
                  (.getIncludeActivation data.includeID act.ActivationID),
                r.selects + n⟩)) := by
  refine ⟨?_, ?_, ?_⟩
  · intro r2 h
    cases hlist : w.ListIncludeActivations r.calls.length data.contractID data.groupID
        data.includeID with
    | error e =>
      rw [waitUntilNoPending_of_listing_error sortSlice w fuel data r e hlist] at h
      simp at h
    | ok acts =>
      exact ⟨acts, rfl,
        (waitUntilNoPending_of_listing sortSlice w fuel data r acts hlist
          (hsort acts hlist)).1 r2 h⟩
  · intro e hlist
    exact waitUntilNoPending_of_listing_error sortSlice w fuel data r e hlist
  · intro acts hlist hex
    exact (waitUntilNoPending_of_listing sortSlice w fuel data r acts hlist
      (hsort acts hlist)).2 hex

/-- Witness for C11: the activation `atv_1` is pending at the first poll and active at the
second; the function returns after one listing, two polls and one wait. -/
theorem waitUntilNoPendingActivationInNetwork_terminal_witness :
    ∃ act, IsLatestInNetwork "STAGING" [activationPending] act ∧
      waitUntilNoPendingActivationInNetwork insertionSortSlice worldPendingOnce 3
          dataVersion3 ⟨[], 0⟩ =
        some (none, ⟨[.listIncludeActivations "ctr_1" "grp_2" "inc_3",
          .getIncludeActivation "inc_3" act.ActivationID,
          .getIncludeActivation "inc_3" act.ActivationID], 1⟩) := by
  obtain ⟨act, hact, h⟩ := (waitUntilNoPendingActivationInNetwork_terminal insertionSortSlice
    worldPendingOnce 3 dataVersion3 ⟨[], 0⟩
    (fun acts hacts => by
      have heq : acts = [activationPending] := by
        injection hacts with hacts
        exact hacts.symm
      subst heq
      exact ⟨by decide, by decide⟩)).2.2 [activationPending] rfl
    ⟨activationPending, by decide, rfl⟩
  refine ⟨act, hact, ?_⟩
  have := h 1 { ContractID := "ctr_1", GroupID := "grp_2", Validations := none,
                Activation := activationAugust } (by decide)
    (fun j hj => by
      have hj0 : j = 0 := by omega
      subst hj0
      exact ⟨rfl, _, rfl, by decide⟩)
    rfl (by decide)
  simpa using this

/-! ### The context in the polling loops -/

theorem waitForActivationCondition_context_done (w : World) (includeID activationID : String)
    (cond : String → Bool) (fuel : Nat) (r : Run) (pending : GetIncludeActivationResponse)
    (ctxErr : CtxErr)
    (hget : w.GetIncludeActivation r.calls.length includeID activationID = .ok pending)
    (hcond : cond pending.Activation.Status = false)
    (hdone : w.select r.selects = .done ctxErr) :
    waitForActivationCondition w includeID activationID cond (fuel + 1) r =
      some (.error (terminateProcess ctxErr pending.Activation.Status),
        (r.call (.getIncludeActivation includeID activationID)).tick) := by
  rw [waitForActivationCondition, hget]
  simp [hcond, hdone]

/-- C12, the code at the failing input: the context is done (deadline exceeded) at every
`select` and the server keeps answering 'not found'; `waitForActivationCreation` never
returns: after every number of iterations it is still polling, since its `select` has the
timer as only case. -/
theorem waitForActivationCreation_ignores_context :
    (∀ k, worldNotFoundContextDone.select k = .done .deadlineExceeded) ∧
    ∀ (fuel : Nat) (r : Run),
      waitForActivationCreation worldNotFoundContextDone "inc_3" "atv_9" fuel r = none := by
  refine ⟨fun _ => rfl, ?_⟩
  intro fuel
  induction fuel with
  | zero => intro r; rfl
  | succ fuel ih =>
    intro r
    rw [waitForActivationCreation]
    exact ih _

end Property

namespace GTM
open GoStd

/-! ### `loadServersEqual` -/

theorem loadServersEqual_set (old new : List String) :
    loadServersEqual (.set old) (.set new) = true ↔
      old.length = new.length ∧ ∀ s ∈ new, s ∈ old := by
  simp [loadServersEqual]

theorem loadServersEqual_iff (old new : List String) (hold : old.Nodup) (hnew : new.Nodup) :
    loadServersEqual (.set old) (.set new) = true ↔ ∀ s, s ∈ old ↔ s ∈ new := by
  rw [loadServersEqual_set]
  constructor
  · rintro ⟨hlen, hsub⟩ s
    have hperm : new.Perm old :=
      (hnew.subperm hsub).perm_of_length_le (le_of_eq hlen)
    exact (hperm.mem_iff).symm
  · intro h
    have hperm : old.Perm new := (List.perm_ext_iff_of_nodup hold hnew).mpr h
    exact ⟨hperm.length_eq, fun s hs => (h s).mpr hs⟩

/-- C14: on two sets of strings `loadServersEqual` answers true exactly when they have the
same elements, whatever the order of the elements; hence it answers true on a set and
itself, and the same in both directions; when either argument is not a set (the nil
interface or a slice) it answers false. -/
theorem loadServersEqual_spec :
    (∀ old new : List String, old.Nodup → new.Nodup →
      (loadServersEqual (.set old) (.set new) = true ↔ ∀ s, s ∈ old ↔ s ∈ new)) ∧
    (∀ old old2 new new2 : List String, old.Nodup → new.Nodup → old.Perm old2 →
      new.Perm new2 →
      loadServersEqual (.set old2) (.set new2) = loadServersEqual (.set old) (.set new)) ∧
    (∀ l : List String, loadServersEqual (.set l) (.set l) = true) ∧
    (∀ old new : List String, old.Nodup → new.Nodup →
      loadServersEqual (.set old) (.set new) = loadServersEqual (.set new) (.set old)) ∧
    (∀ (v : Value) (l : List String),
      loadServersEqual .nil v = false ∧ loadServersEqual (.strings l) v = false ∧
      loadServersEqual v .nil = false ∧ loadServersEqual v (.strings l) = false) ∧
    loadServersEqual (.set ["a", "b"]) (.set ["b", "a"]) = true ∧
    loadServersEqual (.set ["a", "b"]) (.set ["a", "c"]) = false := by
  refine ⟨loadServersEqual_iff, ?_, ?_, ?_, ?_, by decide, by decide⟩
  · intro old old2 new new2 hold hnew hp1 hp2
    rw [Bool.eq_iff_iff, loadServersEqual_iff old2 new2 (hp1.nodup_iff.mp hold)
      (hp2.nodup_iff.mp hnew), loadServersEqual_iff old new hold hnew]
    constructor
    · intro h s
      rw [hp1.mem_iff, hp2.mem_iff]
      exact h s
    · intro h s
      rw [← hp1.mem_iff, ← hp2.mem_iff]
      exact h s
  · intro l
    rw [loadServersEqual_set]
    exact ⟨rfl, fun s hs => hs⟩
  · intro old new hold hnew
    rw [Bool.eq_iff_iff, loadServersEqual_iff old new hold hnew,
      loadServersEqual_iff new old hnew hold]
    exact ⟨fun h s => (h s).symm, fun h s => (h s).symm⟩
  · intro v l
    refine ⟨rfl, rfl, ?_, ?_⟩
    · cases v <;> rfl
    · cases v <;> rfl

/-! ### `populateTerraformResourceInstancesState` -/

theorem lookup_eq_none_of_not_key (m : Inventory) (key : Int)
    (h : ∀ entry ∈ m, entry.1 ≠ key) : List.lookup key m = none := by
  induction m with
  | nil => rfl
  | cons p m ih =>
    obtain ⟨k, v⟩ := p
    have hk : k ≠ key := h (k, v) (List.mem_cons_self _ _)
    have hb : (key == k) = false := by
      rw [beq_eq_false_iff_ne]
      exact fun e => hk e.symm
    rw [List.lookup_cons, hb]
    exact ih (fun entry he => h entry (List.mem_cons_of_mem _ he))

theorem mem_of_lookup_eq_some (m : Inventory) (key : Int) (value : ResourceInstance)
    (h : List.lookup key m = some value) : (key, value) ∈ m := by
  induction m with
  | nil => cases h
  | cons p m ih =>
    obtain ⟨k, v⟩ := p
    rw [List.lookup_cons] at h
    by_cases hk : key = k
    · subst hk
      simp only [beq_self_eq_true, Option.some.injEq] at h
      subst h
      exact List.mem_cons_self _ _
    · have hb : (key == k) = false := by
        rw [beq_eq_false_iff_ne]
        exact hk
      rw [hb] at h
      exact List.mem_cons_of_mem _ (ih h)

theorem lookup_eq_some_of_mem (m : Inventory) (key : Int) (value : ResourceInstance)
    (hnd : (m.map fun entry => entry.1).Nodup) (h : (key, value) ∈ m) :
    List.lookup key m = some value := by
  induction m with
  | nil => cases h
  | cons p m ih =>
    obtain ⟨k, v⟩ := p
    rw [List.map_cons, List.nodup_cons] at hnd
    rw [List.lookup_cons]
    rcases List.mem_cons.mp h with heq | hin
    · cases heq
      simp
    · have hk : key ≠ k := by
        intro e
        subst e
        exact hnd.1 (List.mem_map.mpr ⟨(key, value), hin, rfl⟩)
      have hb : (key == k) = false := by
        rw [beq_eq_false_iff_ne]
        exact hk
      rw [hb]
      exact ih hnd.2 hin

theorem lookup_delete_of_ne (m : Inventory) (key other : Int) (h : key ≠ other) :
    List.lookup key (Inventory.delete m other) = List.lookup key m := by
  induction m with
  | nil => rfl
  | cons p m ih =>
    obtain ⟨k, v⟩ := p
    unfold Inventory.delete at ih ⊢
    by_cases hk : k = other
    · subst hk
      have hb : (key == k) = false := by
        rw [beq_eq_false_iff_ne]
        exact h
      rw [List.filter_cons, List.lookup_cons, hb]
      simpa using ih
    · rw [List.filter_cons]
      simp only [ne_eq, hk, not_false_eq_true, decide_True, if_true, List.lookup_cons]
      rw [ih]

theorem buildInventory_foldl (instances : List ResourceInstance) :
    ∀ (inventory : Inventory),
      ((inventory.map fun entry => entry.1) ++
        instances.map fun inst => inst.DatacenterID).Nodup →
      instances.foldl
          (fun inventory riObj => Inventory.assign inventory riObj.DatacenterID riObj)
          inventory =
        inventory ++ instances.map fun inst => (inst.DatacenterID, inst) := by
  induction instances with
  | nil => intro inventory _; simp
  | cons inst rest ih =>
    intro inventory hnd
    have hnot : ∀ entry ∈ inventory, entry.1 ≠ inst.DatacenterID := by
      intro entry he heq
      rw [List.nodup_append] at hnd
      exact hnd.2.2 (List.mem_map.mpr ⟨entry, he, rfl⟩)
        (by rw [heq]; simp)
    have hset : Inventory.assign inventory inst.DatacenterID inst =
        inventory ++ [(inst.DatacenterID, inst)] := by
      unfold Inventory.assign
      rw [if_neg]
      simp only [List.any_eq_true, decide_eq_true_eq, not_exists, not_and]
      exact hnot
    rw [List.foldl_cons, hset, ih]
    · simp
    · simpa [List.map_append, List.append_assoc] using hnd

theorem buildInventory_eq (instances : List ResourceInstance)
    (hnd : (instances.map fun inst => inst.DatacenterID).Nodup) :
    buildInventory instances = instances.map fun inst => (inst.DatacenterID, inst) := by
  unfold buildInventory
  rw [buildInventory_foldl instances [] (by simpa using hnd)]
  simp

theorem not_key_of_lookup_eq_none (m : Inventory) (key : Int)
    (h : List.lookup key m = none) : ∀ entry ∈ m, entry.1 ≠ key := by
  intro entry he heq
  obtain ⟨k, v⟩ := entry
  simp only at heq
  subst heq
  induction m with
  | nil => cases he
  | cons p m ih =>
    obtain ⟨k2, v2⟩ := p
    rw [List.lookup_cons] at h
    by_cases hk : k = k2
    · subst hk
      simp at h
    · have hb : (k == k2) = false := by
        rw [beq_eq_false_iff_ne]
        exact hk
      rw [hb] at h
      rcases List.mem_cons.mp he with heq | hin
      · cases heq
        exact hk rfl
      · exact ih hin h

theorem refreshStateList_spec (h : Helpers) :
    ∀ (st : List StateInstance) (inv : Inventory),
      (st.map fun ri => ri.datacenter_id).Nodup →
      (∀ ri ∈ st, ∀ l, ri.load_servers ≠ .strings l) →
      ∃ entries left, refreshStateList h st inv = some (entries, left) ∧
        (entries.map fun ri => ri.datacenter_id) = (st.map fun ri => ri.datacenter_id) ∧
        left = inv.filter (fun entry =>
          decide (entry.1 ∉ st.map fun ri => ri.datacenter_id)) ∧
        (∀ e ∈ entries, (List.lookup e.datacenter_id inv = none ∧ e ∈ st) ∨
          ∃ inst, List.lookup e.datacenter_id inv = some inst ∧
            e.use_default_load_object = inst.UseDefaultLoadObject ∧
            e.load_object = inst.LoadObject ∧ e.load_object_port = inst.LoadObjectPort) ∧
        (∀ e ∈ st, List.lookup e.datacenter_id inv = none → e ∈ entries) := by
  intro st
  induction st with
  | nil =>
    intro inv _ _
    exact ⟨[], inv, rfl, rfl, by simp, fun e he => (by cases he), fun e he => (by cases he)⟩
  | cons ri rest ih =>
    intro inv hnd hsets
    rw [List.map_cons, List.nodup_cons] at hnd
    obtain ⟨hri, hrest⟩ := hnd
    have hsets2 : ∀ ri2 ∈ rest, ∀ l, ri2.load_servers ≠ .strings l :=
      fun ri2 h2 => hsets ri2 (List.mem_cons_of_mem _ h2)
    cases hlook : List.lookup ri.datacenter_id inv with
    | none =>
      obtain ⟨entries, left, hrun, hids, hleft, hin, hout⟩ := ih inv hrest hsets2
      refine ⟨ri :: entries, left, ?_, ?_, ?_, ?_, ?_⟩
      · rw [refreshStateList, hlook]
        simp only [hrun]
      · simp [hids]
      · rw [hleft]
        apply List.filter_congr
        intro entry he
        have := not_key_of_lookup_eq_none inv _ hlook entry he
        simp [this]
      · intro e he
        rcases List.mem_cons.mp he with rfl | he2
        · exact Or.inl ⟨hlook, List.mem_cons_self _ _⟩
        · rcases hin e he2 with ⟨h1, h2⟩ | hr
          · exact Or.inl ⟨h1, List.mem_cons_of_mem _ h2⟩
          · exact Or.inr hr
      · intro e he hn
        rcases List.mem_cons.mp he with rfl | he2
        · exact List.mem_cons_self _ _
        · exact List.mem_cons_of_mem _ (hout e he2 hn)
    | some riObject =>
      obtain ⟨loadServers, hrec⟩ : ∃ v, reconcileLoadServers h ri.load_servers riObject =
          some v := by
        have hs := hsets ri (List.mem_cons_self _ _)
        cases hv : ri.load_servers with
        | nil => exact ⟨_, rfl⟩
        | set elems => exact ⟨_, rfl⟩
        | strings l => exact absurd hv (hs l)
      obtain ⟨entries, left, hrun, hids, hleft, hin, hout⟩ :=
        ih (Inventory.delete inv ri.datacenter_id) hrest hsets2
      have hne : ∀ e ∈ entries, e.datacenter_id ≠ ri.datacenter_id := by
        intro e he heq
        apply hri
        rw [← hids, ← heq]
        exact List.mem_map.mpr ⟨e, he, rfl⟩
      refine ⟨refreshInstance ri riObject loadServers :: entries, left, ?_, ?_, ?_, ?_, ?_⟩
      · rw [refreshStateList, hlook]
        simp only [hrec, hrun]
      · simp [hids, refreshInstance]
      · rw [hleft, Inventory.delete, List.filter_filter]
        apply List.filter_congr
        intro entry _
        rw [Bool.eq_iff_iff]
        simp only [List.map_cons, List.mem_cons, not_or, Bool.and_eq_true,
          decide_eq_true_eq, ne_eq]
        exact and_comm
      · intro e he
        rcases List.mem_cons.mp he with rfl | he2
        · exact Or.inr ⟨riObject, hlook, rfl, rfl, rfl⟩
        · have hk := hne e he2
          rw [← lookup_delete_of_ne inv _ _ hk]
          rcases hin e he2 with ⟨h1, h2⟩ | hr
          · exact Or.inl ⟨h1, List.mem_cons_of_mem _ h2⟩
          · exact Or.inr hr
      · intro e he hn
        rcases List.mem_cons.mp he with rfl | he2
        · rw [hlook] at hn
          cases hn
        · have hk : e.datacenter_id ≠ ri.datacenter_id := by
            intro heq
            apply hri
            rw [← heq]
            exact List.mem_map.mpr ⟨e, he2, rfl⟩
          rw [← lookup_delete_of_ne inv _ _ hk] at hn
          exact List.mem_cons_of_mem _ (hout e he2 hn)

/-- C13 as stated fails: the state holds an entry for datacenter 3131 and the API returns
only the instance of datacenter 3132; the list written to state keeps the entry for 3131
unchanged, before the new entry for 3132. -/
theorem populateTerraformResourceInstancesState_keeps_unreturned :
    populateTerraformResourceInstancesState helpersFromServer (fun m => m)
        [stateInstance3131] [instance3132] =
      some [stateInstance3131, newInstance instance3132] ∧
    stateInstance3131.datacenter_id ∉ [instance3132].map (fun inst => inst.DatacenterID) :=
  ⟨by decide, by decide⟩

/-- C13, amended: let the API return instances with distinct datacenter IDs, let the
entries of the state have distinct datacenter IDs and load servers that are sets or nil,
and let `range` visit every entry of the map once.  Then the function writes a list with
distinct datacenter IDs in which every returned instance has an entry (hence exactly one)
that carries the returned `use_default_load_object`, `load_object` and
`load_object_port`; and the entries for datacenter IDs that the API did not return are
exactly the entries that the state had for them, unchanged. -/
theorem populateTerraformResourceInstancesState_spec (h : Helpers)
    (rangeOrder : Inventory → Inventory) (riStateList : List StateInstance)
    (instances : List ResourceInstance)
    (horder : ∀ m, (rangeOrder m).Perm m)
    (hinst : (instances.map fun inst => inst.DatacenterID).Nodup)
    (hstate : (riStateList.map fun ri => ri.datacenter_id).Nodup)
    (hsets : ∀ ri ∈ riStateList, ∀ l, ri.load_servers ≠ .strings l) :
    ∃ written,
      populateTerraformResourceInstancesState h rangeOrder riStateList instances =
        some written ∧
      (written.map fun ri => ri.datacenter_id).Nodup ∧
      (∀ inst ∈ instances, ∃ e ∈ written, Carries e inst) ∧
      (∀ e : StateInstance, e.datacenter_id ∉ (instances.map fun inst => inst.DatacenterID) →
        (e ∈ written ↔ e ∈ riStateList)) := by
  obtain ⟨entries, left, hrun, hids, hleft, hin, hout⟩ :=
    refreshStateList_spec h riStateList (buildInventory instances) hstate hsets
  rw [buildInventory_eq instances hinst] at hrun hleft hin hout
  have hkeys : ((instances.map fun inst => (inst.DatacenterID, inst)).map
      fun entry => entry.1) = instances.map fun inst => inst.DatacenterID := by
    rw [List.map_map]; rfl
  have hinv : ∀ entry ∈ instances.map (fun inst => (inst.DatacenterID, inst)),
      entry.2 ∈ instances ∧ entry.2.DatacenterID = entry.1 := by
    intro entry he
    obtain ⟨inst, hi, rfl⟩ := List.mem_map.mp he
    exact ⟨hi, rfl⟩
  have hleftmem : ∀ entry, entry ∈ rangeOrder left ↔
      entry ∈ instances.map (fun inst => (inst.DatacenterID, inst)) ∧
        entry.1 ∉ riStateList.map (fun ri => ri.datacenter_id) := by
    intro entry
    rw [(horder left).mem_iff, hleft, List.mem_filter, decide_eq_true_eq]
  refine ⟨entries ++ (rangeOrder left).map (fun entry => newInstance entry.2), ?_, ?_, ?_, ?_⟩
  · rw [populateTerraformResourceInstancesState, buildInventory_eq instances hinst, hrun]
  · rw [List.map_append, List.map_map, hids, List.nodup_append]
    refine ⟨hstate, ?_, ?_⟩
    · have hperm : ((rangeOrder left).map ((fun ri => ri.datacenter_id) ∘
          fun entry => newInstance entry.2)).Perm
          (left.map ((fun ri => ri.datacenter_id) ∘ fun entry => newInstance entry.2)) :=
        (horder left).map _
      rw [hperm.nodup_iff, hleft]
      have hsub := (List.filter_sublist (p := fun entry : Int × ResourceInstance =>
        decide (entry.1 ∉ riStateList.map fun ri => ri.datacenter_id))
        (l := instances.map fun inst => (inst.DatacenterID, inst))).map
        ((fun ri => ri.datacenter_id) ∘ fun entry => newInstance entry.2)
      refine List.Nodup.sublist hsub ?_
      rw [List.map_map]
      exact hinst
    · intro x hx1 hx2
      obtain ⟨entry, he, rfl⟩ := List.mem_map.mp hx2
      obtain ⟨he1, he2⟩ := (hleftmem entry).mp he
      apply he2
      have := (hinv entry he1).2
      simp only [Function.comp, newInstance] at hx1
      rw [this] at hx1
      exact hx1
  · intro inst hi
    have hmemInv : (inst.DatacenterID, inst) ∈
        instances.map (fun inst => (inst.DatacenterID, inst)) :=
      List.mem_map.mpr ⟨inst, hi, rfl⟩
    by_cases hmem : inst.DatacenterID ∈ riStateList.map (fun ri => ri.datacenter_id)
    · rw [← hids] at hmem
      obtain ⟨e, he, heq⟩ := List.mem_map.mp hmem
      refine ⟨e, List.mem_append_left _ he, ?_⟩
      rcases hin e he with ⟨hnone, _⟩ | ⟨inst2, hsome, h1, h2, h3⟩
      · exact absurd heq.symm (not_key_of_lookup_eq_none _ _ hnone _ hmemInv)
      · have hl := lookup_eq_some_of_mem _ _ _ (by rw [hkeys]; exact hinst) hmemInv
        rw [heq] at hsome
        rw [hl] at hsome
        cases hsome
        exact ⟨heq, h1, h2, h3⟩
    · refine ⟨newInstance inst, List.mem_append_right _ ?_, rfl, rfl, rfl, rfl⟩
      exact List.mem_map.mpr ⟨(inst.DatacenterID, inst),
        (hleftmem _).mpr ⟨hmemInv, hmem⟩, rfl⟩
  · intro e hnot
    constructor
    · intro he
      rcases List.mem_append.mp he with he1 | he2
      · rcases hin e he1 with ⟨_, hst⟩ | ⟨inst2, hsome, _⟩
        · exact hst
        · exfalso
          apply hnot
          have hm := mem_of_lookup_eq_some _ _ _ hsome
          obtain ⟨hi, hid⟩ := hinv _ hm
          exact List.mem_map.mpr ⟨inst2, hi, hid⟩
      · exfalso
        apply hnot
        obtain ⟨entry, hentry, rfl⟩ := List.mem_map.mp he2
        obtain ⟨hi, _⟩ := hinv entry ((hleftmem entry).mp hentry).1
        exact List.mem_map.mpr ⟨entry.2, hi, rfl⟩
    · intro he
      apply List.mem_append_left
      apply hout e he
      apply lookup_eq_none_of_not_key
      intro entry hentry heq
      apply hnot
      obtain ⟨hi, hid⟩ := hinv entry hentry
      exact List.mem_map.mpr ⟨entry.2, hi, hid.trans heq⟩

/-- Witness for C13, amended: the state has an entry for datacenter 3131 and the API
returns the instances of the datacenters 3131 and 3132. -/
theorem populateTerraformResourceInstancesState_spec_witness :
    ∃ written,
      populateTerraformResourceInstancesState helpersFromServer (fun m => m)
        [stateInstance3131] [instance3131, instance3132] = some written ∧
      (written.map fun ri => ri.datacenter_id).Nodup ∧
      (∀ inst ∈ [instance3131, instance3132], ∃ e ∈ written, Carries e inst) ∧
      (∀ e : StateInstance,
        e.datacenter_id ∉ ([instance3131, instance3132].map fun inst => inst.DatacenterID) →
        (e ∈ written ↔ e ∈ [stateInstance3131])) :=
  populateTerraformResourceInstancesState_spec helpersFromServer (fun m => m)
    [stateInstance3131] [instance3131, instance3132] (fun m => List.Perm.refl m)
    (by decide) (by decide)
    (by
      intro ri hri l hl
      rw [List.mem_singleton] at hri
      subst hri
      cases hl)

end GTM
